import Mathlib

/-!
Verification of the clone-hero-maker core against its specification.

The Python sources are shallowly embedded:
* Python `str` values are modelled as `List Char` (`PyStr`); file contents are
  modelled as the list of their lines (the sources only ever split file
  contents on a newline, and join lines with a newline).
* Python `int` is modelled as `ℤ`, Python `float` as `ℚ` (exact arithmetic);
  `int(x)` on a float is truncation toward zero (`pyInt`), `round(x)` is
  round-half-to-even (`pyRound`).
* Python `dict` is modelled as an insertion-ordered association list with
  overwrite-in-place assignment (`dictSet`) and first-match lookup
  (`pyLookup`); Python `set` of ints as a list with membership-guarded
  insertion (`setAdd`).
* `list.sort(key=...)`/`sorted(key=...)` are modelled by the stable
  `List.mergeSort` on the corresponding key order.
* Fallible operations (Python exceptions) are modelled with `Except String`.
-/

/-! ## Python value primitives -/

/-- Python strings, modelled as their character list. -/
abbrev PyStr := List Char

/-- Literal helper: the character list of a Lean string literal. -/
def pys (s : String) : PyStr := s.toList

/-- Python `int(x)` applied to a float (here: a rational): truncation toward
zero. -/
def pyInt (q : ℚ) : ℤ := if 0 ≤ q then ⌊q⌋ else ⌈q⌉

/-- Python `round(x)` applied to a float (here: a rational): round half to
even. -/
def pyRound (q : ℚ) : ℤ :=
  let f := ⌊q⌋
  let r := q - f
  if r < 1/2 then f
  else if 1/2 < r then f + 1
  else if f % 2 = 0 then f else f + 1

/-- Python `min` over a nonempty int list (`0` as the never-used fallback for
the empty list, which the sources never pass). -/
def pymin : List ℤ → ℤ
  | [] => 0
  | x :: xs => xs.foldl min x

/-- Python `max` over a nonempty int list (fallback as in `pymin`). -/
def pymax : List ℤ → ℤ
  | [] => 0
  | x :: xs => xs.foldl max x

/-- First-match lookup in an association list (Python `d[k]` / `k in d`). -/
def pyLookup {α β : Type} [DecidableEq α] : List (α × β) → α → Option β
  | [], _ => none
  | (k, v) :: rest, key => if key = k then some v else pyLookup rest key

/-- Python `d[k] = v` on an insertion-ordered dict: overwrite in place if the
key exists, else append. -/
def dictSet {α β : Type} [DecidableEq α] : List (α × β) → α → β → List (α × β)
  | [], k, v => [(k, v)]
  | (k0, v0) :: rest, k, v =>
    if k = k0 then (k, v) :: rest else (k0, v0) :: dictSet rest k v

/-- Python `s.add(x)` on an int set modelled as a list. -/
def setAdd (s : List ℤ) (x : ℤ) : List ℤ := if x ∈ s then s else s ++ [x]

/-! ## `src/parse_midi.py`: `NoteEvent` -/

/-- `NoteEvent` from `src/parse_midi.py`: one performed note with absolute
timing. -/
structure NoteEvent where
  start_tick : ℤ
  end_tick : ℤ
  pitch : ℤ
  velocity : ℤ
deriving DecidableEq, Repr

instance : Inhabited NoteEvent := ⟨⟨0, 0, 0, 0⟩⟩

/-! ## `src/map_to_frets.py` -/

/-- `QAIssue` enum from `src/map_to_frets.py`. -/
inductive QAIssue where
  | TOO_LOW
  | TOO_HIGH
  | DIFFERENT_FRET
deriving DecidableEq, Repr

/-- `MappedNote` dataclass from `src/map_to_frets.py`. -/
structure MappedNote where
  note : NoteEvent
  lane : ℤ
  issues : List QAIssue
deriving DecidableEq, Repr

instance : Inhabited MappedNote := ⟨⟨default, 0, []⟩⟩

/-- Loop body of `segment_into_phrases`: walk the remaining notes carrying the
previous note, the index of the current note, and the phrase being built. -/
def segGo (silence_ticks : ℤ) : NoteEvent → List NoteEvent → ℕ → List ℕ →
    List (List ℕ)
  | _, [], _, cur => [cur]
  | prev, n :: rest, i, cur =>
    if n.start_tick - prev.end_tick ≥ silence_ticks then
      cur :: segGo silence_ticks n rest (i + 1) [i]
    else
      segGo silence_ticks n rest (i + 1) (cur ++ [i])

/-- `segment_into_phrases` from `src/map_to_frets.py`. -/
def segment_into_phrases (notes : List NoteEvent) (ticks_per_beat : ℤ)
    (silence_beats : ℚ) : List (List ℕ) :=
  match notes with
  | [] => []
  | n :: rest => segGo (pyInt (silence_beats * ticks_per_beat)) n rest 1 [0]

/-- `scale_pitch_to_lane` from `src/map_to_frets.py`. -/
def scale_pitch_to_lane (pitch min_pitch max_pitch : ℤ) : ℤ :=
  if max_pitch = min_pitch then 2
  else
    let r : ℚ := ((pitch - min_pitch : ℤ) : ℚ) / ((max_pitch - min_pitch : ℤ) : ℚ)
    let lane := pyRound (r * 4)
    max 0 (min 4 lane)

/-- Inner loop of one smoothing pass of `smooth_lanes`: `prev` is the already
final value of the previous position. -/
def smoothPassGo (max_jump : ℤ) : ℤ → List ℤ → List ℤ
  | _, [] => []
  | prev, x :: xs =>
    let d := x - prev
    if |d| > max_jump then
      let y := if d > 0 then prev + max_jump else prev - max_jump
      let y2 := max 0 (min 4 y)
      y2 :: smoothPassGo max_jump y2 xs
    else
      x :: smoothPassGo max_jump x xs

/-- One pass of the jump-clamping loop in `smooth_lanes`. -/
def smoothPass (max_jump : ℤ) (l : List ℤ) : List ℤ :=
  match l with
  | [] => []
  | x :: xs => x :: smoothPassGo max_jump x xs

/-- `smooth_lanes` from `src/map_to_frets.py` (`passes` iterations of the
clamping pass; a Python `range` over a nonpositive count is empty, so the
pass count is a natural number). -/
def smooth_lanes (lanes : List ℤ) (max_jump : ℤ) (passes : ℕ) : List ℤ :=
  if lanes.length ≤ 1 then lanes else (smoothPass max_jump)^[passes] lanes

/-- Inner loop of `preserve_direction`: carries the updated previous lane and
the original previous pitch; the remaining positions are (lane, pitch)
pairs. -/
def pdGo : ℤ → ℤ → List (ℤ × ℤ) → List ℤ
  | _, _, [] => []
  | pl, pp, (l, p) :: rest =>
    let pd := p - pp
    let ld := l - pl
    let l2 :=
      if pd > 0 ∧ ld ≤ 0 then (if l < 4 then min 4 (pl + 1) else l)
      else if pd < 0 ∧ ld ≥ 0 then (if l > 0 then max 0 (pl - 1) else l)
      else l
    l2 :: pdGo l2 p rest

/-- `preserve_direction` from `src/map_to_frets.py` (only ever called with
`pitches` of the same length as `lanes`). -/
def preserve_direction (lanes pitches : List ℤ) : List ℤ :=
  if lanes.length ≤ 1 then lanes
  else
    match lanes, pitches with
    | l :: ls, p :: ps => l :: pdGo l p (ls.zip ps)
    | _, _ => lanes

/-- `map_pitches_to_lanes` from `src/map_to_frets.py`. -/
def map_pitches_to_lanes (notes : List NoteEvent) (ticks_per_beat : ℤ)
    (phrase_silence_beats : ℚ) (max_lane_jump : ℤ) (smoothing_passes : ℕ) :
    List ℤ :=
  match notes with
  | [] => []
  | _ :: _ =>
    let phrases := segment_into_phrases notes ticks_per_beat phrase_silence_beats
    let lanes0 := List.replicate notes.length (0 : ℤ)
    let lanes1 := phrases.foldl (fun ls ph =>
      let phrase_pitches := ph.map (fun i => (notes.getD i default).pitch)
      let min_pitch := pymin phrase_pitches
      let max_pitch := pymax phrase_pitches
      ph.foldl (fun ls2 idx =>
        ls2.set idx
          (scale_pitch_to_lane (notes.getD idx default).pitch min_pitch max_pitch))
        ls) lanes0
    let all_pitches := notes.map (fun n => n.pitch)
    let lanes2 := smooth_lanes lanes1 max_lane_jump smoothing_passes
    let lanes3 := preserve_direction lanes2 all_pitches
    lanes3.map (fun lane => max 0 (min 4 lane))

/-- Issue list computed for one note in `detect_qa_issues`: the
DIFFERENT_FRET check against the pitch-to-lanes table, then the two
direction checks against the previous (pitch, lane). -/
def qaStep (ptl : List (ℤ × List ℤ)) (prev : Option (ℤ × ℤ)) (pitch lane : ℤ) :
    List QAIssue :=
  (match pyLookup ptl pitch with
   | some s => if lane ∉ s then [QAIssue.DIFFERENT_FRET] else []
   | none => []) ++
  (match prev with
   | none => []
   | some (pp, pl) =>
     (if pitch - pp > 2 ∧ lane - pl < -1 then [QAIssue.TOO_LOW] else []) ++
     (if pitch - pp < -2 ∧ lane - pl > 1 then [QAIssue.TOO_HIGH] else []))

/-- Update of the pitch-to-lanes table in `detect_qa_issues`. -/
def qaUpdate (ptl : List (ℤ × List ℤ)) (pitch lane : ℤ) : List (ℤ × List ℤ) :=
  match pyLookup ptl pitch with
  | some s => dictSet ptl pitch (setAdd s lane)
  | none => dictSet ptl pitch [lane]

/-- Main loop of `detect_qa_issues` over the zipped (pitch, lane) pairs. -/
def detectGo : List (ℤ × ℤ) → List (ℤ × List ℤ) → Option (ℤ × ℤ) →
    List (List QAIssue)
  | [], _, _ => []
  | (p, l) :: rest, ptl, prev =>
    qaStep ptl prev p l :: detectGo rest (qaUpdate ptl p l) (some (p, l))

/-- `detect_qa_issues` from `src/map_to_frets.py`: the Python code allocates
one empty issue list per note and then iterates over `zip(notes, lanes)`
(which truncates to the shorter list), so the trailing
`len(notes) - len(zip)` lists stay empty. -/
def detect_qa_issues (notes : List NoteEvent) (lanes : List ℤ) :
    List (List QAIssue) :=
  let pairs := (notes.map (fun n => n.pitch)).zip lanes
  detectGo pairs [] none ++
    List.replicate (notes.length - pairs.length) ([] : List QAIssue)

/-- `create_mapped_notes` from `src/map_to_frets.py`; the `ValueError` raised
on a length mismatch is modelled as `Except.error`. -/
def create_mapped_notes (notes : List NoteEvent) (lanes : List ℤ)
    (include_qa : Bool) : Except String (List MappedNote) :=
  if notes.length ≠ lanes.length then
    .error "Notes and lanes must have same length"
  else if include_qa then
    let issues := detect_qa_issues notes lanes
    .ok ((notes.zip (lanes.zip issues)).map fun x => ⟨x.1, x.2.1, x.2.2⟩)
  else
    .ok ((notes.zip lanes).map fun x => ⟨x.1, x.2, []⟩)

example : map_pitches_to_lanes [⟨0, 10, 60, 100⟩] 480 1 2 1 = [2] := by decide

example : detect_qa_issues [⟨0, 1, 60, 100⟩, ⟨1, 2, 70, 100⟩, ⟨2, 3, 60, 100⟩]
    [0, 2, 1] = [[], [], [QAIssue.DIFFERENT_FRET]] := by decide

/-! ## Theorems about the mapping engine -/

lemma detectGo_length : ∀ (ps : List (ℤ × ℤ)) (ptl : List (ℤ × List ℤ))
    (prev : Option (ℤ × ℤ)), (detectGo ps ptl prev).length = ps.length := by
  intro ps
  induction ps with
  | nil => intro ptl prev; rfl
  | cons p rest ih =>
    intro ptl prev
    cases p with
    | mk a b => simp [detectGo, ih]

lemma detect_qa_issues_length (notes : List NoteEvent) (lanes : List ℤ) :
    (detect_qa_issues notes lanes).length = notes.length := by
  unfold detect_qa_issues
  rw [List.length_append, detectGo_length, List.length_replicate]
  simp only [List.length_zip, List.length_map]
  omega

/-- C4: every lane produced by `map_pitches_to_lanes` is in [0, 4], for every
input note list, resolution, and tunable setting. -/
theorem map_pitches_to_lanes_range (notes : List NoteEvent) (ticks_per_beat : ℤ)
    (phrase_silence_beats : ℚ) (max_lane_jump : ℤ) (smoothing_passes : ℕ) :
    ∀ lane ∈ map_pitches_to_lanes notes ticks_per_beat phrase_silence_beats
        max_lane_jump smoothing_passes, 0 ≤ lane ∧ lane ≤ 4 := by
  intro lane h
  cases notes with
  | nil => simp [map_pitches_to_lanes] at h
  | cons n rest =>
    simp only [map_pitches_to_lanes, List.mem_map] at h
    obtain ⟨x, -, rfl⟩ := h
    exact ⟨le_max_left _ _, max_le (by norm_num) (min_le_left _ _)⟩

/-- Witness for C4 at a concrete input. -/
theorem map_pitches_to_lanes_range_witness : (0 : ℤ) ≤ 2 ∧ (2 : ℤ) ≤ 4 :=
  map_pitches_to_lanes_range [⟨0, 10, 60, 100⟩] 480 1 2 1 2 (by decide)

lemma map_note_lane_zip (ns : List NoteEvent) (ls : List ℤ)
    (is : List (List QAIssue)) (h1 : ns.length = ls.length)
    (h2 : ns.length ≤ is.length) :
    ((ns.zip (ls.zip is)).map fun x =>
        (⟨x.1, x.2.1, x.2.2⟩ : MappedNote)).map MappedNote.note = ns ∧
    ((ns.zip (ls.zip is)).map fun x =>
        (⟨x.1, x.2.1, x.2.2⟩ : MappedNote)).map MappedNote.lane = ls := by
  induction ns generalizing ls is with
  | nil =>
    cases ls with
    | nil => simp
    | cons l ls => simp at h1
  | cons n ns ih =>
    cases ls with
    | nil => simp at h1
    | cons l ls =>
      cases is with
      | nil => simp at h2
      | cons i is =>
        have h := ih ls is (by simpa using h1) (by simpa using h2)
        simp [h.1, h.2]

lemma map_note_lane_zip2 (ns : List NoteEvent) (ls : List ℤ)
    (h1 : ns.length = ls.length) :
    ((ns.zip ls).map fun x => (⟨x.1, x.2, []⟩ : MappedNote)).map
        MappedNote.note = ns ∧
    ((ns.zip ls).map fun x => (⟨x.1, x.2, []⟩ : MappedNote)).map
        MappedNote.lane = ls := by
  induction ns generalizing ls with
  | nil =>
    cases ls with
    | nil => simp
    | cons l ls => simp at h1
  | cons n ns ih =>
    cases ls with
    | nil => simp at h1
    | cons l ls =>
      have h := ih ls (by simpa using h1)
      simp [h.1, h.2]

/-- C6: `create_mapped_notes` fails fast with a precondition error exactly when
the notes and lanes lists have different lengths, and on equal lengths returns
a `MappedNote` list of that length pairing each note with its lane. -/
theorem create_mapped_notes_contract :
    (∀ (notes : List NoteEvent) (lanes : List ℤ) (include_qa : Bool),
        notes.length ≠ lanes.length →
        create_mapped_notes notes lanes include_qa =
          .error "Notes and lanes must have same length") ∧
    (∀ (notes : List NoteEvent) (lanes : List ℤ) (include_qa : Bool),
        notes.length = lanes.length →
        ∃ res, create_mapped_notes notes lanes include_qa = .ok res ∧
          res.length = notes.length ∧
          res.map MappedNote.note = notes ∧ res.map MappedNote.lane = lanes) := by
  constructor
  · intro notes lanes qa h
    simp [create_mapped_notes, h]
  · intro notes lanes qa h
    cases qa with
    | false =>
      refine ⟨(notes.zip lanes).map fun x => (⟨x.1, x.2, []⟩ : MappedNote),
        by simp [create_mapped_notes, h], ?_, ?_, ?_⟩
      · have := (map_note_lane_zip2 notes lanes h).1
        calc ((notes.zip lanes).map fun x => (⟨x.1, x.2, []⟩ : MappedNote)).length
            = (((notes.zip lanes).map fun x =>
                (⟨x.1, x.2, []⟩ : MappedNote)).map MappedNote.note).length := by
              simp
          _ = notes.length := by rw [this]
      · exact (map_note_lane_zip2 notes lanes h).1
      · exact (map_note_lane_zip2 notes lanes h).2
    | true =>
      have h2 : notes.length ≤ (detect_qa_issues notes lanes).length := by
        rw [detect_qa_issues_length]
      refine ⟨(notes.zip (lanes.zip (detect_qa_issues notes lanes))).map fun x =>
          (⟨x.1, x.2.1, x.2.2⟩ : MappedNote),
        by simp [create_mapped_notes, h], ?_, ?_, ?_⟩
      · have := (map_note_lane_zip notes lanes (detect_qa_issues notes lanes) h h2).1
        calc ((notes.zip (lanes.zip (detect_qa_issues notes lanes))).map fun x =>
                (⟨x.1, x.2.1, x.2.2⟩ : MappedNote)).length
            = (((notes.zip (lanes.zip (detect_qa_issues notes lanes))).map fun x =>
                (⟨x.1, x.2.1, x.2.2⟩ : MappedNote)).map MappedNote.note).length := by
              simp
          _ = notes.length := by rw [this]
      · exact (map_note_lane_zip notes lanes (detect_qa_issues notes lanes) h h2).1
      · exact (map_note_lane_zip notes lanes (detect_qa_issues notes lanes) h h2).2

/-- Witness for C6 at concrete inputs: a mismatched pair errors, an
equal-length pair succeeds. -/
theorem create_mapped_notes_contract_witness :
    create_mapped_notes [⟨0, 1, 60, 100⟩] [] true =
      .error "Notes and lanes must have same length" ∧
    ∃ res, create_mapped_notes [⟨0, 1, 60, 100⟩] [3] true = .ok res ∧
      res.length = ([⟨0, 1, 60, 100⟩] : List NoteEvent).length ∧
      res.map MappedNote.note = [⟨0, 1, 60, 100⟩] ∧
      res.map MappedNote.lane = [3] :=
  ⟨create_mapped_notes_contract.1 [⟨0, 1, 60, 100⟩] [] true (by decide),
   create_mapped_notes_contract.2 [⟨0, 1, 60, 100⟩] [3] true (by decide)⟩

/-- C9: calling `detect_qa_issues` with a lanes list shorter than the notes
list raises no error: it returns exactly `len(notes)` issue lists and every
list at an index at or past `len(lanes)` is empty. (The model is a total
function, mirroring the fact that the Python code cannot raise here: `zip`
truncates and no list index is ever out of range.) -/
theorem detect_qa_issues_short_lanes (notes : List NoteEvent) (lanes : List ℤ)
    (h : lanes.length < notes.length) :
    (detect_qa_issues notes lanes).length = notes.length ∧
    ∀ i, lanes.length ≤ i → i < notes.length →
      (detect_qa_issues notes lanes)[i]? = some [] := by
  refine ⟨detect_qa_issues_length notes lanes, ?_⟩
  intro i h1 h2
  unfold detect_qa_issues
  have hp : ((notes.map (fun n => n.pitch)).zip lanes).length = lanes.length := by
    simp only [List.length_zip, List.length_map]
    omega
  rw [List.getElem?_append_right (by rw [detectGo_length, hp]; exact h1)]
  rw [detectGo_length, hp, List.getElem?_replicate]
  rw [if_pos (by omega)]

/-- Witness for C9 at a concrete input. -/
theorem detect_qa_issues_short_lanes_witness :
    (detect_qa_issues [⟨0, 1, 60, 100⟩, ⟨1, 2, 70, 100⟩] [0]).length = 2 ∧
    ∀ i, 1 ≤ i → i < 2 →
      (detect_qa_issues [⟨0, 1, 60, 100⟩, ⟨1, 2, 70, 100⟩] [0])[i]? = some [] := by
  have h := detect_qa_issues_short_lanes [⟨0, 1, 60, 100⟩, ⟨1, 2, 70, 100⟩] [0]
    (by decide)
  simpa using h

/-- Counterexample to C3: pitches 60, 70, 60 with lanes 0, 2, 1 — the first
and third notes have equal pitch and different lanes with an intervening
different-pitch note, yet only the third note carries DIFFERENT_FRET; the
first carries no issue at all. -/
theorem detect_qa_first_note_unflagged :
    QAIssue.DIFFERENT_FRET ∈
      ((detect_qa_issues [⟨0, 1, 60, 100⟩, ⟨1, 2, 70, 100⟩, ⟨2, 3, 60, 100⟩]
        [0, 2, 1]).getD 2 []) ∧
    QAIssue.DIFFERENT_FRET ∉
      ((detect_qa_issues [⟨0, 1, 60, 100⟩, ⟨1, 2, 70, 100⟩, ⟨2, 3, 60, 100⟩]
        [0, 2, 1]).getD 0 []) := by
  decide

/-- C3 (amended): in a notes/lanes input whose first and third notes have
equal pitch but different lanes, with an intervening note of different pitch,
the *later* of the two equal-pitch notes carries DIFFERENT_FRET (its lane
differs from every lane previously recorded for that pitch), while the
earlier one — the first occurrence of its pitch — is never flagged. -/
theorem detect_qa_later_note_flagged (n0 n1 n2 : NoteEvent) (l0 l1 l2 : ℤ)
    (hp : n2.pitch = n0.pitch) (hq : ¬ n1.pitch = n0.pitch) (hl : ¬ l2 = l0) :
    QAIssue.DIFFERENT_FRET ∈
      ((detect_qa_issues [n0, n1, n2] [l0, l1, l2]).getD 2 []) ∧
    QAIssue.DIFFERENT_FRET ∉
      ((detect_qa_issues [n0, n1, n2] [l0, l1, l2]).getD 0 []) := by
  simp [detect_qa_issues, detectGo, qaStep, qaUpdate, pyLookup, dictSet, setAdd,
    hp, hq, hl, List.getD]

/-- Witness for the amended C3 at a concrete input. -/
theorem detect_qa_later_note_flagged_witness :
    QAIssue.DIFFERENT_FRET ∈
      ((detect_qa_issues [⟨0, 1, 60, 100⟩, ⟨1, 2, 70, 100⟩, ⟨2, 3, 60, 100⟩]
        [0, 2, 1]).getD 2 []) ∧
    QAIssue.DIFFERENT_FRET ∉
      ((detect_qa_issues [⟨0, 1, 60, 100⟩, ⟨1, 2, 70, 100⟩, ⟨2, 3, 60, 100⟩]
        [0, 2, 1]).getD 0 []) :=
  detect_qa_later_note_flagged ⟨0, 1, 60, 100⟩ ⟨1, 2, 70, 100⟩ ⟨2, 3, 60, 100⟩
    0 2 1 (by decide) (by decide) (by decide)

/-! ## `src/src/chart_writer.py` -/

/-- `midi_ticks_to_chart_ticks` from `src/src/chart_writer.py`:
`int(midi_ticks * chart_resolution / midi_ppq)` — exact true division followed
by truncation toward zero. -/
def midi_ticks_to_chart_ticks (midi_ticks midi_ppq chart_resolution : ℤ) : ℤ :=
  pyInt (((midi_ticks * chart_resolution : ℤ) : ℚ) / (midi_ppq : ℚ))

/-- Fuel-based floor of the base-2 logarithm; models `int(math.log2(d))` for
positive integers `d` (for which the float logarithm truncates to the floor
log). -/
def floorLog2Aux : ℕ → ℕ → ℕ
  | 0, _ => 0
  | fuel + 1, n => if n ≥ 2 then floorLog2Aux fuel (n / 2) + 1 else 0

/-- Floor of the base-2 logarithm of a natural number. -/
def floorLog2 (n : ℕ) : ℕ := floorLog2Aux n n

/-- `format_sync_track` from `src/src/chart_writer.py`, as its list of output
lines (the Python function joins them with a newline). -/
def format_sync_track (bpm : ℚ) (time_sig_numerator time_sig_denominator : ℤ) :
    List String :=
  let bpm_value := pyInt (bpm * 1000)
  let ts_denom_exp : ℤ :=
    if 0 < time_sig_denominator then (floorLog2 time_sig_denominator.toNat : ℤ)
    else 2
  ["[SyncTrack]", "\x7b",
   "  0 = TS " ++ toString time_sig_numerator ++ " " ++ toString ts_denom_exp,
   "  0 = B " ++ toString bpm_value,
   "\x7d"]

/-! ## Theorems about the tick converter and sync-track writer -/

lemma pyInt_mono {p q : ℚ} (h : p ≤ q) : pyInt p ≤ pyInt q := by
  unfold pyInt
  by_cases h1 : 0 ≤ p
  · rw [if_pos h1, if_pos (le_trans h1 h)]
    exact Int.floor_le_floor h
  · rw [if_neg h1]
    by_cases h2 : 0 ≤ q
    · rw [if_pos h2]
      have hp0 : ⌈p⌉ ≤ 0 := Int.ceil_le.mpr (by exact_mod_cast le_of_not_le h1)
      have hq0 : (0 : ℤ) ≤ ⌊q⌋ := Int.floor_nonneg.mpr h2
      omega
    · rw [if_neg h2]
      exact Int.ceil_mono h

lemma pyInt_intCast (n : ℤ) : pyInt (n : ℚ) = n := by
  unfold pyInt
  split_ifs <;> simp

lemma pyRound_intCast (n : ℤ) : pyRound (n : ℚ) = n := by
  unfold pyRound
  simp

/-- Counterexample to C7's floor clause: at tick -1 with ppq 480 and
resolution 192 the code truncates toward zero and returns 0, while the floor
of -192/480 is -1. -/
theorem midi_ticks_to_chart_ticks_not_floor :
    midi_ticks_to_chart_ticks (-1) 480 192 = 0 ∧
    (⌊(((-1 * 192 : ℤ) : ℚ) / (480 : ℚ))⌋ : ℤ) = -1 := by
  constructor
  · norm_num [midi_ticks_to_chart_ticks, pyInt]
  · norm_num [Int.floor_eq_iff]

/-- C7 (amended): `midi_ticks_to_chart_ticks` is monotonic in the tick for
positive resolutions, and for nonnegative ticks (where truncation toward zero
and floor agree) it equals the floor of `tick * res / ppq`; in general it is
the truncation toward zero of that quotient (its definition). -/
theorem midi_ticks_to_chart_ticks_monotone (a b ppq res : ℤ)
    (hab : a ≤ b) (hppq : 0 < ppq) (hres : 0 < res) :
    midi_ticks_to_chart_ticks a ppq res ≤ midi_ticks_to_chart_ticks b ppq res ∧
    (0 ≤ a →
      midi_ticks_to_chart_ticks a ppq res = ⌊((a * res : ℤ) : ℚ) / (ppq : ℚ)⌋) := by
  have hppq' : (0 : ℚ) < (ppq : ℚ) := by exact_mod_cast hppq
  constructor
  · apply pyInt_mono
    apply (div_le_div_iff_of_pos_right hppq').mpr
    exact_mod_cast mul_le_mul_of_nonneg_right hab hres.le
  · intro ha
    have hnn : (0 : ℚ) ≤ ((a * res : ℤ) : ℚ) / (ppq : ℚ) := by
      apply div_nonneg _ hppq'.le
      exact_mod_cast mul_nonneg ha hres.le
    unfold midi_ticks_to_chart_ticks pyInt
    rw [if_pos hnn]

/-- Witness for the amended C7 at concrete inputs. -/
theorem midi_ticks_to_chart_ticks_monotone_witness :
    midi_ticks_to_chart_ticks 1 480 192 ≤ midi_ticks_to_chart_ticks 2 480 192 ∧
    midi_ticks_to_chart_ticks 1 480 192 = ⌊((1 * 192 : ℤ) : ℚ) / ((480 : ℤ) : ℚ)⌋ :=
  ⟨(midi_ticks_to_chart_ticks_monotone 1 2 480 192 (by decide) (by decide)
      (by decide)).1,
   (midi_ticks_to_chart_ticks_monotone 1 2 480 192 (by decide) (by decide)
      (by decide)).2 (by decide)⟩

/-- Counterexample to C5: the code truncates `bpm * 1000` toward zero rather
than rounding; at bpm = 119.9999 the emitted B value is 119999 while
`round(bpm * 1000)` is 120000. -/
theorem format_sync_track_not_round :
    (format_sync_track (1199999/10000) 4 4)[3]? = some "  0 = B 119999" ∧
    pyRound ((1199999/10000 : ℚ) * 1000) = 120000 := by
  have hv : pyInt ((1199999/10000 : ℚ) * 1000) = 119999 := by
    have h0 : (0 : ℚ) ≤ (1199999/10000 : ℚ) * 1000 := by norm_num
    unfold pyInt
    rw [if_pos h0]
    norm_num [Int.floor_eq_iff]
  constructor
  · show (format_sync_track (1199999/10000) 4 4)[3]? = some "  0 = B 119999"
    simp only [format_sync_track, hv]
    rfl
  · have hf : (⌊(1199999 / 10000 : ℚ) * 1000⌋ : ℤ) = 119999 := by
      norm_num [Int.floor_eq_iff]
    unfold pyRound
    rw [hf]
    norm_num

/-- C5 (amended): `format_sync_track` serializes the BPM as the integer
`int(bpm * 1000)` (truncation toward zero) on its `B` line — which agrees with
`round(bpm * 1000)` whenever `bpm * 1000` is an integer — and the
time-signature denominator as the floor base-2 logarithm on its `TS` line; in
particular bpm 120.0 emits `0 = B 120000` and numerator 6 with denominator 8
emits `TS 6 3`. -/
theorem format_sync_track_millibpm (bpm : ℚ) (num den : ℤ) :
    (format_sync_track bpm num den)[3]? =
      some ("  0 = B " ++ toString (pyInt (bpm * 1000))) ∧
    ((bpm * 1000).den = 1 → pyInt (bpm * 1000) = pyRound (bpm * 1000)) ∧
    (format_sync_track 120 4 4)[3]? = some "  0 = B 120000" ∧
    (format_sync_track 120 6 8)[2]? = some "  0 = TS 6 3" := by
  have h1 : pyInt ((120 : ℚ) * 1000) = 120000 := by
    have : ((120 : ℚ) * 1000) = ((120000 : ℤ) : ℚ) := by norm_num
    rw [this, pyInt_intCast]
  refine ⟨rfl, ?_, ?_, ?_⟩
  · intro h
    have hq : (bpm * 1000) = (((bpm * 1000).num : ℤ) : ℚ) := by
      rw [← Rat.num_div_den (bpm * 1000), h]
      simp
    rw [hq, pyInt_intCast, pyRound_intCast]
  · show (format_sync_track 120 4 4)[3]? = some "  0 = B 120000"
    simp only [format_sync_track, h1]
    rfl
  · rfl

/-- Witness for the amended C5 at bpm 120. -/
theorem format_sync_track_millibpm_witness :
    pyInt ((120 : ℚ) * 1000) = pyRound ((120 : ℚ) * 1000) :=
  (format_sync_track_millibpm 120 4 4).2.1 (by norm_num)

/-! ## `src/chart_parser.py`: data model -/

/-- `Note` dataclass from `src/chart_parser.py`. -/
structure Note where
  tick : ℤ
  fret : ℤ
  sustain : ℤ
  is_forced : Bool
  is_tap : Bool
  is_open : Bool
  velocity : ℤ
deriving DecidableEq, Repr

instance : Inhabited Note := ⟨⟨0, 0, 0, false, false, false, 100⟩⟩

/-- `StarPowerPhrase` dataclass from `src/chart_parser.py`. -/
structure StarPowerPhrase where
  tick : ℤ
  length : ℤ
deriving DecidableEq, Repr

/-- `Event` dataclass from `src/chart_parser.py`. -/
structure Event where
  tick : ℤ
  text : PyStr
deriving DecidableEq, Repr

/-- The sort key order used by `Track.add_note` and the track writer:
Python's `key=lambda n: (n.tick, n.fret)` compares the tuples
lexicographically. -/
def noteLEP (a b : Note) : Prop :=
  a.tick < b.tick ∨ (a.tick = b.tick ∧ a.fret ≤ b.fret)

instance : DecidableRel noteLEP := fun a b => by
  unfold noteLEP
  infer_instance

instance : IsTotal Note noteLEP := ⟨by
  intro a b
  unfold noteLEP
  omega⟩

instance : IsTrans Note noteLEP := ⟨by
  intro a b c h1 h2
  unfold noteLEP at *
  omega⟩

/-- `Track` dataclass from `src/chart_parser.py`. -/
structure Track where
  notes : List Note := []
  star_power : List StarPowerPhrase := []
  events : List Event := []
deriving DecidableEq, Repr

/-- `Track.add_note` from `src/chart_parser.py`: append and re-sort by
(tick, fret); Python's stable `list.sort` is modelled by the stable
`List.insertionSort` on the key order (a stable sort's output is determined
by the input and the key order alone). -/
def Track.add_note (t : Track) (note : Note) : Track :=
  { t with notes := List.insertionSort noteLEP (t.notes ++ [note]) }

/-- C8: after every `add_note` call the track's notes list is sorted
ascending by the key (tick, fret), whatever the prior state — so sortedness
is an invariant of every track built through `add_note`, with no separate
commit step. -/
theorem add_note_sorted (t : Track) (note : Note) :
    ((t.add_note note).notes).Pairwise
      (fun a b => a.tick < b.tick ∨ (a.tick = b.tick ∧ a.fret ≤ b.fret)) :=
  List.sorted_insertionSort noteLEP (t.notes ++ [note])


/-! ## `src/chart_parser.py`: string helpers and the section splitter -/

/-- Whitespace characters stripped by Python's `str.strip()`. -/
def isWS (c : Char) : Bool :=
  decide (c = ' ' ∨ c = '\t' ∨ c = '\n' ∨ c = '\r' ∨ c = '\x0b' ∨ c = '\x0c')

/-- Python `s.strip()`: drop leading and trailing whitespace. -/
def pstrip (l : PyStr) : PyStr :=
  ((l.dropWhile isWS).reverse.dropWhile isWS).reverse

/-- Python `s.strip(chars)`: drop every leading and trailing character that
belongs to `cs`. -/
def pyStripChars (cs : List Char) (l : PyStr) : PyStr :=
  ((l.dropWhile (fun c => c ∈ cs)).reverse.dropWhile (fun c => c ∈ cs)).reverse

/-- The header test of the section splitter:
`line.startswith('[') and line.endswith(']')`. -/
def isHeader (l : PyStr) : Bool :=
  (match l.head? with
   | some '[' => true
   | _ => false) &&
  (match l.getLast? with
   | some ']' => true
   | _ => false)

/-- `line[1:-1]`: the section name inside a header line. -/
def headerName (l : PyStr) : PyStr := l.tail.dropLast

/-- A well-formed section header line, `[` ++ name ++ `]`. -/
def hdrLine (name : PyStr) : PyStr := '[' :: (name ++ [']'])

/-- Flush of the accumulated section in `_split_sections` (the
`sections[current_section] = ...` writes), guarded by `if current_section:`
— falsy both for `None` (no section open yet) and for the empty string (a
section opened by the bare header `[]`), so neither is ever stored. -/
def splitFlush (s : Option PyStr × List PyStr × List (PyStr × List PyStr)) :
    List (PyStr × List PyStr) :=
  match s.1 with
  | some n => if n = [] then s.2.2 else dictSet s.2.2 n s.2.1
  | none => s.2.2

/-- One line of the loop in `_split_sections`: state is (current section
name, accumulated stripped content lines, sections dict). -/
def splitStep (s : Option PyStr × List PyStr × List (PyStr × List PyStr))
    (line : PyStr) : Option PyStr × List PyStr × List (PyStr × List PyStr) :=
  if isHeader (pstrip line) then
    (some (headerName (pstrip line)), [], splitFlush s)
  else if pstrip line ≠ [] ∧ pstrip line ≠ ['\x7b'] ∧ pstrip line ≠ ['\x7d'] then
    (s.1, s.2.1 ++ [pstrip line], s.2.2)
  else s

/-- `ChartParser._split_sections` from `src/chart_parser.py`, over the list
of lines of the input text (the Python code iterates over
`content.split('\n')`); a section's accumulated content is kept as its list
of stripped, non-blank, non-brace lines (the Python code joins them with a
newline and the section parsers split them again). -/
def split_sections (content : List PyStr) : List (PyStr × List PyStr) :=
  splitFlush (content.foldl splitStep (none, [], []))

/-- The content lines a section body contributes: each line stripped, blank
and brace lines dropped. -/
def contentFilter (body : List PyStr) : List PyStr :=
  (body.map pstrip).filter fun l => decide (l ≠ [] ∧ l ≠ ['\x7b'] ∧ l ≠ ['\x7d'])

lemma pstrip_hdrLine (name : PyStr) : pstrip (hdrLine name) = hdrLine name := by
  unfold pstrip hdrLine
  rw [List.dropWhile_cons_of_neg (by simp [isWS])]
  have h2 : ('[' :: (name ++ [']'])).reverse = ']' :: (name.reverse ++ ['[']) := by
    simp
  rw [h2, List.dropWhile_cons_of_neg (by simp [isWS])]
  rw [← h2, List.reverse_reverse]

lemma getLast?_hdrLine (name : PyStr) : (hdrLine name).getLast? = some ']' := by
  unfold hdrLine
  rw [← List.cons_append]
  exact List.getLast?_concat _

lemma isHeader_hdrLine (name : PyStr) : isHeader (hdrLine name) = true := by
  unfold isHeader
  rw [getLast?_hdrLine]
  rfl

lemma headerName_hdrLine (name : PyStr) : headerName (hdrLine name) = name := by
  unfold headerName hdrLine
  show (name ++ [']']).dropLast = name
  simp

lemma splitStep_header (s : Option PyStr × List PyStr × List (PyStr × List PyStr))
    (name : PyStr) :
    splitStep s (hdrLine name) = (some name, [], splitFlush s) := by
  unfold splitStep
  rw [pstrip_hdrLine, isHeader_hdrLine, headerName_hdrLine]
  simp

lemma splitStep_nonheader (s : Option PyStr × List PyStr × List (PyStr × List PyStr))
    (l : PyStr) (hl : isHeader (pstrip l) = false) :
    splitStep s l =
      (if pstrip l ≠ [] ∧ pstrip l ≠ ['\x7b'] ∧ pstrip l ≠ ['\x7d'] then
        (s.1, s.2.1 ++ [pstrip l], s.2.2)
      else s) := by
  unfold splitStep
  rw [hl]
  simp

lemma splitStep_nonheader_run :
    ∀ (ls : List PyStr) (cur : Option PyStr) (content : List PyStr)
      (secs : List (PyStr × List PyStr)),
      (∀ l ∈ ls, isHeader (pstrip l) = false) →
      ls.foldl splitStep (cur, content, secs) =
        (cur, content ++ contentFilter ls, secs) := by
  intro ls
  induction ls with
  | nil =>
    intro cur content secs _
    simp [contentFilter]
  | cons l ls ih =>
    intro cur content secs h
    have hl : isHeader (pstrip l) = false := h l (by simp)
    have hrest : ∀ x ∈ ls, isHeader (pstrip x) = false := by
      intro x hx
      exact h x (by simp [hx])
    rw [List.foldl_cons, splitStep_nonheader _ _ hl]
    by_cases hc : pstrip l ≠ [] ∧ pstrip l ≠ ['\x7b'] ∧ pstrip l ≠ ['\x7d']
    · rw [if_pos hc, ih _ _ _ hrest]
      have hcf : contentFilter (l :: ls) = pstrip l :: contentFilter ls := by
        unfold contentFilter
        simp [hc]
      rw [hcf]
      simp
    · rw [if_neg hc, ih _ _ _ hrest]
      have hcf : contentFilter (l :: ls) = contentFilter ls := by
        unfold contentFilter
        simp [hc]
      rw [hcf]

lemma pyLookup_dictSet_self {α β : Type} [DecidableEq α]
    (d : List (α × β)) (k : α) (v : β) :
    pyLookup (dictSet d k v) k = some v := by
  induction d with
  | nil => simp [dictSet, pyLookup]
  | cons kv rest ih =>
    obtain ⟨k0, v0⟩ := kv
    by_cases h : k = k0 <;> simp [dictSet, pyLookup, h, ih]

/-- C10 counterexample: a bracketed header can carry the empty name (the
line `[]`), and `if current_section:` is falsy for the empty string, so
neither occurrence of such a section is ever stored — the duplicated name
is bound to nothing at all, not to the last section's lines. -/
theorem split_sections_empty_name_dropped :
    hdrLine [] = pys "[]" ∧
    split_sections
      [hdrLine [], pys "0 = N 0 0", hdrLine [], pys "0 = N 1 0"] = [] := by
  decide

/-- C10 (amended): when the input contains two sections with the same
nonempty bracketed name, the splitter binds that name to the (stripped,
filtered) lines of the last such section only; the earlier same-named
section's lines are discarded. The splitter is a total function — it never
raises. (For the empty name the `if current_section:` guard is falsy and
nothing is stored; see the counterexample.) -/
theorem split_sections_last_duplicate_wins
    (pre mid post : List PyStr) (name : PyStr) (hname : name ≠ [])
    (hmid : ∀ l ∈ mid, isHeader (pstrip l) = false)
    (hpost : ∀ l ∈ post, isHeader (pstrip l) = false) :
    pyLookup
      (split_sections
        (pre ++ [hdrLine name] ++ mid ++ [hdrLine name] ++ post))
      name = some (contentFilter post) := by
  unfold split_sections
  rw [List.foldl_append, List.foldl_append, List.foldl_append, List.foldl_append]
  simp only [List.foldl_cons, List.foldl_nil]
  rw [splitStep_header, splitStep_header]
  rw [splitStep_nonheader_run mid _ _ _ hmid]
  rw [splitStep_nonheader_run post _ _ _ hpost]
  unfold splitFlush
  simp [pyLookup_dictSet_self, hname]

/-- Witness for C10 at a concrete duplicated-section input. -/
theorem split_sections_last_duplicate_wins_witness :
    pyLookup
      (split_sections
        ([] ++ [hdrLine (pys "ExpertSingle")] ++ [pys "0 = N 0 0"] ++
          [hdrLine (pys "ExpertSingle")] ++ [pys "  0 = N 1 0"]))
      (pys "ExpertSingle") = some (contentFilter [pys "  0 = N 1 0"]) :=
  split_sections_last_duplicate_wins [] [pys "0 = N 0 0"] [pys "  0 = N 1 0"]
    (pys "ExpertSingle") (by decide) (by decide) (by decide)

/-! ## Decimal integer printing and parsing (Python `str`/`int`) -/

lemma char_eq_iff_toNat {a b : Char} : a = b ↔ a.toNat = b.toNat :=
  ⟨fun h => h ▸ rfl, fun h => Char.ext (UInt32.ext h)⟩

/-- ASCII digit test, `'0' <= c <= '9'`. -/
def isDigit (c : Char) : Bool := decide (48 ≤ c.toNat ∧ c.toNat ≤ 57)

/-- Numeric value of an ASCII digit character. -/
def digToVal (c : Char) : ℕ := c.toNat - 48

/-- The ASCII digit character of a value below ten. -/
def digitChar (d : ℕ) : Char := Char.ofNat (48 + d)

/-- Value of a big-endian ASCII digit string (the accumulator loop any
decimal integer parser performs). -/
def digitsValue (l : PyStr) : ℕ := l.foldl (fun a c => 10 * a + digToVal c) 0

/-- Python `int(s)` for a string of digits: all characters must be digits and
the string nonempty. -/
def parseNat (l : PyStr) : Option ℕ :=
  if l ≠ [] ∧ l.all isDigit then some (digitsValue l) else none

/-- Python `int(s)` on an already-stripped string: an optional sign followed
by digits. -/
def pyParseInt (l : PyStr) : Option ℤ :=
  if l.head? = some '-' then (parseNat l.tail).map (fun n => -(n : ℤ))
  else if l.head? = some '+' then (parseNat l.tail).map (fun n => (n : ℤ))
  else (parseNat l).map (fun n => (n : ℤ))

/-- Python `str(n)` for a natural number: its big-endian decimal digits. -/
def natRepr (n : ℕ) : PyStr :=
  if n = 0 then ['0'] else ((Nat.digits 10 n).map digitChar).reverse

/-- Python `str(i)` for an integer. -/
def intRepr (i : ℤ) : PyStr :=
  if i < 0 then '-' :: natRepr i.natAbs else natRepr i.toNat

lemma digitsValue_go (l : PyStr) :
    ∀ acc, l.foldl (fun a c => 10 * a + digToVal c) acc =
      acc * 10 ^ l.length + digitsValue l := by
  induction l with
  | nil => intro acc; simp [digitsValue]
  | cons c l ih =>
    intro acc
    have h2 : digitsValue (c :: l) = digToVal c * 10 ^ l.length + digitsValue l := by
      show List.foldl (fun a c => 10 * a + digToVal c) 0 (c :: l) = _
      rw [List.foldl_cons, ih]
      ring
    rw [List.foldl_cons, ih, h2]
    rw [List.length_cons]
    ring

lemma digitsValue_append (a b : PyStr) :
    digitsValue (a ++ b) = digitsValue a * 10 ^ b.length + digitsValue b := by
  unfold digitsValue
  rw [List.foldl_append]
  rw [digitsValue_go]
  rfl

lemma digToVal_digitChar {d : ℕ} (h : d < 10) : digToVal (digitChar d) = d := by
  interval_cases d <;> rfl

lemma isDigit_digitChar {d : ℕ} (h : d < 10) : isDigit (digitChar d) = true := by
  interval_cases d <;> rfl

lemma digitsValue_rev_map (ds : List ℕ) (h : ∀ d ∈ ds, d < 10) :
    digitsValue ((ds.map digitChar).reverse) = Nat.ofDigits 10 ds := by
  induction ds with
  | nil => rfl
  | cons d ds ih =>
    have hd : d < 10 := h d (by simp)
    have hds : ∀ x ∈ ds, x < 10 := fun x hx => h x (by simp [hx])
    rw [List.map_cons, List.reverse_cons, digitsValue_append, ih hds]
    rw [Nat.ofDigits_cons]
    have : digitsValue [digitChar d] = d := by
      unfold digitsValue
      simp [digToVal_digitChar hd]
    rw [this]
    simp
    ring

lemma natRepr_ne_nil (n : ℕ) : natRepr n ≠ [] := by
  unfold natRepr
  by_cases h : n = 0
  · simp [h]
  · simp only [h, if_false]
    simp [Nat.digits_ne_nil_iff_ne_zero, h]

lemma natRepr_all_digits (n : ℕ) : ∀ c ∈ natRepr n, isDigit c = true := by
  intro c hc
  unfold natRepr at hc
  by_cases h : n = 0
  · simp [h] at hc
    simp [hc]
    rfl
  · simp only [h, if_false, List.mem_reverse, List.mem_map] at hc
    obtain ⟨d, hd, rfl⟩ := hc
    exact isDigit_digitChar (Nat.digits_lt_base (by norm_num) hd)

lemma parseNat_natRepr (n : ℕ) : parseNat (natRepr n) = some n := by
  unfold parseNat
  rw [if_pos ⟨natRepr_ne_nil n, List.all_eq_true.mpr (fun c hc => natRepr_all_digits n c hc)⟩]
  congr 1
  by_cases h : n = 0
  · subst h; rfl
  · unfold natRepr
    simp only [h, if_false]
    rw [digitsValue_rev_map _ (fun d hd => Nat.digits_lt_base (by norm_num) hd)]
    exact Nat.ofDigits_digits 10 n

lemma natRepr_head_not_sign (n : ℕ) :
    (natRepr n).head? ≠ some '-' ∧ (natRepr n).head? ≠ some '+' := by
  cases hh : (natRepr n).head? with
  | none => simp
  | some c =>
    have hc : c ∈ natRepr n := by
      cases hl : natRepr n with
      | nil => rw [hl] at hh; simp at hh
      | cons a l =>
        rw [hl] at hh
        simp at hh
        simp [hl, hh]
    have hd := natRepr_all_digits n c hc
    constructor <;> intro he <;> simp at he <;> rw [he] at hd <;>
      exact absurd hd (by decide)

lemma pyParseInt_intRepr (i : ℤ) : pyParseInt (intRepr i) = some i := by
  unfold intRepr
  by_cases h : i < 0
  · rw [if_pos h]
    have hm : pyParseInt ('-' :: natRepr i.natAbs) =
        (parseNat (natRepr i.natAbs)).map (fun n => -(n : ℤ)) := by
      unfold pyParseInt
      simp
    rw [hm, parseNat_natRepr]
    exact congrArg some (show -((i.natAbs : ℕ) : ℤ) = i by omega)
  · rw [if_neg h]
    unfold pyParseInt
    rw [if_neg (natRepr_head_not_sign _).1, if_neg (natRepr_head_not_sign _).2]
    rw [parseNat_natRepr]
    simp
    omega

lemma intRepr_chars (i : ℤ) : ∀ c ∈ intRepr i, isDigit c = true ∨ c = '-' := by
  intro c hc
  unfold intRepr at hc
  by_cases h : i < 0
  · rw [if_pos h] at hc
    rcases List.mem_cons.mp hc with h1 | h1
    · right; exact h1
    · left; exact natRepr_all_digits _ c h1
  · rw [if_neg h] at hc
    left
    exact natRepr_all_digits _ c hc

lemma digit_or_sign_not_ws {c : Char} (h : isDigit c = true ∨ c = '-') :
    isWS c = false := by
  rcases h with h | h
  · simp only [isDigit, decide_eq_true_eq] at h
    simp only [isWS, decide_eq_false_iff_not, char_eq_iff_toNat]
    intro hor
    rcases hor with h1 | h1 | h1 | h1 | h1 | h1 <;> rw [h1] at h <;>
      revert h <;> decide
  · subst h; decide

lemma digit_or_sign_ne_eq {c : Char} (h : isDigit c = true ∨ c = '-') :
    c ≠ '=' := by
  intro h1
  subst h1
  rcases h with h | h
  · exact absurd h (by decide)
  · exact absurd h (by decide)

lemma intRepr_no_ws (i : ℤ) : ∀ c ∈ intRepr i, isWS c = false :=
  fun c hc => digit_or_sign_not_ws (intRepr_chars i c hc)

lemma intRepr_no_eq (i : ℤ) : ∀ c ∈ intRepr i, c ≠ '=' :=
  fun c hc => digit_or_sign_ne_eq (intRepr_chars i c hc)

lemma intRepr_ne_nil (i : ℤ) : intRepr i ≠ [] := by
  unfold intRepr
  by_cases h : i < 0
  · simp [h]
  · simp [h, natRepr_ne_nil]

/-! ## Python `str.split` helpers -/

/-- Loop of Python's no-argument `str.split()`: split on whitespace runs,
producing no empty tokens; `cur` is the token being accumulated. -/
def splitWSGo : List Char → List Char → List PyStr
  | [], cur => if cur = [] then [] else [cur]
  | c :: rest, cur =>
    if isWS c then (if cur = [] then splitWSGo rest [] else cur :: splitWSGo rest [])
    else splitWSGo rest (cur ++ [c])

/-- Python `s.split()` (no argument): whitespace-run split with no empty
tokens. -/
def pysplitWS (l : PyStr) : List PyStr := splitWSGo l []

/-- Python `s.split('=', 1)`, returning the two parts; the second part is
empty when no `=` occurs (the sources only call this after an `'=' in s`
test). -/
def splitEq1 (l : PyStr) : PyStr × PyStr :=
  (l.takeWhile (fun c => c ≠ '='), (l.dropWhile (fun c => c ≠ '=')).tail)

lemma splitWSGo_nil (cur : List Char) :
    splitWSGo [] cur = if cur = [] then [] else [cur] := rfl

lemma splitWSGo_space (rest : List Char) (cur : List Char) :
    splitWSGo (' ' :: rest) cur =
      if cur = [] then splitWSGo rest [] else cur :: splitWSGo rest [] := by
  show (if isWS ' ' then _ else _) = _
  rw [if_pos (by decide)]

lemma splitWSGo_token (t : PyStr) (ht : ∀ c ∈ t, isWS c = false) :
    ∀ (rest : List Char) (cur : List Char),
      splitWSGo (t ++ rest) cur = splitWSGo rest (cur ++ t) := by
  induction t with
  | nil => intro rest cur; simp
  | cons c t ih =>
    intro rest cur
    have hc : isWS c = false := ht c (by simp)
    have ht' : ∀ x ∈ t, isWS x = false := fun x hx => ht x (by simp [hx])
    have estep : splitWSGo ((c :: t) ++ rest) cur = splitWSGo (t ++ rest) (cur ++ [c]) := by
      show (if isWS c then _ else _) = _
      simp [hc]
    rw [estep, ih ht' rest (cur ++ [c])]
    simp

lemma takeWhile_neq_append (a b : PyStr) (ha : ∀ c ∈ a, c ≠ '=') :
    (a ++ '=' :: b).takeWhile (fun c => c ≠ '=') = a := by
  induction a with
  | nil => simp [List.takeWhile_cons]
  | cons c a ih =>
    have hc : c ≠ '=' := ha c (by simp)
    rw [List.cons_append, List.takeWhile_cons]
    simp [hc]
    simpa using ih (fun x hx => ha x (by simp [hx]))

lemma dropWhile_neq_append (a b : PyStr) (ha : ∀ c ∈ a, c ≠ '=') :
    (a ++ '=' :: b).dropWhile (fun c => c ≠ '=') = '=' :: b := by
  induction a with
  | nil => simp [List.dropWhile_cons]
  | cons c a ih =>
    have hc : c ≠ '=' := ha c (by simp)
    rw [List.cons_append, List.dropWhile_cons]
    simp [hc]
    simpa using ih (fun x hx => ha x (by simp [hx]))

lemma splitEq1_append (a b : PyStr) (ha : ∀ c ∈ a, c ≠ '=') :
    splitEq1 (a ++ '=' :: b) = (a, b) := by
  unfold splitEq1
  rw [takeWhile_neq_append a b ha, dropWhile_neq_append a b ha]
  rfl

/-! ## `pstrip` facts -/

lemma dropWhile_eq_self_of_head (p : Char → Bool) (l : List Char)
    (h : ∀ c, l.head? = some c → p c = false) : l.dropWhile p = l := by
  cases l with
  | nil => rfl
  | cons c l => rw [List.dropWhile_cons_of_neg (by simp [h c rfl])]

lemma pstrip_eq_self (l : PyStr)
    (hh : ∀ c, l.head? = some c → isWS c = false)
    (hl : ∀ c, l.getLast? = some c → isWS c = false) : pstrip l = l := by
  unfold pstrip
  rw [dropWhile_eq_self_of_head _ _ hh]
  rw [dropWhile_eq_self_of_head _ _ (by
    intro c hc
    apply hl
    rwa [← List.head?_reverse])]
  rw [List.reverse_reverse]

lemma pstrip_cons_space (l : PyStr) : pstrip (' ' :: l) = pstrip l := by
  unfold pstrip
  rw [List.dropWhile_cons_of_pos (by decide)]

lemma pstrip_token_space (t : PyStr) (ht : ∀ c ∈ t, isWS c = false)
    (hne : t ≠ []) : pstrip (t ++ [' ']) = t := by
  unfold pstrip
  have hh : (t ++ [' ']).dropWhile isWS = t ++ [' '] := by
    apply dropWhile_eq_self_of_head
    intro c hc
    cases t with
    | nil => exact absurd rfl hne
    | cons a t0 =>
      simp at hc
      subst hc
      exact ht _ (by simp)
  rw [hh]
  have h2 : (t ++ [' ']).reverse = ' ' :: t.reverse := by simp
  rw [h2, List.dropWhile_cons_of_pos (by decide)]
  rw [dropWhile_eq_self_of_head _ _ (by
    intro c hc
    apply ht
    rw [List.head?_reverse] at hc
    exact List.mem_of_mem_getLast? hc)]
  simp

/-! ## `src/chart_parser.py`: enums, `Chart`, and the section parsers -/

/-- `Difficulty` enum from `src/chart_parser.py`. -/
inductive Difficulty where
  | EASY
  | MEDIUM
  | HARD
  | EXPERT
deriving DecidableEq, Repr

/-- `Instrument` enum from `src/chart_parser.py`. -/
inductive Instrument where
  | GUITAR
  | BASS
  | RHYTHM
  | COOP
  | KEYS
  | DRUMS
  | GHL_GUITAR
  | GHL_BASS
deriving DecidableEq, Repr

/-- `BPMChange` dataclass from `src/chart_parser.py` (bpm as an exact
rational). -/
structure BPMChange where
  tick : ℤ
  bpm : ℚ
deriving DecidableEq, Repr

/-- `BPMChange.milli_bpm` property: `int(bpm * 1000)`. -/
def BPMChange.milli_bpm (b : BPMChange) : ℤ := pyInt (b.bpm * 1000)

/-- `TimeSignature` dataclass from `src/chart_parser.py` (the stored
`denominator` is the power-of-two exponent, as in the source). -/
structure TimeSignature where
  tick : ℤ
  numerator : ℤ
  denominator : ℤ
deriving DecidableEq, Repr

/-- `Section` dataclass from `src/chart_parser.py` (practice section
marker). -/
structure SectionMarker where
  tick : ℤ
  name : PyStr
deriving DecidableEq, Repr

/-- `Chart` dataclass from `src/chart_parser.py`; the per-instrument
`Dict[Difficulty, Track]` dicts are insertion-ordered association lists. -/
structure Chart where
  name : PyStr := pys "Untitled"
  artist : PyStr := pys "Unknown Artist"
  album : PyStr := []
  genre : PyStr := pys "rock"
  year : PyStr := []
  charter : PyStr := []
  offset : ℚ := 0
  resolution : ℤ := 192
  difficulty : ℤ := -1
  preview_start : ℚ := 0
  preview_end : ℚ := 0
  bpm_changes : List BPMChange := []
  time_signatures : List TimeSignature := []
  sections : List SectionMarker := []
  events : List Event := []
  guitar : List (Difficulty × Track) := []
  bass : List (Difficulty × Track) := []
  rhythm : List (Difficulty × Track) := []
  keys : List (Difficulty × Track) := []
  drums : List (Difficulty × Track) := []
  ghl_guitar : List (Difficulty × Track) := []
  ghl_bass : List (Difficulty × Track) := []
deriving DecidableEq, Repr

instance : Inhabited Chart := ⟨{}⟩

/-- `Chart.get_track`: the track map has no entry for COOP, so
`track_map.get(instrument, {})` yields an empty dict there. -/
def Chart.get_track (c : Chart) (inst : Instrument) (diff : Difficulty) :
    Option Track :=
  match inst with
  | .GUITAR => pyLookup c.guitar diff
  | .BASS => pyLookup c.bass diff
  | .RHYTHM => pyLookup c.rhythm diff
  | .COOP => none
  | .KEYS => pyLookup c.keys diff
  | .DRUMS => pyLookup c.drums diff
  | .GHL_GUITAR => pyLookup c.ghl_guitar diff
  | .GHL_BASS => pyLookup c.ghl_bass diff

/-- `Chart.set_track`: writes into the per-instrument dict; COOP is absent
from the map, so setting it is silently dropped (`if instrument in
track_map`). -/
def Chart.set_track (c : Chart) (inst : Instrument) (diff : Difficulty)
    (track : Track) : Chart :=
  match inst with
  | .GUITAR => { c with guitar := dictSet c.guitar diff track }
  | .BASS => { c with bass := dictSet c.bass diff track }
  | .RHYTHM => { c with rhythm := dictSet c.rhythm diff track }
  | .COOP => c
  | .KEYS => { c with keys := dictSet c.keys diff track }
  | .DRUMS => { c with drums := dictSet c.drums diff track }
  | .GHL_GUITAR => { c with ghl_guitar := dictSet c.ghl_guitar diff track }
  | .GHL_BASS => { c with ghl_bass := dictSet c.ghl_bass diff track }

/-- Fractional-decimal part of modelled `float(s)`: parses
`digits [ '.' digits ]`. Exponent notation is not modelled — the sources
never write it. -/
def parseDecParts (l : PyStr) : Option ℚ :=
  let ip := l.takeWhile (fun c => c ≠ '.')
  let rest := l.dropWhile (fun c => c ≠ '.')
  match rest with
  | [] =>
    if ip ≠ [] ∧ ip.all isDigit then some ((digitsValue ip : ℕ) : ℚ) else none
  | _ :: fp =>
    if (ip ≠ [] ∨ fp ≠ []) ∧ ip.all isDigit ∧ fp.all isDigit then
      some ((digitsValue ip : ℚ) + (digitsValue fp : ℚ) / (10 : ℚ) ^ fp.length)
    else none

/-- Python `float(s)` on an already-stripped string, in plain decimal
notation. -/
def pyParseFloat (l : PyStr) : Option ℚ :=
  if l.head? = some '-' then (parseDecParts l.tail).map Neg.neg
  else if l.head? = some '+' then parseDecParts l.tail
  else parseDecParts l

/-- Key dispatch of `_parse_song_section`: unknown keys are ignored;
non-numeric Offset/Resolution/… values raise (`Except.error`). -/
def songKV (chart : Chart) (key value : PyStr) : Except String Chart :=
  if key = pys "Name" then .ok { chart with name := value }
  else if key = pys "Artist" then .ok { chart with artist := value }
  else if key = pys "Album" then .ok { chart with album := value }
  else if key = pys "Genre" then .ok { chart with genre := value }
  else if key = pys "Year" then .ok { chart with year := value }
  else if key = pys "Charter" then .ok { chart with charter := value }
  else if key = pys "Offset" then
    match pyParseFloat value with
    | some q => .ok { chart with offset := q }
    | none => .error "invalid Offset"
  else if key = pys "Resolution" then
    match pyParseInt value with
    | some n => .ok { chart with resolution := n }
    | none => .error "invalid Resolution"
  else if key = pys "Difficulty" then
    match pyParseInt value with
    | some n => .ok { chart with difficulty := n }
    | none => .error "invalid Difficulty"
  else if key = pys "PreviewStart" then
    match pyParseFloat value with
    | some q => .ok { chart with preview_start := q }
    | none => .error "invalid PreviewStart"
  else if key = pys "PreviewEnd" then
    match pyParseFloat value with
    | some q => .ok { chart with preview_end := q }
    | none => .error "invalid PreviewEnd"
  else .ok chart

/-- `ChartParser._parse_song_section`, over the section's content lines. -/
def parse_song_lines (chart : Chart) : List PyStr → Except String Chart
  | [] => .ok chart
  | line :: rest =>
    if '=' ∈ pstrip line then
      match songKV chart (pstrip (splitEq1 (pstrip line)).1)
          (pyStripChars ['"'] (pstrip (splitEq1 (pstrip line)).2)) with
      | .ok c2 => parse_song_lines c2 rest
      | .error e => .error e
    else parse_song_lines chart rest

/-- `ChartParser._parse_sync_track`, over the section's content lines. -/
def parse_sync_lines (chart : Chart) : List PyStr → Except String Chart
  | [] => .ok chart
  | line :: rest =>
    if '=' ∈ pstrip line then
      match pyParseInt (pstrip (splitEq1 (pstrip line)).1) with
      | none => .error "invalid tick"
      | some tick =>
        match pysplitWS (pstrip (splitEq1 (pstrip line)).2) with
        | [] => .error "missing event type"
        | etype :: args =>
          if etype = pys "B" then
            match args with
            | [] => .error "missing milli bpm"
            | a :: _ =>
              match pyParseInt a with
              | none => .error "invalid milli bpm"
              | some mb =>
                parse_sync_lines
                  { chart with
                    bpm_changes := chart.bpm_changes ++ [⟨tick, (mb : ℚ) / 1000⟩] }
                  rest
          else if etype = pys "TS" then
            match args with
            | [] => .error "missing numerator"
            | a :: args2 =>
              match pyParseInt a with
              | none => .error "invalid numerator"
              | some num =>
                match args2 with
                | [] =>
                  parse_sync_lines
                    { chart with
                      time_signatures := chart.time_signatures ++ [⟨tick, num, 2⟩] }
                    rest
                | b :: _ =>
                  match pyParseInt b with
                  | none => .error "invalid denominator"
                  | some den =>
                    parse_sync_lines
                      { chart with
                        time_signatures :=
                          chart.time_signatures ++ [⟨tick, num, den⟩] }
                      rest
          else parse_sync_lines chart rest
    else parse_sync_lines chart rest

/-- Python `s.split(c)` on a single-character separator (used for
`event_data.split('"')`). -/
def splitOnCharGo (c : Char) : List Char → List Char → List PyStr
  | [], cur => [cur]
  | x :: rest, cur =>
    if x = c then cur :: splitOnCharGo c rest []
    else splitOnCharGo c rest (cur ++ [x])

/-- Python `s.split(c)`. -/
def splitOnChar (c : Char) (l : PyStr) : List PyStr := splitOnCharGo c l []

/-- Python `s.replace(pat, '')`: remove every occurrence of `pat` (used for
`.replace('section ', '')`); fuel-structural on the string length. -/
def removeAllAux (pat : PyStr) : ℕ → PyStr → PyStr
  | 0, _ => []
  | _ + 1, [] => []
  | fuel + 1, x :: rest =>
    if pat ≠ [] ∧ pat.isPrefixOf (x :: rest) then
      removeAllAux pat fuel ((x :: rest).drop pat.length)
    else x :: removeAllAux pat fuel rest

/-- Python `s.replace(pat, '')`. -/
def removeAll (pat l : PyStr) : PyStr := removeAllAux pat l.length l

/-- `ChartParser._parse_events`, over the section's content lines. The
`split('"')[1]` index is always in range because the
`startswith('E "section')` guard guarantees a quote character. -/
def parse_events_lines (chart : Chart) : List PyStr → Except String Chart
  | [] => .ok chart
  | line :: rest =>
    if '=' ∈ pstrip line then
      match pyParseInt (pstrip (splitEq1 (pstrip line)).1) with
      | none => .error "invalid tick"
      | some tick =>
        let ed := pstrip (splitEq1 (pstrip line)).2
        if (pys "E \"section").isPrefixOf ed then
          let section_name :=
            removeAll (pys "section ") ((splitOnChar '"' ed).getD 1 [])
          parse_events_lines
            { chart with sections := chart.sections ++ [⟨tick, section_name⟩] }
            rest
        else
          let event_text := pyStripChars ['"'] (pyStripChars ['E', ' '] ed)
          parse_events_lines
            { chart with events := chart.events ++ [⟨tick, event_text⟩] }
            rest
    else parse_events_lines chart rest

/-- Python `' '.join(tokens)`. -/
def joinSpace : List PyStr → PyStr
  | [] => []
  | [t] => t
  | t :: rest => t ++ ' ' :: joinSpace rest

/-- The note buffer of `_parse_track_section`: an insertion-ordered
tick → (fret → Note) dict of dicts. -/
abbrev NoteBuf := List (ℤ × List (ℤ × Note))

/-- Flag line `N 5`: mark every note already buffered at `tick` as forced
(no-op when the tick has no buffered notes, like the Python guard). -/
def bufSetForced (buf : NoteBuf) (tick : ℤ) : NoteBuf :=
  buf.map fun e =>
    if e.1 = tick then (e.1, e.2.map fun fn => (fn.1, { fn.2 with is_forced := true }))
    else e

/-- Flag line `N 6`: mark every note already buffered at `tick` as tap. -/
def bufSetTap (buf : NoteBuf) (tick : ℤ) : NoteBuf :=
  buf.map fun e =>
    if e.1 = tick then (e.1, e.2.map fun fn => (fn.1, { fn.2 with is_tap := true }))
    else e

/-- `note_buffer[tick][fret] = note` (creating the inner dict when
absent). -/
def bufAdd (buf : NoteBuf) (tick fret : ℤ) (note : Note) : NoteBuf :=
  match pyLookup buf tick with
  | some inner => dictSet buf tick (dictSet inner fret note)
  | none => buf ++ [(tick, [(fret, note)])]

/-- One line of the note/star-power/event loop in `_parse_track_section`;
state is the note buffer plus the track being built. -/
def parse_track_line1 (st : NoteBuf × Track) (line : PyStr) :
    Except String (NoteBuf × Track) :=
  if '=' ∈ pstrip line then
    match pyParseInt (pstrip (splitEq1 (pstrip line)).1) with
    | none => .error "invalid tick"
    | some tick =>
      match pysplitWS (pstrip (splitEq1 (pstrip line)).2) with
      | [] => .error "missing event type"
      | etype :: args =>
        if etype = pys "N" then
          match args with
          | [] => .error "missing fret"
          | a1 :: args1 =>
            match pyParseInt a1 with
            | none => .error "invalid fret"
            | some fret =>
              match args1 with
              | [] => .error "missing sustain"
              | a2 :: _ =>
                match pyParseInt a2 with
                | none => .error "invalid sustain"
                | some sustain =>
                  if fret = 5 then .ok (bufSetForced st.1 tick, st.2)
                  else if fret = 6 then .ok (bufSetTap st.1 tick, st.2)
                  else if fret = 7 then
                    .ok (bufAdd st.1 tick fret
                      ⟨tick, fret, sustain, false, false, true, 100⟩, st.2)
                  else
                    .ok (bufAdd st.1 tick fret
                      ⟨tick, fret, sustain, false, false, false, 100⟩, st.2)
        else if etype = pys "S" then
          match args with
          | [] => .error "missing star power type"
          | a1 :: args1 =>
            match pyParseInt a1 with
            | none => .error "invalid star power type"
            | some sp_type =>
              match args1 with
              | [] => .error "missing star power length"
              | a2 :: _ =>
                match pyParseInt a2 with
                | none => .error "invalid star power length"
                | some len =>
                  if sp_type = 2 then
                    .ok (st.1, { st.2 with star_power := st.2.star_power ++ [⟨tick, len⟩] })
                  else .ok st
        else if etype = pys "E" then
          .ok (st.1, { st.2 with
            events := st.2.events ++ [⟨tick, pyStripChars ['"'] (joinSpace args)⟩] })
        else .ok st
  else .ok st

/-- The line loop of `_parse_track_section`. -/
def parse_track_lines : List PyStr → NoteBuf × Track →
    Except String (NoteBuf × Track)
  | [], st => .ok st
  | line :: rest, st =>
    match parse_track_line1 st line with
    | .ok st2 => parse_track_lines rest st2
    | .error e => .error e

/-- The final buffer flush of `_parse_track_section`: `add_note` for every
buffered note, in buffer order. -/
def flushBuf (buf : NoteBuf) (t : Track) : Track :=
  buf.foldl (fun tr e => e.2.foldl (fun tr2 fn => tr2.add_note fn.2) tr) t

/-- The `difficulty_map` of `_parse_track_section`, in insertion order. -/
def difficultyTable : List (PyStr × Difficulty) :=
  [(pys "Easy", .EASY), (pys "Medium", .MEDIUM), (pys "Hard", .HARD),
   (pys "Expert", .EXPERT)]

/-- The `instrument_map` of `_parse_track_section`. -/
def instrumentTable : List (PyStr × Instrument) :=
  [(pys "Single", .GUITAR), (pys "DoubleBass", .BASS),
   (pys "DoubleRhythm", .RHYTHM), (pys "DoubleGuitar", .COOP),
   (pys "Keyboard", .KEYS), (pys "Drums", .DRUMS),
   (pys "GHLGuitar", .GHL_GUITAR), (pys "GHLBass", .GHL_BASS)]

/-- The prefix scan over `difficulty_map`: first difficulty name that
prefixes the section name wins, returning the instrument-name remainder. -/
def matchDiffGo : List (PyStr × Difficulty) → PyStr → Option (Difficulty × PyStr)
  | [], _ => none
  | (dn, de) :: rest, s =>
    if dn.isPrefixOf s then some (de, s.drop dn.length) else matchDiffGo rest s

/-- `ChartParser._parse_track_section`: resolve the name into (difficulty,
instrument), run the line loop, flush the buffer, and store the track. -/
def parse_track_section (chart : Chart) (section_name : PyStr)
    (content : List PyStr) : Except String Chart :=
  match matchDiffGo difficultyTable section_name with
  | none => .ok chart
  | some (diff, instname) =>
    match pyLookup instrumentTable instname with
    | none => .ok chart
    | some inst =>
      match parse_track_lines content ([], ⟨[], [], []⟩) with
      | .error e => .error e
      | .ok (buf, tr0) => .ok (chart.set_track inst diff (flushBuf buf tr0))

instance {ε α : Type} [DecidableEq ε] [DecidableEq α] :
    DecidableEq (Except ε α) := fun a b =>
  match a, b with
  | .ok x, .ok y =>
    match decEq x y with
    | isTrue h => isTrue (congrArg Except.ok h)
    | isFalse h => isFalse (fun hc => h (Except.ok.inj hc))
  | .error x, .error y =>
    match decEq x y with
    | isTrue h => isTrue (congrArg Except.error h)
    | isFalse h => isFalse (fun hc => h (Except.error.inj hc))
  | .ok _, .error _ => isFalse (fun hc => Except.noConfusion hc)
  | .error _, .ok _ => isFalse (fun hc => Except.noConfusion hc)

example :
    parse_track_section {} (pys "ExpertSingle")
      [pys "0 = N 0 96", pys "0 = N 5 0", pys "192 = N 7 0"] =
    .ok ((({} : Chart)).set_track .GUITAR .EXPERT
      ⟨[⟨0, 0, 96, true, false, false, 100⟩, ⟨192, 7, 0, false, false, true, 100⟩],
       [], []⟩) := by decide

/-! ## Reduction lemmas for constructed chart lines -/

/-- A `key = value` line as both the writer emits it (after stripping the
indentation) and the parsers consume it. -/
def kvLine (k v : PyStr) : PyStr := (k ++ [' ', '=', ' ']) ++ v

/-- A `tick = body` line. -/
def tickLine (t : ℤ) (body : PyStr) : PyStr := kvLine (intRepr t) body

/-- A two-token event body, `word value`. -/
def body2 (w : PyStr) (a : ℤ) : PyStr := w ++ (' ' :: intRepr a)

/-- A three-token event body, `word value value`. -/
def body3 (w : PyStr) (a b : ℤ) : PyStr :=
  w ++ (' ' :: (intRepr a ++ (' ' :: intRepr b)))

/-- The note line `tick = N fret sustain`. -/
def nLine (t f s : ℤ) : PyStr := tickLine t (body3 (pys "N") f s)

lemma eq_mem_kvLine (k v : PyStr) : '=' ∈ kvLine k v := by
  unfold kvLine
  simp

lemma pstrip_kvLine (k v : PyStr)
    (hk_ne : k ≠ []) (hk_head : ∀ c, k.head? = some c → isWS c = false)
    (hv_ne : v ≠ []) (hv_last : ∀ c, v.getLast? = some c → isWS c = false) :
    pstrip (kvLine k v) = kvLine k v := by
  apply pstrip_eq_self
  · intro c hc
    unfold kvLine at hc
    rw [List.head?_append_of_ne_nil _ (by simp [hk_ne]),
      List.head?_append_of_ne_nil _ hk_ne] at hc
    exact hk_head c hc
  · intro c hc
    unfold kvLine at hc
    rw [List.getLast?_append_of_ne_nil _ hv_ne] at hc
    exact hv_last c hc

lemma splitEq1_kvLine (k v : PyStr) (hk : ∀ c ∈ k, c ≠ '=') :
    splitEq1 (kvLine k v) = (k ++ [' '], ' ' :: v) := by
  have hsh : kvLine k v = (k ++ [' ']) ++ '=' :: (' ' :: v) := by
    unfold kvLine
    simp
  rw [hsh, splitEq1_append]
  intro c hc
  rcases List.mem_append.mp hc with h | h
  · exact hk c h
  · simp at h
    subst h
    decide

lemma pstrip_val (v : PyStr)
    (hv_head : ∀ c, v.head? = some c → isWS c = false)
    (hv_last : ∀ c, v.getLast? = some c → isWS c = false) :
    pstrip (' ' :: v) = v := by
  rw [pstrip_cons_space, pstrip_eq_self v hv_head hv_last]

lemma splitWSGo_end_token (t : PyStr) (cur : List Char)
    (ht : ∀ c ∈ t, isWS c = false) (hne : cur ++ t ≠ []) :
    splitWSGo t cur = [cur ++ t] := by
  have h1 : splitWSGo (t ++ []) cur = splitWSGo [] (cur ++ t) :=
    splitWSGo_token t ht [] cur
  rw [List.append_nil] at h1
  rw [h1, splitWSGo_nil, if_neg hne]

lemma pysplitWS_tok2 (t1 t2 : PyStr)
    (h1 : ∀ c ∈ t1, isWS c = false) (h1n : t1 ≠ [])
    (h2 : ∀ c ∈ t2, isWS c = false) (h2n : t2 ≠ []) :
    pysplitWS (t1 ++ (' ' :: t2)) = [t1, t2] := by
  unfold pysplitWS
  rw [splitWSGo_token t1 h1, List.nil_append, splitWSGo_space, if_neg h1n]
  rw [splitWSGo_end_token t2 [] h2 (by simp [h2n])]
  simp

lemma pysplitWS_tok3 (t1 t2 t3 : PyStr)
    (h1 : ∀ c ∈ t1, isWS c = false) (h1n : t1 ≠ [])
    (h2 : ∀ c ∈ t2, isWS c = false) (h2n : t2 ≠ [])
    (h3 : ∀ c ∈ t3, isWS c = false) (h3n : t3 ≠ []) :
    pysplitWS (t1 ++ (' ' :: (t2 ++ (' ' :: t3)))) = [t1, t2, t3] := by
  unfold pysplitWS
  rw [splitWSGo_token t1 h1, List.nil_append, splitWSGo_space, if_neg h1n]
  rw [splitWSGo_token t2 h2, List.nil_append, splitWSGo_space, if_neg h2n]
  rw [splitWSGo_end_token t3 [] h3 (by simp [h3n])]
  simp

lemma intRepr_head_not_ws (t : ℤ) :
    ∀ c, (intRepr t).head? = some c → isWS c = false :=
  fun c hc => intRepr_no_ws t c (List.mem_of_mem_head? hc)

lemma intRepr_last_not_ws (t : ℤ) :
    ∀ c, (intRepr t).getLast? = some c → isWS c = false :=
  fun c hc => intRepr_no_ws t c (List.mem_of_mem_getLast? hc)

/-- Full reduction of the tick part of a `tick = body` line. -/
lemma tick_part (t : ℤ) : pyParseInt (pstrip (intRepr t ++ [' '])) = some t := by
  rw [pstrip_token_space _ (intRepr_no_ws t) (intRepr_ne_nil t), pyParseInt_intRepr]

lemma getLast?_cons_append (c : Char) (l : List Char) (h : l ≠ []) :
    (c :: l).getLast? = l.getLast? := by
  rw [show c :: l = [c] ++ l from rfl, List.getLast?_append_of_ne_nil _ h]

lemma body3_last (w : PyStr) (a b : ℤ) :
    ∀ c, (body3 w a b).getLast? = some c → isWS c = false := by
  intro c hc
  unfold body3 at hc
  rw [List.getLast?_append_of_ne_nil _ (by simp),
    getLast?_cons_append _ _ (by simp [intRepr_ne_nil]),
    List.getLast?_append_of_ne_nil _ (by simp),
    getLast?_cons_append _ _ (intRepr_ne_nil b)] at hc
  exact intRepr_last_not_ws b c hc

lemma body2_last (w : PyStr) (a : ℤ) :
    ∀ c, (body2 w a).getLast? = some c → isWS c = false := by
  intro c hc
  unfold body2 at hc
  rw [List.getLast?_append_of_ne_nil _ (by simp),
    getLast?_cons_append _ _ (intRepr_ne_nil a)] at hc
  exact intRepr_last_not_ws a c hc

lemma parse_track_line1_nLine (st : NoteBuf × Track) (t f s : ℤ) :
    parse_track_line1 st (nLine t f s) =
      (if f = 5 then .ok (bufSetForced st.1 t, st.2)
       else if f = 6 then .ok (bufSetTap st.1 t, st.2)
       else if f = 7 then
         .ok (bufAdd st.1 t f ⟨t, f, s, false, false, true, 100⟩, st.2)
       else
         .ok (bufAdd st.1 t f ⟨t, f, s, false, false, false, 100⟩, st.2)) := by
  have h1 : pstrip (nLine t f s) = nLine t f s := by
    unfold nLine tickLine
    apply pstrip_kvLine
    · exact intRepr_ne_nil t
    · exact intRepr_head_not_ws t
    · unfold body3
      simp [pys]
    · exact body3_last _ f s
  have h2 : '=' ∈ pstrip (nLine t f s) := by
    rw [h1]
    exact eq_mem_kvLine _ _
  have h3 : splitEq1 (pstrip (nLine t f s)) =
      (intRepr t ++ [' '], ' ' :: body3 (pys "N") f s) := by
    rw [h1]
    exact splitEq1_kvLine _ _ (intRepr_no_eq t)
  have h4 : pstrip (' ' :: body3 (pys "N") f s) = body3 (pys "N") f s := by
    apply pstrip_val
    · intro c hc
      unfold body3 at hc
      rw [List.head?_append_of_ne_nil _ (by simp [pys])] at hc
      simp [pys] at hc
      subst hc
      decide
    · exact body3_last _ f s
  have h5 : pysplitWS (body3 (pys "N") f s) = [pys "N", intRepr f, intRepr s] := by
    unfold body3
    exact pysplitWS_tok3 _ _ _ (by decide) (by decide)
      (intRepr_no_ws f) (intRepr_ne_nil f) (intRepr_no_ws s) (intRepr_ne_nil s)
  unfold parse_track_line1
  rw [if_pos h2, h3]
  simp only [tick_part, h4, h5, pyParseInt_intRepr]
  simp

/-- Counterexample to C2: in the section text the flag line `0 = N 5 0`
precedes the note line `0 = N 0 0`; the parsed track's note at tick 0,
fret 0 has `is_forced = False` — the flag only marks notes already
buffered when the flag line is reached. -/
theorem parse_track_flag_before_note_ignored :
    (parse_track_section {} (pys "ExpertSingle")
        [pys "0 = N 5 0", pys "0 = N 0 0"]).map
      (fun ch => (ch.get_track .GUITAR .EXPERT).map Track.notes) =
    .ok (some [⟨0, 0, 0, false, false, false, 100⟩]) := by decide

/-- C2 (amended): in the track-section parser a flag line `t = N 5 x`
(respectively `t = N 6 x`) at the same tick as a note line `t = N f s`
(fret f in 0–4) sets is_forced (respectively is_tap) on that note exactly
when the flag line appears *after* the note line in the section's text; with
the flag line first, the flag is not applied (see the counterexample). -/
theorem parse_track_flag_after_note (t f s x : ℤ) (hf0 : 0 ≤ f) (hf4 : f ≤ 4) :
    parse_track_section {} (pys "ExpertSingle") [nLine t f s, nLine t 5 x] =
      .ok (({} : Chart).set_track .GUITAR .EXPERT
        ⟨[⟨t, f, s, true, false, false, 100⟩], [], []⟩) ∧
    parse_track_section {} (pys "ExpertSingle") [nLine t f s, nLine t 6 x] =
      .ok (({} : Chart).set_track .GUITAR .EXPERT
        ⟨[⟨t, f, s, false, true, false, 100⟩], [], []⟩) := by
  have hne5 : f ≠ 5 := by omega
  have hne6 : f ≠ 6 := by omega
  have hne7 : f ≠ 7 := by omega
  have hmd : matchDiffGo difficultyTable (pys "ExpertSingle") =
      some (.EXPERT, pys "Single") := by decide
  have hil : pyLookup instrumentTable (pys "Single") = some Instrument.GUITAR := by
    decide
  have hl1 : parse_track_line1 ([], ⟨[], [], []⟩) (nLine t f s) =
      .ok ([(t, [(f, ⟨t, f, s, false, false, false, 100⟩)])], ⟨[], [], []⟩) := by
    rw [parse_track_line1_nLine]
    rw [if_neg hne5, if_neg hne6, if_neg hne7]
    simp [bufAdd, pyLookup]
  constructor
  · have hl2 : parse_track_line1
        ([(t, [(f, ⟨t, f, s, false, false, false, 100⟩)])], ⟨[], [], []⟩)
        (nLine t 5 x) =
        .ok ([(t, [(f, ⟨t, f, s, true, false, false, 100⟩)])], ⟨[], [], []⟩) := by
      rw [parse_track_line1_nLine]
      rw [if_pos rfl]
      simp [bufSetForced]
    unfold parse_track_section
    simp only [hmd, hil]
    simp only [parse_track_lines, hl1, hl2]
    simp [flushBuf, Track.add_note, List.insertionSort, List.orderedInsert]
  · have hl2 : parse_track_line1
        ([(t, [(f, ⟨t, f, s, false, false, false, 100⟩)])], ⟨[], [], []⟩)
        (nLine t 6 x) =
        .ok ([(t, [(f, ⟨t, f, s, false, true, false, 100⟩)])], ⟨[], [], []⟩) := by
      rw [parse_track_line1_nLine]
      rw [if_neg (by decide), if_pos rfl]
      simp [bufSetTap]
    unfold parse_track_section
    simp only [hmd, hil]
    simp only [parse_track_lines, hl1, hl2]
    simp [flushBuf, Track.add_note, List.insertionSort, List.orderedInsert]

/-- Witness for the amended C2 at concrete inputs. -/
theorem parse_track_flag_after_note_witness :
    parse_track_section {} (pys "ExpertSingle") [nLine 0 0 96, nLine 0 5 0] =
      .ok (({} : Chart).set_track .GUITAR .EXPERT
        ⟨[⟨0, 0, 96, true, false, false, 100⟩], [], []⟩) ∧
    parse_track_section {} (pys "ExpertSingle") [nLine 0 0 96, nLine 0 6 0] =
      .ok (({} : Chart).set_track .GUITAR .EXPERT
        ⟨[⟨0, 0, 96, false, true, false, 100⟩], [], []⟩) :=
  parse_track_flag_after_note 0 0 96 0 (by decide) (by decide)

/-! ## Python float printing (`f-string` repr) for finite-decimal rationals -/

/-- Search for the least exponent `k` (starting from `k0`, `fuel` attempts)
with `d ∣ 10 ^ k`. -/
def decExpAux (d : ℕ) : ℕ → ℕ → ℕ
  | 0, k => k
  | fuel + 1, k => if d ∣ 10 ^ k then k else decExpAux d fuel (k + 1)

/-- The least `k` with `d ∣ 10 ^ k`, for denominators of finite-decimal
rationals. -/
def decExp (d : ℕ) : ℕ := decExpAux d (d + 1) 0

/-- The digit body `int.frac` of the decimal rendering of `n / 10 ^ k`. -/
def decBody (n : ℕ) (k : ℕ) : PyStr :=
  let ds := natRepr n
  let ds2 := List.replicate (k + 1 - ds.length) '0' ++ ds
  ds2.take (ds2.length - k) ++ ('.' :: ds2.drop (ds2.length - k))

/-- Python `f"{x}"` for a float modelled as a finite-decimal rational:
sign, integer part, dot, fractional part (at least one fractional digit, as
Python prints `x.0` for integral floats; scientific notation is not
modelled). -/
def pyFloatRepr (q : ℚ) : PyStr :=
  let k := max 1 (decExp q.den)
  let m := (q * (10 : ℚ) ^ k).num
  (if q < 0 then ['-'] else []) ++ decBody m.natAbs k

/-- The well-formedness of a float value for the modelled decimal repr:
scaling by the chosen power of ten clears the denominator. -/
def WFfloat (q : ℚ) : Prop :=
  (q * (10 : ℚ) ^ (max 1 (decExp q.den))).den = 1

lemma digitsValue_natRepr (n : ℕ) : digitsValue (natRepr n) = n := by
  by_cases h : n = 0
  · subst h; rfl
  · unfold natRepr
    simp only [h, if_false]
    rw [digitsValue_rev_map _ (fun d hd => Nat.digits_lt_base (by norm_num) hd)]
    exact Nat.ofDigits_digits 10 n

lemma digitsValue_replicate_zero (z : ℕ) (ds : PyStr) :
    digitsValue (List.replicate z '0' ++ ds) = digitsValue ds := by
  rw [digitsValue_append]
  have : digitsValue (List.replicate z '0') = 0 := by
    induction z with
    | zero => rfl
    | succ z ih =>
      rw [List.replicate_succ]
      show List.foldl (fun a c => 10 * a + digToVal c) 0 ('0' :: List.replicate z '0') = 0
      rw [List.foldl_cons]
      show List.foldl (fun a c => 10 * a + digToVal c) 0 (List.replicate z '0') = 0
      exact ih
  rw [this]
  ring

lemma digitsValue_split (l : PyStr) (k : ℕ) (hk : k ≤ l.length) :
    digitsValue l =
      digitsValue (l.take (l.length - k)) * 10 ^ k +
        digitsValue (l.drop (l.length - k)) := by
  have h1 : l = l.take (l.length - k) ++ l.drop (l.length - k) := by
    rw [List.take_append_drop]
  have h2 : (l.drop (l.length - k)).length = k := by
    rw [List.length_drop]
    omega
  conv_lhs => rw [h1]
  rw [digitsValue_append, h2]

lemma decBody_parts (n k : ℕ) :
    ∃ ip fp, decBody n k = ip ++ ('.' :: fp) ∧
      ip ≠ [] ∧ fp.length = k ∧
      (∀ c ∈ ip, isDigit c = true) ∧ (∀ c ∈ fp, isDigit c = true) ∧
      (digitsValue ip) * 10 ^ k + digitsValue fp = n := by
  unfold decBody
  set ds := natRepr n with hds
  set ds2 := List.replicate (k + 1 - ds.length) '0' ++ ds with hds2
  have hdig2 : ∀ c ∈ ds2, isDigit c = true := by
    intro c hc
    rw [hds2] at hc
    rcases List.mem_append.mp hc with h | h
    · rw [List.eq_of_mem_replicate h]
      decide
    · exact natRepr_all_digits n c h
  have hlen2 : k + 1 ≤ ds2.length := by
    rw [hds2, List.length_append, List.length_replicate]
    have := List.length_pos.mpr (natRepr_ne_nil n)
    omega
  refine ⟨ds2.take (ds2.length - k), ds2.drop (ds2.length - k), rfl, ?_, ?_, ?_, ?_, ?_⟩
  · have : (ds2.take (ds2.length - k)).length = ds2.length - k := by
      rw [List.length_take]
      omega
    intro hnil
    rw [hnil] at this
    simp at this
    omega
  · rw [List.length_drop]
    omega
  · intro c hc
    exact hdig2 c (List.mem_of_mem_take hc)
  · intro c hc
    exact hdig2 c (List.mem_of_mem_drop hc)
  · have := digitsValue_split ds2 k (by omega)
    rw [← this, hds2, digitsValue_replicate_zero, hds, digitsValue_natRepr]

lemma takeWhile_neqc_append (c0 : Char) (a b : PyStr) (ha : ∀ c ∈ a, c ≠ c0) :
    (a ++ c0 :: b).takeWhile (fun c => c ≠ c0) = a := by
  induction a with
  | nil => simp [List.takeWhile_cons]
  | cons c a ih =>
    have hc : c ≠ c0 := ha c (by simp)
    rw [List.cons_append, List.takeWhile_cons]
    simp [hc]
    simpa using ih (fun x hx => ha x (by simp [hx]))

lemma dropWhile_neqc_append (c0 : Char) (a b : PyStr) (ha : ∀ c ∈ a, c ≠ c0) :
    (a ++ c0 :: b).dropWhile (fun c => c ≠ c0) = c0 :: b := by
  induction a with
  | nil => simp [List.dropWhile_cons]
  | cons c a ih =>
    have hc : c ≠ c0 := ha c (by simp)
    rw [List.cons_append, List.dropWhile_cons]
    simp [hc]
    simpa using ih (fun x hx => ha x (by simp [hx]))

lemma digit_ne_dot {c : Char} (h : isDigit c = true) : c ≠ '.' := by
  intro h1
  subst h1
  exact absurd h (by decide)

lemma digit_ne_minus {c : Char} (h : isDigit c = true) : c ≠ '-' := by
  intro h1
  subst h1
  exact absurd h (by decide)

lemma digit_ne_plus {c : Char} (h : isDigit c = true) : c ≠ '+' := by
  intro h1
  subst h1
  exact absurd h (by decide)

lemma parseDecParts_decBody (n k : ℕ) :
    parseDecParts (decBody n k) = some ((n : ℚ) / 10 ^ k) := by
  obtain ⟨ip, fp, heq, hipne, hfplen, hipd, hfpd, hval⟩ := decBody_parts n k
  rw [heq]
  unfold parseDecParts
  rw [takeWhile_neqc_append '.' ip fp (fun c hc => digit_ne_dot (hipd c hc)),
    dropWhile_neqc_append '.' ip fp (fun c hc => digit_ne_dot (hipd c hc))]
  simp only [hipne, List.all_eq_true]
  rw [if_pos ⟨Or.inl hipne, fun c hc => hipd c hc, fun c hc => hfpd c hc⟩]
  congr 1
  rw [hfplen]
  have h10 : ((10 : ℚ) ^ k) ≠ 0 := by positivity
  field_simp
  have hc := congrArg (fun x : ℕ => (x : ℚ)) hval
  push_cast at hc
  linarith

lemma decBody_head_digit (n k : ℕ) :
    ∀ c, (decBody n k).head? = some c → isDigit c = true := by
  obtain ⟨ip, fp, heq, hipne, hfplen, hipd, hfpd, hval⟩ := decBody_parts n k
  intro c hc
  rw [heq, List.head?_append_of_ne_nil _ hipne] at hc
  exact hipd c (List.mem_of_mem_head? hc)

lemma pyParseFloat_pyFloatRepr (q : ℚ) (hq : WFfloat q) :
    pyParseFloat (pyFloatRepr q) = some q := by
  unfold WFfloat at hq
  unfold pyFloatRepr
  have hm : ((q * (10 : ℚ) ^ (max 1 (decExp q.den))).num : ℚ) =
      q * (10 : ℚ) ^ (max 1 (decExp q.den)) := by
    rw [Rat.den_eq_one_iff] at hq
    exact hq
  set k := max 1 (decExp q.den) with hk
  set m := (q * (10 : ℚ) ^ k).num with hmdef
  have h10 : ((10 : ℚ) ^ k) ≠ 0 := by positivity
  have hqm : q = (m : ℚ) / 10 ^ k := by
    rw [hm]
    field_simp
  by_cases hneg : q < 0
  · rw [if_pos hneg]
    have hmneg : m < 0 := by
      by_contra hc
      push_neg at hc
      rw [hmdef] at hc
      have h1 : (0 : ℚ) ≤ q * (10 : ℚ) ^ k := Rat.num_nonneg.mp hc
      have h2 : q * (10 : ℚ) ^ k < 0 :=
        mul_neg_of_neg_of_pos hneg (pow_pos (by norm_num) k)
      linarith
    have hstep : pyParseFloat (['-'] ++ decBody m.natAbs k) =
        (parseDecParts (decBody m.natAbs k)).map Neg.neg := by
      unfold pyParseFloat
      simp
    rw [hstep, parseDecParts_decBody]
    have hcast : ((m.natAbs : ℕ) : ℚ) = -(m : ℚ) := by
      rw [Int.cast_natAbs, abs_of_neg hmneg]
      push_cast
      ring
    simp only [Option.map]
    refine congrArg some ?_
    rw [hcast, hqm]
    ring
  · rw [if_neg hneg]
    have hmpos : 0 ≤ m := by
      rw [hmdef]
      apply Rat.num_nonneg.mpr
      have : (0 : ℚ) ≤ q := le_of_not_lt hneg
      positivity
    have hh1 : (decBody m.natAbs k).head? ≠ some '-' := by
      intro hc
      exact digit_ne_minus (decBody_head_digit m.natAbs k '-' hc) rfl
    have hh2 : (decBody m.natAbs k).head? ≠ some '+' := by
      intro hc
      exact digit_ne_plus (decBody_head_digit m.natAbs k '+' hc) rfl
    have hstep : pyParseFloat ([] ++ decBody m.natAbs k) =
        parseDecParts (decBody m.natAbs k) := by
      unfold pyParseFloat
      rw [List.nil_append, if_neg hh1, if_neg hh2]
    rw [hstep, parseDecParts_decBody]
    have hcast : ((m.natAbs : ℕ) : ℚ) = (m : ℚ) := by
      rw [Int.cast_natAbs, abs_of_nonneg hmpos]
    refine congrArg some ?_
    rw [hcast, hqm]

/-! ## `ChartParser.write_file`: the writer as its list of output lines -/

/-- A writer content line: two spaces of indentation. -/
def wline (l : PyStr) : PyStr := ' ' :: ' ' :: l

/-- A double-quoted metadata value, `"{v}"` (no escaping, as in the
source). -/
def quoted (v : PyStr) : PyStr := '"' :: (v ++ ['"'])

/-- The `[Song]` section body (between its header and the next header):
braces, the metadata lines with their truthiness guards, and the blank
separator line. -/
def write_song_body (c : Chart) : List PyStr :=
  [['\x7b']] ++
  [wline (kvLine (pys "Name") (quoted c.name))] ++
  [wline (kvLine (pys "Artist") (quoted c.artist))] ++
  (if c.album ≠ [] then [wline (kvLine (pys "Album") (quoted c.album))] else []) ++
  (if c.genre ≠ [] then [wline (kvLine (pys "Genre") (quoted c.genre))] else []) ++
  (if c.year ≠ [] then [wline (kvLine (pys "Year") (quoted c.year))] else []) ++
  (if c.charter ≠ [] then [wline (kvLine (pys "Charter") (quoted c.charter))] else []) ++
  [wline (kvLine (pys "Offset") (pyFloatRepr c.offset))] ++
  [wline (kvLine (pys "Resolution") (intRepr c.resolution))] ++
  (if c.difficulty ≥ 0 then [wline (kvLine (pys "Difficulty") (intRepr c.difficulty))] else []) ++
  (if c.preview_start > 0 then
    [wline (kvLine (pys "PreviewStart") (pyFloatRepr c.preview_start))] else []) ++
  (if c.preview_end > 0 then
    [wline (kvLine (pys "PreviewEnd") (pyFloatRepr c.preview_end))] else []) ++
  [['\x7d'], []]

/-- Stable sort by tick, modelling `sorted(xs, key=lambda x: x.tick)`. -/
def sortByTick {α : Type} (tickOf : α → ℤ) (l : List α) : List α :=
  List.insertionSort (fun a b => tickOf a ≤ tickOf b) l

/-- The `[SyncTrack]` section body: TS lines (the denominator is *not*
written — only the numerator, as in the source), then B lines. -/
def write_sync_body (c : Chart) : List PyStr :=
  [['\x7b']] ++
  (sortByTick TimeSignature.tick c.time_signatures).map
    (fun ts => wline (tickLine ts.tick (body2 (pys "TS") ts.numerator))) ++
  (sortByTick BPMChange.tick c.bpm_changes).map
    (fun b => wline (tickLine b.tick (body2 (pys "B") b.milli_bpm))) ++
  [['\x7d'], []]

/-- The `[Events]` section body: section markers then global events. -/
def write_events_body (c : Chart) : List PyStr :=
  [['\x7b']] ++
  (sortByTick SectionMarker.tick c.sections).map
    (fun s => wline (tickLine s.tick (pys "E \"section " ++ (s.name ++ ['"'])))) ++
  (sortByTick Event.tick c.events).map
    (fun e => wline (tickLine e.tick (pys "E \"" ++ (e.text ++ ['"'])))) ++
  [['\x7d'], []]

/-- The per-note line group emitted by `_write_tracks`: the note line, then
its `N 5` / `N 6` flag lines. -/
def noteGroup (n : Note) : List PyStr :=
  [wline (nLine n.tick n.fret n.sustain)] ++
  (if n.is_forced then [wline (nLine n.tick 5 0)] else []) ++
  (if n.is_tap then [wline (nLine n.tick 6 0)] else [])

/-- One instrument track's section body. -/
def write_track_body (t : Track) : List PyStr :=
  [['\x7b']] ++
  (List.insertionSort noteLEP t.notes).flatMap noteGroup ++
  (sortByTick StarPowerPhrase.tick t.star_power).map
    (fun sp => wline (tickLine sp.tick (body3 (pys "S") 2 sp.length))) ++
  (sortByTick Event.tick t.events).map
    (fun e => wline (tickLine e.tick (pys "E \"" ++ (e.text ++ ['"'])))) ++
  [['\x7d'], []]

/-- The instrument iteration order of `_write_tracks` (no COOP entry, as in
the source). -/
def instrumentDicts (c : Chart) : List (List (Difficulty × Track) × PyStr) :=
  [(c.guitar, pys "Single"), (c.bass, pys "DoubleBass"),
   (c.rhythm, pys "DoubleRhythm"), (c.keys, pys "Keyboard"),
   (c.drums, pys "Drums"), (c.ghl_guitar, pys "GHLGuitar"),
   (c.ghl_bass, pys "GHLBass")]

/-- The difficulty iteration order of `_write_tracks`. -/
def difficultiesOrder : List (Difficulty × PyStr) :=
  [(.EASY, pys "Easy"), (.MEDIUM, pys "Medium"), (.HARD, pys "Hard"),
   (.EXPERT, pys "Expert")]

/-- The bracketed sections of a written chart, in file order, as
(name, body-lines) chunks. -/
def writeChunks (c : Chart) : List (PyStr × List PyStr) :=
  [(pys "Song", write_song_body c), (pys "SyncTrack", write_sync_body c),
   (pys "Events", write_events_body c)] ++
  (instrumentDicts c).flatMap (fun p =>
    difficultiesOrder.filterMap (fun dp =>
      (pyLookup p.1 dp.1).map (fun tr => (dp.2 ++ p.2, write_track_body tr))))

/-- Materialize chunks into the writer's line list: each chunk is its
header line followed by its body lines. -/
def chunkLines : List (PyStr × List PyStr) → List PyStr
  | [] => []
  | (n, body) :: rest => hdrLine n :: (body ++ chunkLines rest)

/-- `ChartParser.write_file` from `src/chart_parser.py`, as the list of
lines it joins with a newline and writes to disk. -/
def write_file_lines (c : Chart) : List PyStr := chunkLines (writeChunks c)

/-! ## `ChartParser.parse_file` over the lines of a file -/

/-- The section dispatch loop of `parse_file`. -/
def parse_sections : List (PyStr × List PyStr) → Chart → Except String Chart
  | [], c => .ok c
  | (name, body) :: rest, c =>
    match
      (if name = pys "Song" then parse_song_lines c body
       else if name = pys "SyncTrack" then parse_sync_lines c body
       else if name = pys "Events" then parse_events_lines c body
       else parse_track_section c name body) with
    | .ok c2 => parse_sections rest c2
    | .error e => .error e

/-- `ChartParser.parse_file` from `src/chart_parser.py`, over the lines of
the file's content. -/
def parse_file_lines (content : List PyStr) : Except String Chart :=
  parse_sections (split_sections content) {}

/-! ## The file content as a single string: `'\n'.join` and `.split('\n')` -/

/-- Python `'\n'.join(lines)`: the single text string `write_file` writes
to the output file (no trailing newline). -/
def pyJoinNL : List PyStr → PyStr
  | [] => []
  | [l] => l
  | l :: l2 :: rest => l ++ '\n' :: pyJoinNL (l2 :: rest)

/-- Python `content.split('\n')` (`str.split` with an explicit separator:
empty pieces are kept, and the empty string splits to one empty piece). -/
def pySplitNL : PyStr → List PyStr
  | [] => [[]]
  | ch :: rest =>
    if ch = '\n' then [] :: pySplitNL rest
    else
      match pySplitNL rest with
      | [] => [[ch]]
      | l :: ls => (ch :: l) :: ls

/-- `ChartParser.write_file` from `src/chart_parser.py`: the full text
written to the output file — the writer's lines joined with a newline. -/
def write_file (c : Chart) : PyStr := pyJoinNL (write_file_lines c)

/-- `ChartParser.parse_file` from `src/chart_parser.py` on a file holding
`content`: `_split_sections` iterates over `content.split('\n')`. The
text-mode read in `parse_file` is universal-newline (a CR or CRLF in the
file becomes LF), which is the identity on any content free of CR — the
well-formedness conditions below keep CR out of every string the writer
embeds. -/
def parse_file (content : PyStr) : Except String Chart :=
  parse_file_lines (pySplitNL content)

lemma pySplitNL_no_nl (l : PyStr) (h : '\n' ∉ l) : pySplitNL l = [l] := by
  induction l with
  | nil => rfl
  | cons c rest ih =>
    have hc : c ≠ '\n' := fun he => h (by simp [he])
    have hrest : '\n' ∉ rest := fun hm => h (by simp [hm])
    simp only [pySplitNL]
    rw [if_neg hc, ih hrest]

lemma pySplitNL_nl_cons (l s : PyStr) (h : '\n' ∉ l) :
    pySplitNL (l ++ '\n' :: s) = l :: pySplitNL s := by
  induction l with
  | nil =>
    rw [List.nil_append]
    simp [pySplitNL]
  | cons c rest ih =>
    have hc : c ≠ '\n' := fun he => h (by simp [he])
    have hrest : '\n' ∉ rest := fun hm => h (by simp [hm])
    rw [List.cons_append]
    simp only [pySplitNL]
    rw [if_neg hc, ih hrest]

/-- Splitting the joined lines on the newline recovers the lines, as long
as the list is nonempty (joining no lines gives the empty string, which
splits back to one empty line) and no line itself contains a newline. -/
lemma pySplitNL_pyJoinNL :
    ∀ (ls : List PyStr), ls ≠ [] → (∀ l ∈ ls, '\n' ∉ l) →
      pySplitNL (pyJoinNL ls) = ls := by
  intro ls
  induction ls with
  | nil => intro h _; exact absurd rfl h
  | cons l rest ih =>
    intro _ h
    cases rest with
    | nil =>
      rw [show pyJoinNL [l] = l from rfl]
      exact pySplitNL_no_nl l (h l (by simp))
    | cons l2 rest2 =>
      rw [show pyJoinNL (l :: l2 :: rest2) =
        l ++ '\n' :: pyJoinNL (l2 :: rest2) from rfl]
      rw [pySplitNL_nl_cons _ _ (h l (by simp))]
      rw [ih (by simp) (fun x hx => h x (by simp [hx]))]

/-! ## Well-formedness for the round trip -/

/-- A metadata string value that survives the writer's unescaped quoting:
no leading or trailing quote character. -/
def cleanStr (v : PyStr) : Prop :=
  v.head? ≠ some '"' ∧ v.getLast? ≠ some '"'

/-- A string the writer embeds verbatim in an output line must contain no
LF or CR: `write_file` joins its lines with `'\n'`, and `parse_file` reads
the file in universal-newline mode and splits on `'\n'`, so an embedded
newline is cut into separate lines on re-parse. -/
def noNewline (v : PyStr) : Prop := '\n' ∉ v ∧ '\r' ∉ v

/-- Track well-formedness for the round trip: notes sorted with distinct
(tick, fret) keys, no notes at the reserved flag frets 5/6, the open flag
agreeing with fret 7, forced/tap flags uniform within each tick (a flag
line marks the whole chord at its tick), and local event texts free of
newlines. -/
def WFTrack (t : Track) : Prop :=
  t.notes.Pairwise (fun a b => a.tick < b.tick ∨ (a.tick = b.tick ∧ a.fret < b.fret)) ∧
  (∀ n ∈ t.notes,
    n.fret ≠ 5 ∧ n.fret ≠ 6 ∧ n.is_open = decide (n.fret = 7) ∧ n.velocity = 100) ∧
  (∀ n ∈ t.notes, ∀ m ∈ t.notes,
    n.tick = m.tick → n.is_forced = m.is_forced ∧ n.is_tap = m.is_tap) ∧
  (∀ e ∈ t.events, noNewline e.text)

/-- Chart well-formedness for the round trip. -/
def WFChart (c : Chart) : Prop :=
  cleanStr c.name ∧ cleanStr c.artist ∧ cleanStr c.album ∧ cleanStr c.genre ∧
  cleanStr c.year ∧ cleanStr c.charter ∧ c.genre ≠ [] ∧
  WFfloat c.offset ∧ WFfloat c.preview_start ∧ WFfloat c.preview_end ∧
  -1 ≤ c.difficulty ∧ 0 ≤ c.preview_start ∧ 0 ≤ c.preview_end ∧
  c.time_signatures.Pairwise (fun a b => a.tick ≤ b.tick) ∧
  c.bpm_changes.Pairwise (fun a b => a.tick ≤ b.tick) ∧
  (∀ b ∈ c.bpm_changes, (b.bpm * 1000).den = 1) ∧
  (∀ p ∈ instrumentDicts c, ∀ e ∈ p.1, WFTrack e.2) ∧
  noNewline c.name ∧ noNewline c.artist ∧ noNewline c.album ∧
  noNewline c.genre ∧ noNewline c.year ∧ noNewline c.charter ∧
  (∀ s ∈ c.sections, noNewline s.name) ∧
  (∀ e ∈ c.events, noNewline e.text)

/-! ## Splitting the writer's output back into chunks -/

lemma split_chunk_run :
    ∀ (cs : List (PyStr × List PyStr))
      (s : Option PyStr × List PyStr × List (PyStr × List PyStr)),
      (∀ p ∈ cs, ∀ l ∈ p.2, isHeader (pstrip l) = false) →
      (∀ p ∈ cs, p.1 ≠ []) →
      splitFlush ((chunkLines cs).foldl splitStep s) =
        cs.foldl (fun d p => dictSet d p.1 (contentFilter p.2)) (splitFlush s) := by
  intro cs
  induction cs with
  | nil => intro s _ _; rfl
  | cons p rest ih =>
    intro s h hne
    obtain ⟨n, body⟩ := p
    have hbody : ∀ l ∈ body, isHeader (pstrip l) = false := by
      intro l hl
      exact h (n, body) (by simp) l hl
    have hrest : ∀ p ∈ rest, ∀ l ∈ p.2, isHeader (pstrip l) = false := by
      intro p hp l hl
      exact h p (by simp [hp]) l hl
    have hn : n ≠ [] := hne (n, body) (by simp)
    have hnrest : ∀ p ∈ rest, p.1 ≠ [] := by
      intro p hp
      exact hne p (by simp [hp])
    show splitFlush (List.foldl splitStep s (hdrLine n :: (body ++ chunkLines rest))) = _
    rw [List.foldl_cons, splitStep_header, List.foldl_append,
      splitStep_nonheader_run body _ _ _ hbody]
    rw [ih _ hrest hnrest]
    simp only [List.foldl_cons]
    have hflush : splitFlush
        ((some n : Option PyStr), [] ++ contentFilter body, splitFlush s) =
        dictSet (splitFlush s) n (contentFilter body) := by
      show (if n = [] then splitFlush s
        else dictSet (splitFlush s) n ([] ++ contentFilter body)) = _
      rw [if_neg hn]
      rfl
    rw [hflush]

lemma split_sections_chunkLines (cs : List (PyStr × List PyStr))
    (h : ∀ p ∈ cs, ∀ l ∈ p.2, isHeader (pstrip l) = false)
    (hne : ∀ p ∈ cs, p.1 ≠ []) :
    split_sections (chunkLines cs) =
      cs.foldl (fun d p => dictSet d p.1 (contentFilter p.2)) [] := by
  unfold split_sections
  rw [split_chunk_run cs (none, [], []) h hne]
  rfl

lemma dictSet_fresh {α β : Type} [DecidableEq α] (d : List (α × β)) (k : α)
    (v : β) (h : k ∉ d.map Prod.fst) : dictSet d k v = d ++ [(k, v)] := by
  induction d with
  | nil => rfl
  | cons kv rest ih =>
    obtain ⟨k0, v0⟩ := kv
    have h1 : k ≠ k0 := by
      intro he
      exact h (by simp [he])
    have h2 : k ∉ rest.map Prod.fst := by
      intro hm
      exact h (by simp [hm])
    rw [show dictSet ((k0, v0) :: rest) k v =
      (if k = k0 then (k, v) :: rest else (k0, v0) :: dictSet rest k v) from rfl]
    rw [if_neg h1, ih h2]
    simp

lemma foldl_dictSet_map :
    ∀ (cs : List (PyStr × List PyStr)) (acc : List (PyStr × List PyStr)),
      ((acc.map Prod.fst) ++ cs.map Prod.fst).Nodup →
      cs.foldl (fun d p => dictSet d p.1 (contentFilter p.2)) acc =
        acc ++ cs.map (fun p => (p.1, contentFilter p.2)) := by
  intro cs
  induction cs with
  | nil => intro acc _; simp
  | cons p rest ih =>
    intro acc h
    obtain ⟨n, body⟩ := p
    simp only [List.map_cons, List.foldl_cons]
    rw [List.nodup_append] at h
    have hfresh : n ∉ acc.map Prod.fst := by
      intro hmem
      exact h.2.2 hmem (by simp)
    rw [dictSet_fresh _ _ _ hfresh]
    have h2 : (((acc ++ [(n, contentFilter body)]).map Prod.fst) ++
        rest.map Prod.fst).Nodup := by
      rw [List.nodup_append]
      refine ⟨?_, ?_, ?_⟩
      · simp only [List.map_append, List.map_cons, List.map_nil]
        rw [List.nodup_append]
        refine ⟨h.1, by simp, ?_⟩
        intro a ha hb
        simp at hb
        subst hb
        exact hfresh ha
      · exact (h.2.1).of_cons
      · intro a ha hb
        rw [List.map_append, List.mem_append] at ha
        rcases ha with ha | ha
        · exact h.2.2 ha (by simp [hb])
        · simp at ha
          subst ha
          exact (List.nodup_cons.mp h.2.1).1 hb
    rw [ih _ h2]
    simp

/-! ## Line-shape toolkit for the writer's output -/

lemma pstrip_wline (l : PyStr) : pstrip (wline l) = pstrip l := by
  unfold wline
  rw [pstrip_cons_space, pstrip_cons_space]

lemma isHeader_false_of_head (l : PyStr) (c : Char) (hc : l.head? = some c)
    (hne : c ≠ '[') : isHeader l = false := by
  unfold isHeader
  rw [hc]
  rcases l with _ | ⟨a, t⟩
  · simp at hc
  · split
    · rename_i heq
      exact absurd (Option.some.inj heq) hne
    · simp

lemma pyStripChars_eq_self (cs : List Char) (l : PyStr)
    (hh : ∀ c, l.head? = some c → c ∉ cs)
    (hl : ∀ c, l.getLast? = some c → c ∉ cs) : pyStripChars cs l = l := by
  unfold pyStripChars
  rw [dropWhile_eq_self_of_head _ l (by
    intro c hc
    simpa using hh c hc)]
  rw [dropWhile_eq_self_of_head _ l.reverse (by
    intro c hc
    rw [List.head?_reverse] at hc
    simpa using hl c hc)]
  rw [List.reverse_reverse]

lemma stripQuotes_quoted (v : PyStr) (hv : cleanStr v) :
    pyStripChars ['"'] (quoted v) = v := by
  obtain ⟨h1, h2⟩ := hv
  rcases v with _ | ⟨a, t⟩
  · rfl
  · have ha : a ≠ '"' := by
      intro h
      exact h1 (by simp [h])
    show pyStripChars ['"'] ('"' :: ((a :: t) ++ ['"'])) = a :: t
    unfold pyStripChars
    rw [List.dropWhile_cons_of_pos (by decide),
      List.cons_append, List.dropWhile_cons_of_neg (by simp [ha])]
    have hrev : (a :: (t ++ ['"'])).reverse = '"' :: (t.reverse ++ [a]) := by
      simp
    rw [hrev, List.dropWhile_cons_of_pos (by decide)]
    rw [dropWhile_eq_self_of_head _ (t.reverse ++ [a]) (by
      intro c hc
      rcases ht : t.reverse with _ | ⟨x, xs⟩
      · have htn : t = [] := by simpa using congrArg List.reverse ht
        subst htn
        simp at hc
        rw [← hc]
        simp [ha]
      · rw [ht] at hc
        have hcx : c = x := by simpa using hc.symm
        have htn : t ≠ [] := by
          intro h
          rw [h] at ht
          simp at ht
        have hxt : t.getLast? = some x := by
          rw [← List.head?_reverse, ht]
          rfl
        have hx : x ≠ '"' := by
          intro h
          apply h2
          rw [getLast?_cons_append a t htn, hxt, h]
        simp [hcx, hx])]
    simp

lemma pyFloatRepr_chars (q : ℚ) :
    ∀ c ∈ pyFloatRepr q, isDigit c = true ∨ c = '-' ∨ c = '.' := by
  intro c hc
  unfold pyFloatRepr at hc
  rw [List.mem_append] at hc
  rcases hc with h | h
  · by_cases hq : q < 0
    · rw [if_pos hq] at h
      simp at h
      right; left; exact h
    · rw [if_neg hq] at h
      simp at h
  · obtain ⟨ip, fp, heq, hipne, hfplen, hipd, hfpd, hval⟩ :=
      decBody_parts ((q * (10 : ℚ) ^ (max 1 (decExp q.den))).num).natAbs
        (max 1 (decExp q.den))
    rw [heq] at h
    rcases List.mem_append.mp h with h | h
    · left; exact hipd c h
    · rcases List.mem_cons.mp h with h | h
      · right; right; exact h
      · left; exact hfpd c h

lemma pyFloatRepr_ne_nil (q : ℚ) : pyFloatRepr q ≠ [] := by
  show (if q < 0 then ['-'] else []) ++
      decBody ((q * (10 : ℚ) ^ (max 1 (decExp q.den))).num).natAbs
        (max 1 (decExp q.den)) ≠ []
  obtain ⟨ip, fp, heq, hipne, _, _, _, _⟩ :=
    decBody_parts ((q * (10 : ℚ) ^ (max 1 (decExp q.den))).num).natAbs
      (max 1 (decExp q.den))
  rw [heq]
  intro h
  rcases List.append_eq_nil.mp h with ⟨_, h2⟩
  rcases List.append_eq_nil.mp h2 with ⟨h3, _⟩
  exact hipne h3

lemma pyFloatRepr_no_ws (q : ℚ) : ∀ c ∈ pyFloatRepr q, isWS c = false := by
  intro c hc
  rcases pyFloatRepr_chars q c hc with h | h | h
  · exact digit_or_sign_not_ws (Or.inl h)
  · exact digit_or_sign_not_ws (Or.inr h)
  · subst h; decide

lemma digit_ne_quote {c : Char} (h : isDigit c = true) : c ≠ '"' := by
  intro h1
  subst h1
  exact absurd h (by decide)

lemma pyFloatRepr_no_quote (q : ℚ) : ∀ c ∈ pyFloatRepr q, c ≠ '"' := by
  intro c hc
  rcases pyFloatRepr_chars q c hc with h | h | h
  · exact digit_ne_quote h
  · subst h; decide
  · subst h; decide

lemma intRepr_no_quote (i : ℤ) : ∀ c ∈ intRepr i, c ≠ '"' := by
  intro c hc
  rcases intRepr_chars i c hc with h | h
  · exact digit_ne_quote h
  · subst h; decide

/-! ## Association-list facts for the note buffer and track dicts -/

lemma pyLookup_none_iff {α β : Type} [DecidableEq α] (d : List (α × β)) (k : α) :
    pyLookup d k = none ↔ k ∉ d.map Prod.fst := by
  induction d with
  | nil => simp [pyLookup]
  | cons kv rest ih =>
    obtain ⟨k0, v0⟩ := kv
    by_cases h : k = k0 <;> simp [pyLookup, h, ih]

lemma pyLookup_mem {α β : Type} [DecidableEq α] {d : List (α × β)} {k : α}
    {v : β} (h : pyLookup d k = some v) : (k, v) ∈ d := by
  induction d with
  | nil => simp [pyLookup] at h
  | cons kv rest ih =>
    obtain ⟨k0, v0⟩ := kv
    by_cases hk : k = k0
    · simp [pyLookup, hk] at h
      simp [hk, h]
    · simp [pyLookup, hk] at h
      simp [ih h]

lemma pyLookup_eq_some_split {α β : Type} [DecidableEq α] {d : List (α × β)}
    {k : α} {v : β} (h : pyLookup d k = some v) :
    ∃ d1 d2, d = d1 ++ (k, v) :: d2 ∧ k ∉ d1.map Prod.fst := by
  induction d with
  | nil => simp [pyLookup] at h
  | cons kv rest ih =>
    obtain ⟨k0, v0⟩ := kv
    by_cases hk : k = k0
    · simp [pyLookup, hk] at h
      exact ⟨[], rest, by simp [hk, h], by simp⟩
    · simp [pyLookup, hk] at h
      obtain ⟨d1, d2, heq, hni⟩ := ih h
      exact ⟨(k0, v0) :: d1, d2, by simp [heq], by simp [Ne.symm, hk, hni]⟩

lemma dictSet_append_mid {α β : Type} [DecidableEq α] (d1 d2 : List (α × β))
    (k : α) (v w : β) (h : k ∉ d1.map Prod.fst) :
    dictSet (d1 ++ (k, v) :: d2) k w = d1 ++ (k, w) :: d2 := by
  induction d1 with
  | nil =>
    show (if k = k then (k, w) :: d2 else (k, v) :: dictSet d2 k w) = (k, w) :: d2
    simp
  | cons kv rest ih =>
    obtain ⟨k0, v0⟩ := kv
    have hk : k ≠ k0 := by
      intro he
      exact h (by simp [he])
    show (if k = k0 then _ else (k0, v0) :: dictSet (rest ++ (k, v) :: d2) k w) = _
    rw [if_neg hk, ih (by
      intro hm
      exact h (by simp [hm]))]
    simp

lemma dictSet_keys {α β : Type} [DecidableEq α] (d : List (α × β)) (k : α)
    (v : β) : (dictSet d k v).map Prod.fst = d.map Prod.fst ∨
      (dictSet d k v).map Prod.fst = d.map Prod.fst ++ [k] := by
  induction d with
  | nil => right; rfl
  | cons kv rest ih =>
    obtain ⟨k0, v0⟩ := kv
    by_cases h : k = k0
    · left
      show ((if k = k0 then (k, v) :: rest else _).map Prod.fst) = _
      rw [if_pos h]
      simp [h]
    · show ((if k = k0 then _ else (k0, v0) :: dictSet rest k v).map Prod.fst) = _ ∨
        ((if k = k0 then _ else (k0, v0) :: dictSet rest k v).map Prod.fst) = _
      rw [if_neg h]
      rcases ih with ih | ih
      · left; simp [ih]
      · right; simp [ih]

lemma pyLookup_dictSet_ne {α β : Type} [DecidableEq α] (d : List (α × β))
    (k k' : α) (v : β) (hne : k' ≠ k) :
    pyLookup (dictSet d k v) k' = pyLookup d k' := by
  induction d with
  | nil => simp [dictSet, pyLookup, hne]
  | cons kv rest ih =>
    obtain ⟨k0, v0⟩ := kv
    by_cases h : k = k0
    · show pyLookup (if k = k0 then (k, v) :: rest else _) k' = _
      rw [if_pos h]
      subst h
      simp [pyLookup, hne]
    · show pyLookup (if k = k0 then _ else (k0, v0) :: dictSet rest k v) k' = _
      rw [if_neg h]
      by_cases h' : k' = k0 <;> simp [pyLookup, h', ih]

lemma mem_dictSet {α β : Type} [DecidableEq α] {d : List (α × β)}
    {k : α} {v : β} {e : α × β} (h : e ∈ dictSet d k v) :
    e ∈ d ∨ e = (k, v) := by
  induction d with
  | nil =>
    simp [dictSet] at h
    right; exact h
  | cons kv rest ih =>
    obtain ⟨k0, v0⟩ := kv
    by_cases hk : k = k0
    · rw [show dictSet ((k0, v0) :: rest) k v =
        (if k = k0 then (k, v) :: rest else _) from rfl, if_pos hk] at h
      rcases List.mem_cons.mp h with h | h
      · right; exact h
      · left; simp [h]
    · rw [show dictSet ((k0, v0) :: rest) k v =
        (if k = k0 then _ else (k0, v0) :: dictSet rest k v) from rfl,
        if_neg hk] at h
      rcases List.mem_cons.mp h with h | h
      · left; simp [h]
      · rcases ih h with h | h
        · left; simp [h]
        · right; exact h

lemma dictSet_map_value {α β : Type} [DecidableEq α] (d : List (α × β))
    (k : α) (v : β) (g : β → β) :
    (dictSet d k v).map (fun p => (p.1, g p.2)) =
      dictSet (d.map (fun p => (p.1, g p.2))) k (g v) := by
  induction d with
  | nil => rfl
  | cons kv rest ih =>
    obtain ⟨k0, v0⟩ := kv
    by_cases h : k = k0 <;> simp [dictSet, h, ih]

/-! ## `contentFilter` over the writer's body lines -/

lemma contentFilter_append (a b : List PyStr) :
    contentFilter (a ++ b) = contentFilter a ++ contentFilter b := by
  unfold contentFilter
  rw [List.map_append, List.filter_append]

lemma contentFilter_nil : contentFilter [] = [] := rfl

lemma contentFilter_braces :
    contentFilter [['\x7b']] = [] ∧ contentFilter [['\x7d']] = [] ∧
      contentFilter [([] : PyStr)] = [] := by decide

lemma contentFilter_close : contentFilter [['\x7d'], []] = [] := by decide

lemma contentFilter_wline_kv (k v : PyStr) (hps : pstrip (kvLine k v) = kvLine k v) :
    contentFilter [wline (kvLine k v)] = [kvLine k v] := by
  unfold contentFilter
  rw [List.map_cons, List.map_nil, pstrip_wline, hps]
  have hmem : '=' ∈ kvLine k v := eq_mem_kvLine k v
  have h1 : kvLine k v ≠ [] := by
    intro h
    rw [h] at hmem
    simp at hmem
  have h2 : kvLine k v ≠ ['\x7b'] := by
    intro h
    rw [h] at hmem
    simp at hmem
  have h3 : kvLine k v ≠ ['\x7d'] := by
    intro h
    rw [h] at hmem
    simp at hmem
  simp [h1, h2, h3]

lemma contentFilter_wline_map {α : Type} (f : α → PyStr) (l : List α)
    (hf : ∀ x ∈ l, pstrip (f x) = f x ∧ f x ≠ [] ∧ f x ≠ ['\x7b'] ∧ f x ≠ ['\x7d']) :
    contentFilter (l.map (fun x => wline (f x))) = l.map f := by
  induction l with
  | nil => rfl
  | cons x rest ih =>
    obtain ⟨h1, h2, h3, h4⟩ := hf x (by simp)
    rw [List.map_cons, show contentFilter (wline (f x) :: List.map (fun x => wline (f x)) rest) =
      contentFilter [wline (f x)] ++ contentFilter (rest.map (fun x => wline (f x))) from
      contentFilter_append [wline (f x)] _]
    rw [ih (fun y hy => hf y (by simp [hy]))]
    unfold contentFilter
    rw [List.map_cons, List.map_nil, pstrip_wline, h1]
    simp [h2, h3, h4]

/-! ## Sequential-composition lemmas for the section parsers -/

lemma parse_song_lines_append (c0 : Chart) (l1 l2 : List PyStr) :
    parse_song_lines c0 (l1 ++ l2) =
      match parse_song_lines c0 l1 with
      | .ok c1 => parse_song_lines c1 l2
      | .error e => .error e := by
  induction l1 generalizing c0 with
  | nil => simp [parse_song_lines]
  | cons line rest ih =>
    rw [List.cons_append]
    simp only [parse_song_lines]
    by_cases h : '=' ∈ pstrip line
    · rw [if_pos h, if_pos h]
      cases songKV c0 (pstrip (splitEq1 (pstrip line)).1)
          (pyStripChars ['"'] (pstrip (splitEq1 (pstrip line)).2)) with
      | ok c2 => exact ih c2
      | error e => rfl
    · rw [if_neg h, if_neg h]
      exact ih c0

lemma parse_sections_append (c0 : Chart) (l1 l2 : List (PyStr × List PyStr)) :
    parse_sections (l1 ++ l2) c0 =
      match parse_sections l1 c0 with
      | .ok c1 => parse_sections l2 c1
      | .error e => .error e := by
  induction l1 generalizing c0 with
  | nil => simp [parse_sections]
  | cons p rest ih =>
    obtain ⟨name, body⟩ := p
    rw [List.cons_append]
    simp only [parse_sections]
    cases (if name = pys "Song" then parse_song_lines c0 body
       else if name = pys "SyncTrack" then parse_sync_lines c0 body
       else if name = pys "Events" then parse_events_lines c0 body
       else parse_track_section c0 name body) with
    | ok c2 => exact ih c2
    | error e => rfl

lemma parse_track_lines_append (st : NoteBuf × Track) (l1 l2 : List PyStr) :
    parse_track_lines (l1 ++ l2) st =
      match parse_track_lines l1 st with
      | .ok st2 => parse_track_lines l2 st2
      | .error e => .error e := by
  induction l1 generalizing st with
  | nil => simp [parse_track_lines]
  | cons line rest ih =>
    rw [List.cons_append]
    simp only [parse_track_lines]
    cases parse_track_line1 st line with
    | ok st2 => exact ih st2
    | error e => rfl

/-! ## The `[Song]` section round trip -/

lemma parse_song_cons (c0 : Chart) (k v : PyStr) (rest : List PyStr)
    (hkne : k ≠ []) (hkws : ∀ ch ∈ k, isWS ch = false)
    (hkeq : ∀ ch ∈ k, ch ≠ '=') (hvne : v ≠ [])
    (hvh : ∀ ch, v.head? = some ch → isWS ch = false)
    (hvl : ∀ ch, v.getLast? = some ch → isWS ch = false) :
    parse_song_lines c0 (kvLine k v :: rest) =
      match songKV c0 k (pyStripChars ['"'] v) with
      | .ok c2 => parse_song_lines c2 rest
      | .error e => .error e := by
  have hps : pstrip (kvLine k v) = kvLine k v :=
    pstrip_kvLine k v hkne (fun c hc => hkws c (List.mem_of_mem_head? hc)) hvne hvl
  simp only [parse_song_lines]
  rw [hps, if_pos (eq_mem_kvLine k v), splitEq1_kvLine k v hkeq]
  rw [show (k ++ [' '], ' ' :: v).1 = k ++ [' '] from rfl,
    show (k ++ [' '], ' ' :: v).2 = ' ' :: v from rfl]
  rw [pstrip_token_space k hkws hkne, pstrip_val v hvh hvl]

lemma quoted_ne_nil (v : PyStr) : quoted v ≠ [] := by
  unfold quoted
  simp

lemma quoted_head? (v : PyStr) : (quoted v).head? = some '"' := rfl

lemma quoted_getLast? (v : PyStr) : (quoted v).getLast? = some '"' := by
  unfold quoted
  rw [← List.cons_append, List.getLast?_concat]

lemma pstrip_kv_quoted (k v : PyStr) (hkne : k ≠ [])
    (hkws : ∀ ch ∈ k, isWS ch = false) :
    pstrip (kvLine k (quoted v)) = kvLine k (quoted v) := by
  apply pstrip_kvLine k _ hkne (fun c hc => hkws c (List.mem_of_mem_head? hc))
    (quoted_ne_nil v)
  intro c hc
  rw [quoted_getLast? v] at hc
  rw [← Option.some.inj hc]
  decide

lemma song_quoted_line (c0 : Chart) (k val : PyStr) (rest : List PyStr)
    (hkne : k ≠ []) (hkws : ∀ ch ∈ k, isWS ch = false)
    (hkeq : ∀ ch ∈ k, ch ≠ '=') (hval : cleanStr val) :
    parse_song_lines c0 (kvLine k (quoted val) :: rest) =
      match songKV c0 k val with
      | .ok c2 => parse_song_lines c2 rest
      | .error e => .error e := by
  rw [parse_song_cons c0 k (quoted val) rest hkne hkws hkeq (quoted_ne_nil val)
    (by
      intro ch hc
      rw [quoted_head? val] at hc
      rw [← Option.some.inj hc]
      decide)
    (by
      intro ch hc
      rw [quoted_getLast? val] at hc
      rw [← Option.some.inj hc]
      decide)]
  rw [stripQuotes_quoted val hval]

lemma pstrip_kv_float (k : PyStr) (q : ℚ) (hkne : k ≠ [])
    (hkws : ∀ ch ∈ k, isWS ch = false) :
    pstrip (kvLine k (pyFloatRepr q)) = kvLine k (pyFloatRepr q) :=
  pstrip_kvLine k _ hkne (fun c hc => hkws c (List.mem_of_mem_head? hc))
    (pyFloatRepr_ne_nil q)
    (fun c hc => pyFloatRepr_no_ws q c (List.mem_of_mem_getLast? hc))

lemma pstrip_kv_int (k : PyStr) (n : ℤ) (hkne : k ≠ [])
    (hkws : ∀ ch ∈ k, isWS ch = false) :
    pstrip (kvLine k (intRepr n)) = kvLine k (intRepr n) :=
  pstrip_kvLine k _ hkne (fun c hc => hkws c (List.mem_of_mem_head? hc))
    (intRepr_ne_nil n) (intRepr_last_not_ws n)

lemma song_float_line (c0 : Chart) (k : PyStr) (q : ℚ) (rest : List PyStr)
    (hkne : k ≠ []) (hkws : ∀ ch ∈ k, isWS ch = false)
    (hkeq : ∀ ch ∈ k, ch ≠ '=') :
    parse_song_lines c0 (kvLine k (pyFloatRepr q) :: rest) =
      match songKV c0 k (pyFloatRepr q) with
      | .ok c2 => parse_song_lines c2 rest
      | .error e => .error e := by
  rw [parse_song_cons c0 k _ rest hkne hkws hkeq (pyFloatRepr_ne_nil q)
    (fun ch hc => pyFloatRepr_no_ws q ch (List.mem_of_mem_head? hc))
    (fun ch hc => pyFloatRepr_no_ws q ch (List.mem_of_mem_getLast? hc))]
  rw [pyStripChars_eq_self ['"'] _
    (fun ch hc => by simpa using pyFloatRepr_no_quote q ch (List.mem_of_mem_head? hc))
    (fun ch hc => by simpa using pyFloatRepr_no_quote q ch (List.mem_of_mem_getLast? hc))]

lemma song_int_line (c0 : Chart) (k : PyStr) (n : ℤ) (rest : List PyStr)
    (hkne : k ≠ []) (hkws : ∀ ch ∈ k, isWS ch = false)
    (hkeq : ∀ ch ∈ k, ch ≠ '=') :
    parse_song_lines c0 (kvLine k (intRepr n) :: rest) =
      match songKV c0 k (intRepr n) with
      | .ok c2 => parse_song_lines c2 rest
      | .error e => .error e := by
  rw [parse_song_cons c0 k _ rest hkne hkws hkeq (intRepr_ne_nil n)
    (intRepr_head_not_ws n) (intRepr_last_not_ws n)]
  rw [pyStripChars_eq_self ['"'] _
    (fun ch hc => by simpa using intRepr_no_quote n ch (List.mem_of_mem_head? hc))
    (fun ch hc => by simpa using intRepr_no_quote n ch (List.mem_of_mem_getLast? hc))]

lemma contentFilter_write_song_body (c : Chart) :
    contentFilter (write_song_body c) =
      [kvLine (pys "Name") (quoted c.name)] ++
      [kvLine (pys "Artist") (quoted c.artist)] ++
      (if c.album ≠ [] then [kvLine (pys "Album") (quoted c.album)] else []) ++
      (if c.genre ≠ [] then [kvLine (pys "Genre") (quoted c.genre)] else []) ++
      (if c.year ≠ [] then [kvLine (pys "Year") (quoted c.year)] else []) ++
      (if c.charter ≠ [] then [kvLine (pys "Charter") (quoted c.charter)] else []) ++
      [kvLine (pys "Offset") (pyFloatRepr c.offset)] ++
      [kvLine (pys "Resolution") (intRepr c.resolution)] ++
      (if c.difficulty ≥ 0 then [kvLine (pys "Difficulty") (intRepr c.difficulty)] else []) ++
      (if c.preview_start > 0 then
        [kvLine (pys "PreviewStart") (pyFloatRepr c.preview_start)] else []) ++
      (if c.preview_end > 0 then
        [kvLine (pys "PreviewEnd") (pyFloatRepr c.preview_end)] else []) := by
  unfold write_song_body
  simp only [contentFilter_append, apply_ite contentFilter, contentFilter_nil,
    contentFilter_braces.1, contentFilter_close,
    contentFilter_wline_kv (pys "Name") (quoted c.name)
      (pstrip_kv_quoted _ _ (by decide) (by decide)),
    contentFilter_wline_kv (pys "Artist") (quoted c.artist)
      (pstrip_kv_quoted _ _ (by decide) (by decide)),
    contentFilter_wline_kv (pys "Album") (quoted c.album)
      (pstrip_kv_quoted _ _ (by decide) (by decide)),
    contentFilter_wline_kv (pys "Genre") (quoted c.genre)
      (pstrip_kv_quoted _ _ (by decide) (by decide)),
    contentFilter_wline_kv (pys "Year") (quoted c.year)
      (pstrip_kv_quoted _ _ (by decide) (by decide)),
    contentFilter_wline_kv (pys "Charter") (quoted c.charter)
      (pstrip_kv_quoted _ _ (by decide) (by decide)),
    contentFilter_wline_kv (pys "Offset") (pyFloatRepr c.offset)
      (pstrip_kv_float _ _ (by decide) (by decide)),
    contentFilter_wline_kv (pys "Resolution") (intRepr c.resolution)
      (pstrip_kv_int _ _ (by decide) (by decide)),
    contentFilter_wline_kv (pys "Difficulty") (intRepr c.difficulty)
      (pstrip_kv_int _ _ (by decide) (by decide)),
    contentFilter_wline_kv (pys "PreviewStart") (pyFloatRepr c.preview_start)
      (pstrip_kv_float _ _ (by decide) (by decide)),
    contentFilter_wline_kv (pys "PreviewEnd") (pyFloatRepr c.preview_end)
      (pstrip_kv_float _ _ (by decide) (by decide))]
  simp

lemma songKV_Name (c0 : Chart) (v : PyStr) :
    songKV c0 (pys "Name") v = .ok { c0 with name := v } := by
  unfold songKV
  rw [if_pos rfl]

lemma songKV_Artist (c0 : Chart) (v : PyStr) :
    songKV c0 (pys "Artist") v = .ok { c0 with artist := v } := by
  unfold songKV
  rw [if_neg (by decide), if_pos rfl]

lemma songKV_Album (c0 : Chart) (v : PyStr) :
    songKV c0 (pys "Album") v = .ok { c0 with album := v } := by
  unfold songKV
  rw [if_neg (by decide), if_neg (by decide), if_pos rfl]

lemma songKV_Genre (c0 : Chart) (v : PyStr) :
    songKV c0 (pys "Genre") v = .ok { c0 with genre := v } := by
  unfold songKV
  rw [if_neg (by decide), if_neg (by decide), if_neg (by decide), if_pos rfl]

lemma songKV_Year (c0 : Chart) (v : PyStr) :
    songKV c0 (pys "Year") v = .ok { c0 with year := v } := by
  unfold songKV
  rw [if_neg (by decide), if_neg (by decide), if_neg (by decide),
    if_neg (by decide), if_pos rfl]

lemma songKV_Charter (c0 : Chart) (v : PyStr) :
    songKV c0 (pys "Charter") v = .ok { c0 with charter := v } := by
  unfold songKV
  rw [if_neg (by decide), if_neg (by decide), if_neg (by decide),
    if_neg (by decide), if_neg (by decide), if_pos rfl]

lemma songKV_Offset (c0 : Chart) (q : ℚ) (h : WFfloat q) :
    songKV c0 (pys "Offset") (pyFloatRepr q) = .ok { c0 with offset := q } := by
  unfold songKV
  rw [if_neg (by decide), if_neg (by decide), if_neg (by decide),
    if_neg (by decide), if_neg (by decide), if_neg (by decide), if_pos rfl,
    pyParseFloat_pyFloatRepr q h]

lemma songKV_Resolution (c0 : Chart) (n : ℤ) :
    songKV c0 (pys "Resolution") (intRepr n) = .ok { c0 with resolution := n } := by
  unfold songKV
  rw [if_neg (by decide), if_neg (by decide), if_neg (by decide),
    if_neg (by decide), if_neg (by decide), if_neg (by decide),
    if_neg (by decide), if_pos rfl, pyParseInt_intRepr n]

lemma songKV_Difficulty (c0 : Chart) (n : ℤ) :
    songKV c0 (pys "Difficulty") (intRepr n) = .ok { c0 with difficulty := n } := by
  unfold songKV
  rw [if_neg (by decide), if_neg (by decide), if_neg (by decide),
    if_neg (by decide), if_neg (by decide), if_neg (by decide),
    if_neg (by decide), if_neg (by decide), if_pos rfl, pyParseInt_intRepr n]

lemma songKV_PreviewStart (c0 : Chart) (q : ℚ) (h : WFfloat q) :
    songKV c0 (pys "PreviewStart") (pyFloatRepr q) =
      .ok { c0 with preview_start := q } := by
  unfold songKV
  rw [if_neg (by decide), if_neg (by decide), if_neg (by decide),
    if_neg (by decide), if_neg (by decide), if_neg (by decide),
    if_neg (by decide), if_neg (by decide), if_neg (by decide), if_pos rfl,
    pyParseFloat_pyFloatRepr q h]

lemma songKV_PreviewEnd (c0 : Chart) (q : ℚ) (h : WFfloat q) :
    songKV c0 (pys "PreviewEnd") (pyFloatRepr q) =
      .ok { c0 with preview_end := q } := by
  unfold songKV
  rw [if_neg (by decide), if_neg (by decide), if_neg (by decide),
    if_neg (by decide), if_neg (by decide), if_neg (by decide),
    if_neg (by decide), if_neg (by decide), if_neg (by decide),
    if_neg (by decide), if_pos rfl, pyParseFloat_pyFloatRepr q h]

lemma song_quoted_step (c0 c1 : Chart) (k val : PyStr) (rest : List PyStr)
    (hkne : k ≠ []) (hkws : ∀ ch ∈ k, isWS ch = false)
    (hkeq : ∀ ch ∈ k, ch ≠ '=') (hval : cleanStr val)
    (hkv : songKV c0 k val = .ok c1) :
    parse_song_lines c0 (kvLine k (quoted val) :: rest) =
      parse_song_lines c1 rest := by
  rw [song_quoted_line c0 k val rest hkne hkws hkeq hval, hkv]

lemma song_float_step (c0 c1 : Chart) (k : PyStr) (q : ℚ) (rest : List PyStr)
    (hkne : k ≠ []) (hkws : ∀ ch ∈ k, isWS ch = false)
    (hkeq : ∀ ch ∈ k, ch ≠ '=')
    (hkv : songKV c0 k (pyFloatRepr q) = .ok c1) :
    parse_song_lines c0 (kvLine k (pyFloatRepr q) :: rest) =
      parse_song_lines c1 rest := by
  rw [song_float_line c0 k q rest hkne hkws hkeq, hkv]

lemma song_int_step (c0 c1 : Chart) (k : PyStr) (n : ℤ) (rest : List PyStr)
    (hkne : k ≠ []) (hkws : ∀ ch ∈ k, isWS ch = false)
    (hkeq : ∀ ch ∈ k, ch ≠ '=')
    (hkv : songKV c0 k (intRepr n) = .ok c1) :
    parse_song_lines c0 (kvLine k (intRepr n) :: rest) =
      parse_song_lines c1 rest := by
  rw [song_int_line c0 k n rest hkne hkws hkeq, hkv]

lemma song_opt_step (c0 c1 : Chart) (P : Prop) [Decidable P] (line : PyStr)
    (rest : List PyStr)
    (hline : parse_song_lines c0 (line :: rest) = parse_song_lines c1 rest)
    (hskip : ¬P → c1 = c0) :
    parse_song_lines c0 ((if P then [line] else []) ++ rest) =
      parse_song_lines c1 rest := by
  by_cases hp : P
  · rw [if_pos hp, List.singleton_append]
    exact hline
  · rw [if_neg hp, List.nil_append, hskip hp]

lemma parse_song_body_roundtrip (c : Chart)
    (hname : cleanStr c.name) (hartist : cleanStr c.artist)
    (halbum : cleanStr c.album) (hgenre : cleanStr c.genre)
    (hyear : cleanStr c.year) (hcharter : cleanStr c.charter)
    (hgne : c.genre ≠ []) (hoff : WFfloat c.offset)
    (hpsf : WFfloat c.preview_start) (hpef : WFfloat c.preview_end)
    (hdiff : -1 ≤ c.difficulty) (hps0 : 0 ≤ c.preview_start)
    (hpe0 : 0 ≤ c.preview_end) :
    parse_song_lines {} (contentFilter (write_song_body c)) =
      .ok
        { name := c.name, artist := c.artist, album := c.album,
          genre := c.genre, year := c.year, charter := c.charter,
          offset := c.offset, resolution := c.resolution,
          difficulty := c.difficulty, preview_start := c.preview_start,
          preview_end := c.preview_end } := by
  rw [contentFilter_write_song_body]
  simp only [List.append_assoc, List.singleton_append, List.cons_append,
    List.nil_append]
  rw [song_quoted_step {} { name := c.name } _ _ _
    (by decide) (by decide) (by decide) hname (by rw [songKV_Name])]
  rw [song_quoted_step _ { name := c.name, artist := c.artist } _ _ _
    (by decide) (by decide) (by decide) hartist (by rw [songKV_Artist])]
  rw [song_opt_step _
    { name := c.name, artist := c.artist, album := c.album }
    (c.album ≠ []) _ _
    (song_quoted_step _ _ _ _ _ (by decide) (by decide) (by decide) halbum
      (by rw [songKV_Album]))
    (fun hp => by rw [not_not.mp hp])]
  rw [song_opt_step _
    { name := c.name, artist := c.artist, album := c.album,
      genre := c.genre }
    (c.genre ≠ []) _ _
    (song_quoted_step _ _ _ _ _ (by decide) (by decide) (by decide) hgenre
      (by rw [songKV_Genre]))
    (fun hp => absurd (not_not.mp hp) hgne)]
  rw [song_opt_step _
    { name := c.name, artist := c.artist, album := c.album,
      genre := c.genre, year := c.year }
    (c.year ≠ []) _ _
    (song_quoted_step _ _ _ _ _ (by decide) (by decide) (by decide) hyear
      (by rw [songKV_Year]))
    (fun hp => by rw [not_not.mp hp])]
  rw [song_opt_step _
    { name := c.name, artist := c.artist, album := c.album,
      genre := c.genre, year := c.year, charter := c.charter }
    (c.charter ≠ []) _ _
    (song_quoted_step _ _ _ _ _ (by decide) (by decide) (by decide) hcharter
      (by rw [songKV_Charter]))
    (fun hp => by rw [not_not.mp hp])]
  rw [song_float_step _
    { name := c.name, artist := c.artist, album := c.album,
      genre := c.genre, year := c.year, charter := c.charter,
      offset := c.offset }
    _ c.offset _
    (by decide) (by decide) (by decide) (by rw [songKV_Offset _ _ hoff])]
  rw [song_int_step _
    { name := c.name, artist := c.artist, album := c.album,
      genre := c.genre, year := c.year, charter := c.charter,
      offset := c.offset, resolution := c.resolution }
    _ c.resolution _
    (by decide) (by decide) (by decide) (by rw [songKV_Resolution])]
  rw [song_opt_step _
    { name := c.name, artist := c.artist, album := c.album,
      genre := c.genre, year := c.year, charter := c.charter,
      offset := c.offset, resolution := c.resolution,
      difficulty := c.difficulty }
    (c.difficulty ≥ 0) _ _
    (song_int_step _ _ _ c.difficulty _ (by decide) (by decide) (by decide)
      (by rw [songKV_Difficulty]))
    (fun hp => by
      have hd : c.difficulty = -1 := by omega
      rw [hd])]
  rw [song_opt_step _
    { name := c.name, artist := c.artist, album := c.album,
      genre := c.genre, year := c.year, charter := c.charter,
      offset := c.offset, resolution := c.resolution,
      difficulty := c.difficulty, preview_start := c.preview_start }
    (c.preview_start > 0) _ _
    (song_float_step _ _ _ c.preview_start _ (by decide) (by decide)
      (by decide) (by rw [songKV_PreviewStart _ _ hpsf]))
    (fun hp => by
      have hd : c.preview_start = 0 := le_antisymm (not_lt.mp hp) hps0
      rw [hd])]
  rw [show (if c.preview_end > 0 then
      [kvLine (pys "PreviewEnd") (pyFloatRepr c.preview_end)] else []) =
      (if c.preview_end > 0 then
      [kvLine (pys "PreviewEnd") (pyFloatRepr c.preview_end)] else []) ++ []
    from by simp]
  rw [song_opt_step _
    { name := c.name, artist := c.artist, album := c.album,
      genre := c.genre, year := c.year, charter := c.charter,
      offset := c.offset, resolution := c.resolution,
      difficulty := c.difficulty, preview_start := c.preview_start,
      preview_end := c.preview_end }
    (c.preview_end > 0) _ _
    (song_float_step _ _ _ c.preview_end _ (by decide) (by decide)
      (by decide) (by rw [songKV_PreviewEnd _ _ hpef]))
    (fun hp => by
      have hd : c.preview_end = 0 := le_antisymm (not_lt.mp hp) hpe0
      rw [hd])]
  rfl

/-! ## The `[SyncTrack]` section round trip -/

lemma parse_sync_cons_TS (c0 : Chart) (t n : ℤ) (rest : List PyStr) :
    parse_sync_lines c0 (tickLine t (body2 (pys "TS") n) :: rest) =
      parse_sync_lines
        { c0 with time_signatures := c0.time_signatures ++ [⟨t, n, 2⟩] } rest := by
  have h1 : pstrip (tickLine t (body2 (pys "TS") n)) =
      tickLine t (body2 (pys "TS") n) := by
    unfold tickLine
    apply pstrip_kvLine _ _ (intRepr_ne_nil t) (intRepr_head_not_ws t)
    · unfold body2
      simp [pys]
    · exact body2_last _ n
  have h3 : splitEq1 (tickLine t (body2 (pys "TS") n)) =
      (intRepr t ++ [' '], ' ' :: body2 (pys "TS") n) :=
    splitEq1_kvLine _ _ (intRepr_no_eq t)
  have h4 : pstrip (' ' :: body2 (pys "TS") n) = body2 (pys "TS") n := by
    apply pstrip_val
    · intro ch hc
      unfold body2 at hc
      rw [List.head?_append_of_ne_nil _ (by decide)] at hc
      rw [show (pys "TS").head? = some 'T' from rfl] at hc
      rw [← Option.some.inj hc]
      decide
    · exact body2_last _ n
  have h5 : pysplitWS (body2 (pys "TS") n) = [pys "TS", intRepr n] := by
    unfold body2
    exact pysplitWS_tok2 _ _ (by decide) (by decide)
      (intRepr_no_ws n) (intRepr_ne_nil n)
  have h2 : '=' ∈ tickLine t (body2 (pys "TS") n) := by
    unfold tickLine
    exact eq_mem_kvLine _ _
  simp only [parse_sync_lines]
  rw [h1, if_pos h2, h3]
  simp only [tick_part, h4, h5, pyParseInt_intRepr]
  simp only [if_true]
  rw [if_neg (by decide)]

lemma parse_sync_cons_B (c0 : Chart) (t m : ℤ) (rest : List PyStr) :
    parse_sync_lines c0 (tickLine t (body2 (pys "B") m) :: rest) =
      parse_sync_lines
        { c0 with bpm_changes := c0.bpm_changes ++ [⟨t, (m : ℚ) / 1000⟩] }
        rest := by
  have h1 : pstrip (tickLine t (body2 (pys "B") m)) =
      tickLine t (body2 (pys "B") m) := by
    unfold tickLine
    apply pstrip_kvLine _ _ (intRepr_ne_nil t) (intRepr_head_not_ws t)
    · unfold body2
      simp [pys]
    · exact body2_last _ m
  have h3 : splitEq1 (tickLine t (body2 (pys "B") m)) =
      (intRepr t ++ [' '], ' ' :: body2 (pys "B") m) :=
    splitEq1_kvLine _ _ (intRepr_no_eq t)
  have h4 : pstrip (' ' :: body2 (pys "B") m) = body2 (pys "B") m := by
    apply pstrip_val
    · intro ch hc
      unfold body2 at hc
      rw [List.head?_append_of_ne_nil _ (by decide)] at hc
      rw [show (pys "B").head? = some 'B' from rfl] at hc
      rw [← Option.some.inj hc]
      decide
    · exact body2_last _ m
  have h5 : pysplitWS (body2 (pys "B") m) = [pys "B", intRepr m] := by
    unfold body2
    exact pysplitWS_tok2 _ _ (by decide) (by decide)
      (intRepr_no_ws m) (intRepr_ne_nil m)
  have h2 : '=' ∈ tickLine t (body2 (pys "B") m) := by
    unfold tickLine
    exact eq_mem_kvLine _ _
  simp only [parse_sync_lines]
  rw [h1, if_pos h2, h3]
  simp only [tick_part, h4, h5, pyParseInt_intRepr]
  simp only [if_true]

lemma sortByTick_eq_self {α : Type} (tickOf : α → ℤ) (l : List α)
    (h : l.Pairwise (fun a b => tickOf a ≤ tickOf b)) :
    sortByTick tickOf l = l :=
  List.Sorted.insertionSort_eq h

lemma tick_body_line_ok (t : ℤ) (body : PyStr) (hbne : body ≠ [])
    (hbl : ∀ ch, body.getLast? = some ch → isWS ch = false) :
    pstrip (tickLine t body) = tickLine t body ∧ tickLine t body ≠ [] ∧
      tickLine t body ≠ ['\x7b'] ∧ tickLine t body ≠ ['\x7d'] := by
  have h1 : pstrip (tickLine t body) = tickLine t body := by
    unfold tickLine
    exact pstrip_kvLine _ _ (intRepr_ne_nil t) (intRepr_head_not_ws t) hbne hbl
  have hmem : '=' ∈ tickLine t body := eq_mem_kvLine _ _
  refine ⟨h1, ?_, ?_, ?_⟩ <;>
    (intro h; rw [h] at hmem; simp at hmem)

lemma contentFilter_write_sync_body (c : Chart) :
    contentFilter (write_sync_body c) =
      (sortByTick TimeSignature.tick c.time_signatures).map
        (fun ts => tickLine ts.tick (body2 (pys "TS") ts.numerator)) ++
      (sortByTick BPMChange.tick c.bpm_changes).map
        (fun b => tickLine b.tick (body2 (pys "B") b.milli_bpm)) := by
  unfold write_sync_body
  simp only [contentFilter_append, contentFilter_braces.1, contentFilter_close]
  rw [contentFilter_wline_map _ _ (fun ts _ =>
    tick_body_line_ok ts.tick (body2 (pys "TS") ts.numerator)
      (by unfold body2; simp [pys]) (body2_last _ _))]
  rw [contentFilter_wline_map _ _ (fun b _ =>
    tick_body_line_ok b.tick (body2 (pys "B") b.milli_bpm)
      (by unfold body2; simp [pys]) (body2_last _ _))]
  simp

lemma parse_sync_TS_run (tss : List TimeSignature) (rest : List PyStr) :
    ∀ c0, parse_sync_lines c0
        (tss.map (fun ts => tickLine ts.tick (body2 (pys "TS") ts.numerator)) ++
          rest) =
      parse_sync_lines
        { c0 with time_signatures := c0.time_signatures ++
            tss.map (fun ts => ⟨ts.tick, ts.numerator, 2⟩) } rest := by
  induction tss with
  | nil =>
    intro c0
    simp
  | cons ts tss ih =>
    intro c0
    rw [List.map_cons, List.cons_append, parse_sync_cons_TS, ih]
    simp only [List.map_cons, List.append_assoc, List.singleton_append]

lemma millibpm_div (b : BPMChange) (h : (b.bpm * 1000).den = 1) :
    ((b.milli_bpm : ℤ) : ℚ) / 1000 = b.bpm := by
  unfold BPMChange.milli_bpm
  have hq : ((b.bpm * 1000).num : ℚ) = b.bpm * 1000 := by
    rw [Rat.den_eq_one_iff] at h
    exact h
  rw [show b.bpm * 1000 = (((b.bpm * 1000).num : ℤ) : ℚ) from hq.symm,
    pyInt_intCast, hq, mul_div_assoc]
  norm_num

lemma parse_sync_B_run (bs : List BPMChange) (rest : List PyStr)
    (hden : ∀ b ∈ bs, (b.bpm * 1000).den = 1) :
    ∀ c0, parse_sync_lines c0
        (bs.map (fun b => tickLine b.tick (body2 (pys "B") b.milli_bpm)) ++
          rest) =
      parse_sync_lines { c0 with bpm_changes := c0.bpm_changes ++ bs } rest := by
  induction bs with
  | nil =>
    intro c0
    simp
  | cons b bs ih =>
    intro c0
    rw [List.map_cons, List.cons_append, parse_sync_cons_B,
      millibpm_div b (hden b (by simp)),
      show (⟨b.tick, b.bpm⟩ : BPMChange) = b from rfl,
      ih (fun x hx => hden x (by simp [hx]))]
    simp only [List.append_assoc, List.singleton_append]

lemma parse_sync_body_roundtrip (c : Chart) (c0 : Chart)
    (hts : c.time_signatures.Pairwise (fun a b => a.tick ≤ b.tick))
    (hbpm : c.bpm_changes.Pairwise (fun a b => a.tick ≤ b.tick))
    (hden : ∀ b ∈ c.bpm_changes, (b.bpm * 1000).den = 1) :
    parse_sync_lines c0 (contentFilter (write_sync_body c)) =
      .ok { c0 with
        time_signatures := c0.time_signatures ++
          c.time_signatures.map (fun ts => ⟨ts.tick, ts.numerator, 2⟩),
        bpm_changes := c0.bpm_changes ++ c.bpm_changes } := by
  rw [contentFilter_write_sync_body, sortByTick_eq_self _ _ hts,
    sortByTick_eq_self _ _ hbpm]
  rw [parse_sync_TS_run]
  rw [← List.append_nil (c.bpm_changes.map
    (fun b => tickLine b.tick (body2 (pys "B") b.milli_bpm)))]
  rw [parse_sync_B_run _ _ hden]
  rfl

/-! ## The `[Events]` section round trip -/

lemma quoteEnd_getLast (a x : PyStr) :
    (a ++ (x ++ ['"'])).getLast? = some '"' := by
  rw [List.getLast?_append_of_ne_nil _ (by simp), List.getLast?_concat]

lemma parse_events_cons_ok (c0 : Chart) (t : ℤ) (body : PyStr)
    (rest : List PyStr) (hbne : body ≠ [])
    (hbh : ∀ ch, body.head? = some ch → isWS ch = false)
    (hbl : ∀ ch, body.getLast? = some ch → isWS ch = false) :
    ∃ σ ε, parse_events_lines c0 (tickLine t body :: rest) =
      parse_events_lines
        { c0 with sections := c0.sections ++ σ, events := c0.events ++ ε }
        rest := by
  have h1 : pstrip (tickLine t body) = tickLine t body :=
    (tick_body_line_ok t body hbne hbl).1
  have h2 : '=' ∈ tickLine t body := by
    unfold tickLine
    exact eq_mem_kvLine _ _
  have h3 : splitEq1 (tickLine t body) = (intRepr t ++ [' '], ' ' :: body) :=
    splitEq1_kvLine _ _ (intRepr_no_eq t)
  have h4 : pstrip (' ' :: body) = body := pstrip_val body hbh hbl
  simp only [parse_events_lines]
  rw [h1, if_pos h2, h3]
  simp only [tick_part, h4]
  by_cases hp : (pys "E \"section").isPrefixOf body
  · refine ⟨[⟨t, removeAll (pys "section ")
      ((splitOnChar '"' body).getD 1 [])⟩], [], ?_⟩
    rw [if_pos hp]
    simp
  · refine ⟨[], [⟨t, pyStripChars ['"'] (pyStripChars ['E', ' '] body)⟩], ?_⟩
    rw [if_neg hp]
    simp

def EventsLineShape (l : PyStr) : Prop :=
  ∃ t body, l = tickLine t body ∧ body ≠ [] ∧
    (∀ ch, body.head? = some ch → isWS ch = false) ∧
    (∀ ch, body.getLast? = some ch → isWS ch = false)

lemma parse_events_run : ∀ (lines : List PyStr) (c0 : Chart),
    (∀ l ∈ lines, EventsLineShape l) →
    ∃ σ ε, parse_events_lines c0 lines =
      .ok { c0 with sections := c0.sections ++ σ, events := c0.events ++ ε } := by
  intro lines
  induction lines with
  | nil =>
    intro c0 _
    exact ⟨[], [], by simp [parse_events_lines]⟩
  | cons l rest ih =>
    intro c0 h
    obtain ⟨t, body, hl, hbne, hbh, hbl⟩ := h l (by simp)
    subst hl
    obtain ⟨σ1, ε1, hstep⟩ := parse_events_cons_ok c0 t body rest hbne hbh hbl
    obtain ⟨σ2, ε2, hrest⟩ :=
      ih { c0 with sections := c0.sections ++ σ1, events := c0.events ++ ε1 }
        (fun x hx => h x (by simp [hx]))
    refine ⟨σ1 ++ σ2, ε1 ++ ε2, ?_⟩
    rw [hstep, hrest]
    simp [List.append_assoc]

lemma contentFilter_write_events_body (c : Chart) :
    contentFilter (write_events_body c) =
      (sortByTick SectionMarker.tick c.sections).map
        (fun s => tickLine s.tick (pys "E \"section " ++ (s.name ++ ['"']))) ++
      (sortByTick Event.tick c.events).map
        (fun e => tickLine e.tick (pys "E \"" ++ (e.text ++ ['"']))) := by
  unfold write_events_body
  simp only [contentFilter_append, contentFilter_braces.1, contentFilter_close]
  rw [contentFilter_wline_map _ _ (fun s _ =>
    tick_body_line_ok s.tick (pys "E \"section " ++ (s.name ++ ['"']))
      (by simp [pys])
      (by
        intro ch hc
        rw [quoteEnd_getLast] at hc
        rw [← Option.some.inj hc]
        decide))]
  rw [contentFilter_wline_map _ _ (fun e _ =>
    tick_body_line_ok e.tick (pys "E \"" ++ (e.text ++ ['"']))
      (by simp [pys])
      (by
        intro ch hc
        rw [quoteEnd_getLast] at hc
        rw [← Option.some.inj hc]
        decide))]
  simp

lemma parse_events_body_roundtrip (c c0 : Chart) :
    ∃ σ ε, parse_events_lines c0 (contentFilter (write_events_body c)) =
      .ok { c0 with sections := c0.sections ++ σ, events := c0.events ++ ε } := by
  rw [contentFilter_write_events_body]
  apply parse_events_run
  intro l hl
  rcases List.mem_append.mp hl with h | h
  · obtain ⟨s, _, hs⟩ := List.mem_map.mp h
    refine ⟨s.tick, _, hs.symm, by simp [pys], ?_, ?_⟩
    · intro ch hc
      rw [List.head?_append_of_ne_nil _ (by decide)] at hc
      rw [show (pys "E \"section ").head? = some 'E' from rfl] at hc
      rw [← Option.some.inj hc]
      decide
    · intro ch hc
      rw [quoteEnd_getLast] at hc
      rw [← Option.some.inj hc]
      decide
  · obtain ⟨e, _, he⟩ := List.mem_map.mp h
    refine ⟨e.tick, _, he.symm, by simp [pys], ?_, ?_⟩
    · intro ch hc
      rw [List.head?_append_of_ne_nil _ (by decide)] at hc
      rw [show (pys "E \"").head? = some 'E' from rfl] at hc
      rw [← Option.some.inj hc]
      decide
    · intro ch hc
      rw [quoteEnd_getLast] at hc
      rw [← Option.some.inj hc]
      decide

/-! ## Track sections: star-power and local-event lines -/

lemma parse_track_line1_sLine (st : NoteBuf × Track) (t len : ℤ) :
    parse_track_line1 st (tickLine t (body3 (pys "S") 2 len)) =
      .ok (st.1, { st.2 with
        star_power := st.2.star_power ++ [⟨t, len⟩] }) := by
  have h1 : pstrip (tickLine t (body3 (pys "S") 2 len)) =
      tickLine t (body3 (pys "S") 2 len) := by
    unfold tickLine
    apply pstrip_kvLine _ _ (intRepr_ne_nil t) (intRepr_head_not_ws t)
    · unfold body3
      simp [pys]
    · exact body3_last _ 2 len
  have h2 : '=' ∈ tickLine t (body3 (pys "S") 2 len) := by
    unfold tickLine
    exact eq_mem_kvLine _ _
  have h3 : splitEq1 (tickLine t (body3 (pys "S") 2 len)) =
      (intRepr t ++ [' '], ' ' :: body3 (pys "S") 2 len) :=
    splitEq1_kvLine _ _ (intRepr_no_eq t)
  have h4 : pstrip (' ' :: body3 (pys "S") 2 len) = body3 (pys "S") 2 len := by
    apply pstrip_val
    · intro ch hc
      unfold body3 at hc
      rw [List.head?_append_of_ne_nil _ (by decide)] at hc
      rw [show (pys "S").head? = some 'S' from rfl] at hc
      rw [← Option.some.inj hc]
      decide
    · exact body3_last _ 2 len
  have h5 : pysplitWS (body3 (pys "S") 2 len) =
      [pys "S", intRepr 2, intRepr len] := by
    unfold body3
    exact pysplitWS_tok3 _ _ _ (by decide) (by decide)
      (intRepr_no_ws 2) (intRepr_ne_nil 2)
      (intRepr_no_ws len) (intRepr_ne_nil len)
  have h2p : '=' ∈ pstrip (tickLine t (body3 (pys "S") 2 len)) := by
    rw [h1]
    exact h2
  have h3p : splitEq1 (pstrip (tickLine t (body3 (pys "S") 2 len))) =
      (intRepr t ++ [' '], ' ' :: body3 (pys "S") 2 len) := by
    rw [h1]
    exact h3
  unfold parse_track_line1
  rw [if_pos h2p, h3p]
  simp only [tick_part, h4, h5, pyParseInt_intRepr]
  simp only [if_true]
  rw [if_neg (by decide)]

lemma parse_track_line1_eLine (st : NoteBuf × Track) (t : ℤ) (text : PyStr) :
    ∃ ev : Event,
      parse_track_line1 st (tickLine t (pys "E \"" ++ (text ++ ['"']))) =
        .ok (st.1, { st.2 with events := st.2.events ++ [ev] }) := by
  have hbh : ∀ ch, (pys "E \"" ++ (text ++ ['"'])).head? = some ch →
      isWS ch = false := by
    intro ch hc
    rw [List.head?_append_of_ne_nil _ (by decide)] at hc
    rw [show (pys "E \"").head? = some 'E' from rfl] at hc
    rw [← Option.some.inj hc]
    decide
  have hbl : ∀ ch, (pys "E \"" ++ (text ++ ['"'])).getLast? = some ch →
      isWS ch = false := by
    intro ch hc
    rw [quoteEnd_getLast] at hc
    rw [← Option.some.inj hc]
    decide
  have h1 : pstrip (tickLine t (pys "E \"" ++ (text ++ ['"']))) =
      tickLine t (pys "E \"" ++ (text ++ ['"'])) :=
    (tick_body_line_ok t _ (by simp [pys]) hbl).1
  have h2 : '=' ∈ tickLine t (pys "E \"" ++ (text ++ ['"'])) := by
    unfold tickLine
    exact eq_mem_kvLine _ _
  have h3 : splitEq1 (tickLine t (pys "E \"" ++ (text ++ ['"']))) =
      (intRepr t ++ [' '], ' ' :: (pys "E \"" ++ (text ++ ['"']))) :=
    splitEq1_kvLine _ _ (intRepr_no_eq t)
  have h4 : pstrip (' ' :: (pys "E \"" ++ (text ++ ['"']))) =
      pys "E \"" ++ (text ++ ['"']) := pstrip_val _ hbh hbl
  have h5 : pysplitWS (pys "E \"" ++ (text ++ ['"'])) =
      pys "E" :: pysplitWS ('"' :: (text ++ ['"'])) := by
    show pysplitWS (['E'] ++ (' ' :: ('"' :: (text ++ ['"'])))) = _
    unfold pysplitWS
    rw [splitWSGo_token ['E'] (by decide), List.nil_append, splitWSGo_space,
      if_neg (by decide)]
    rfl
  refine ⟨⟨t, pyStripChars ['"']
    (joinSpace (pysplitWS ('"' :: (text ++ ['"']))))⟩, ?_⟩
  have h2p : '=' ∈ pstrip (tickLine t (pys "E \"" ++ (text ++ ['"']))) := by
    rw [h1]
    exact h2
  have h3p : splitEq1 (pstrip (tickLine t (pys "E \"" ++ (text ++ ['"'])))) =
      (intRepr t ++ [' '], ' ' :: (pys "E \"" ++ (text ++ ['"']))) := by
    rw [h1]
    exact h3
  unfold parse_track_line1
  rw [if_pos h2p, h3p]
  simp only [tick_part, h4, h5]
  simp only [if_true]
  rw [if_neg (by decide), if_neg (by decide)]

def TrackAuxLine (l : PyStr) : Prop :=
  (∃ t len, l = tickLine t (body3 (pys "S") 2 len)) ∨
  (∃ t text, l = tickLine t (pys "E \"" ++ (text ++ ['"'])))

lemma parse_track_aux_run : ∀ (lines : List PyStr) (st : NoteBuf × Track),
    (∀ l ∈ lines, TrackAuxLine l) →
    ∃ sp ev, parse_track_lines lines st =
      .ok (st.1, { st.2 with
        star_power := st.2.star_power ++ sp,
        events := st.2.events ++ ev }) := by
  intro lines
  induction lines with
  | nil =>
    intro st _
    exact ⟨[], [], by simp [parse_track_lines]⟩
  | cons l rest ih =>
    intro st h
    rcases h l (by simp) with ⟨t, len, hl⟩ | ⟨t, text, hl⟩
    · subst hl
      obtain ⟨sp2, ev2, hrest⟩ :=
        ih (st.1, { st.2 with star_power := st.2.star_power ++ [⟨t, len⟩] })
          (fun x hx => h x (by simp [hx]))
      refine ⟨⟨t, len⟩ :: sp2, ev2, ?_⟩
      simp only [parse_track_lines, parse_track_line1_sLine]
      rw [hrest]
      simp
    · subst hl
      obtain ⟨ev1, hstep⟩ := parse_track_line1_eLine st t text
      obtain ⟨sp2, ev2, hrest⟩ :=
        ih (st.1, { st.2 with events := st.2.events ++ [ev1] })
          (fun x hx => h x (by simp [hx]))
      refine ⟨sp2, ev1 :: ev2, ?_⟩
      simp only [parse_track_lines, hstep]
      rw [hrest]
      simp

/-! ## The note buffer of `_parse_track_section` -/

/-- Strict lexicographic order on (tick, fret): the writer's note order for a
well-formed track. -/
def lexLT (a b : Note) : Prop :=
  a.tick < b.tick ∨ (a.tick = b.tick ∧ a.fret < b.fret)

/-- All notes stored in the buffer, in buffer order. -/
def bufFlatten (B : NoteBuf) : List Note :=
  B.flatMap (fun e => e.2.map Prod.snd)

/-- Invariant of the buffer built from a strictly sorted note list: strictly
increasing tick keys, nonempty per-tick dicts, and each stored note aligned
with its keys. -/
def BufInv (B : NoteBuf) : Prop :=
  (B.map Prod.fst).Pairwise (· < ·) ∧
  ∀ e ∈ B, e.2 ≠ [] ∧ ∀ fn ∈ e.2, fn.1 = fn.2.fret ∧ fn.2.tick = e.1

lemma forced_update_id {m : Note} (h : m.is_forced = true) :
    { m with is_forced := true } = m := by
  obtain ⟨t, f, s, fo, ta, op, v⟩ := m
  simp at h
  rw [h]

lemma tap_update_id {m : Note} (h : m.is_tap = true) :
    { m with is_tap := true } = m := by
  obtain ⟨t, f, s, fo, ta, op, v⟩ := m
  simp at h
  rw [h]

lemma map_pair_id {α β : Type} (l : List (α × β)) (g : β → β)
    (h : ∀ x ∈ l, g x.2 = x.2) : l.map (fun p => (p.1, g p.2)) = l := by
  induction l with
  | nil => rfl
  | cons p rest ih =>
    rw [List.map_cons, ih (fun x hx => h x (by simp [hx])), h p (by simp)]

lemma bufSetForced_id (B : NoteBuf) (t : ℤ)
    (hB : ∀ e ∈ B, e.1 = t → ∀ fn ∈ e.2, fn.2.is_forced = true) :
    bufSetForced B t = B := by
  induction B with
  | nil => rfl
  | cons e rest ih
  => unfold bufSetForced at *
     rw [List.map_cons, ih (fun x hx hxe => hB x (by simp [hx]) hxe)]
     by_cases he : e.1 = t
     · rw [if_pos he,
         map_pair_id e.2 (fun m => { m with is_forced := true })
           (fun fn hfn => forced_update_id (hB e (by simp) he fn hfn))]
     · rw [if_neg he]

lemma bufSetTap_id (B : NoteBuf) (t : ℤ)
    (hB : ∀ e ∈ B, e.1 = t → ∀ fn ∈ e.2, fn.2.is_tap = true) :
    bufSetTap B t = B := by
  induction B with
  | nil => rfl
  | cons e rest ih
  => unfold bufSetTap at *
     rw [List.map_cons, ih (fun x hx hxe => hB x (by simp [hx]) hxe)]
     by_cases he : e.1 = t
     · rw [if_pos he,
         map_pair_id e.2 (fun m => { m with is_tap := true })
           (fun fn hfn => tap_update_id (hB e (by simp) he fn hfn))]
     · rw [if_neg he]

lemma dictSet_cons_self {α β : Type} [DecidableEq α] (k : α) (v0 v : β)
    (rest : List (α × β)) : dictSet ((k, v0) :: rest) k v = (k, v) :: rest := by
  rw [show dictSet ((k, v0) :: rest) k v =
    (if k = k then (k, v) :: rest else (k, v0) :: dictSet rest k v) from rfl,
    if_pos rfl]

lemma dictSet_cons_ne {α β : Type} [DecidableEq α] {k k0 : α} (h : k ≠ k0)
    (v0 v : β) (rest : List (α × β)) :
    dictSet ((k0, v0) :: rest) k v = (k0, v0) :: dictSet rest k v := by
  rw [show dictSet ((k0, v0) :: rest) k v =
    (if k = k0 then (k, v) :: rest else (k0, v0) :: dictSet rest k v) from rfl,
    if_neg h]

lemma bufSetForced_cons_self (t : ℤ) (v0 : List (ℤ × Note)) (rest : NoteBuf) :
    bufSetForced ((t, v0) :: rest) t =
      (t, v0.map (fun fn => (fn.1, { fn.2 with is_forced := true }))) ::
        bufSetForced rest t := by
  show List.map _ _ = _
  rw [List.map_cons]
  congr 1
  show (if (t, v0).1 = t then ((t, v0).1,
    (t, v0).2.map (fun fn => (fn.1, { fn.2 with is_forced := true })))
    else (t, v0)) = _
  rw [if_pos (show (t, v0).1 = t from rfl)]

lemma bufSetForced_cons_ne {k0 t : ℤ} (h : k0 ≠ t) (v0 : List (ℤ × Note))
    (rest : NoteBuf) :
    bufSetForced ((k0, v0) :: rest) t = (k0, v0) :: bufSetForced rest t := by
  show List.map _ _ = _
  rw [List.map_cons]
  congr 1
  show (if (k0, v0).1 = t then ((k0, v0).1,
    (k0, v0).2.map (fun fn => (fn.1, { fn.2 with is_forced := true })))
    else (k0, v0)) = _
  rw [if_neg (show ¬(k0, v0).1 = t from h)]

lemma bufSetTap_cons_self (t : ℤ) (v0 : List (ℤ × Note)) (rest : NoteBuf) :
    bufSetTap ((t, v0) :: rest) t =
      (t, v0.map (fun fn => (fn.1, { fn.2 with is_tap := true }))) ::
        bufSetTap rest t := by
  show List.map _ _ = _
  rw [List.map_cons]
  congr 1
  show (if (t, v0).1 = t then ((t, v0).1,
    (t, v0).2.map (fun fn => (fn.1, { fn.2 with is_tap := true })))
    else (t, v0)) = _
  rw [if_pos (show (t, v0).1 = t from rfl)]

lemma bufSetTap_cons_ne {k0 t : ℤ} (h : k0 ≠ t) (v0 : List (ℤ × Note))
    (rest : NoteBuf) :
    bufSetTap ((k0, v0) :: rest) t = (k0, v0) :: bufSetTap rest t := by
  show List.map _ _ = _
  rw [List.map_cons]
  congr 1
  show (if (k0, v0).1 = t then ((k0, v0).1,
    (k0, v0).2.map (fun fn => (fn.1, { fn.2 with is_tap := true })))
    else (k0, v0)) = _
  rw [if_neg (show ¬(k0, v0).1 = t from h)]

lemma bufSetForced_dictSet (B : NoteBuf) (t : ℤ) (v : List (ℤ × Note)) :
    bufSetForced (dictSet B t v) t =
      dictSet (bufSetForced B t) t
        (v.map (fun fn => (fn.1, { fn.2 with is_forced := true }))) := by
  induction B with
  | nil => simp [dictSet, bufSetForced]
  | cons e rest ih =>
    obtain ⟨k0, v0⟩ := e
    by_cases h : t = k0
    · subst h
      rw [dictSet_cons_self, bufSetForced_cons_self, bufSetForced_cons_self,
        dictSet_cons_self]
    · rw [dictSet_cons_ne h, bufSetForced_cons_ne (Ne.symm h),
        bufSetForced_cons_ne (Ne.symm h), dictSet_cons_ne h, ih]

lemma bufSetTap_dictSet (B : NoteBuf) (t : ℤ) (v : List (ℤ × Note)) :
    bufSetTap (dictSet B t v) t =
      dictSet (bufSetTap B t) t
        (v.map (fun fn => (fn.1, { fn.2 with is_tap := true }))) := by
  induction B with
  | nil => simp [dictSet, bufSetTap]
  | cons e rest ih =>
    obtain ⟨k0, v0⟩ := e
    by_cases h : t = k0
    · subst h
      rw [dictSet_cons_self, bufSetTap_cons_self, bufSetTap_cons_self,
        dictSet_cons_self]
    · rw [dictSet_cons_ne h, bufSetTap_cons_ne (Ne.symm h),
        bufSetTap_cons_ne (Ne.symm h), dictSet_cons_ne h, ih]

lemma bufSetForced_bufAdd (B : NoteBuf) (t f : ℤ) (m : Note)
    (hB : ∀ e ∈ B, e.1 = t → ∀ fn ∈ e.2, fn.2.is_forced = true) :
    bufSetForced (bufAdd B t f m) t =
      bufAdd B t f { m with is_forced := true } := by
  unfold bufAdd
  cases hl : pyLookup B t with
  | none =>
    rw [show bufSetForced (B ++ [(t, [(f, m)])]) t =
      bufSetForced B t ++ bufSetForced [(t, [(f, m)])] t from
      List.map_append _ _ _]
    rw [bufSetForced_id B t hB, bufSetForced_cons_self t [(f, m)] []]
    simp [bufSetForced]
  | some inner =>
    rw [bufSetForced_dictSet, bufSetForced_id B t hB,
      dictSet_map_value inner f m (fun x => ({ x with is_forced := true } : Note)),
      map_pair_id inner (fun x => ({ x with is_forced := true } : Note))
        (fun fn hfn => forced_update_id (hB _ (pyLookup_mem hl) rfl fn hfn))]

lemma bufSetTap_bufAdd (B : NoteBuf) (t f : ℤ) (m : Note)
    (hB : ∀ e ∈ B, e.1 = t → ∀ fn ∈ e.2, fn.2.is_tap = true) :
    bufSetTap (bufAdd B t f m) t = bufAdd B t f { m with is_tap := true } := by
  unfold bufAdd
  cases hl : pyLookup B t with
  | none =>
    rw [show bufSetTap (B ++ [(t, [(f, m)])]) t =
      bufSetTap B t ++ bufSetTap [(t, [(f, m)])] t from
      List.map_append _ _ _]
    rw [bufSetTap_id B t hB, bufSetTap_cons_self t [(f, m)] []]
    simp [bufSetTap]
  | some inner =>
    rw [bufSetTap_dictSet, bufSetTap_id B t hB,
      dictSet_map_value inner f m (fun x => ({ x with is_tap := true } : Note)),
      map_pair_id inner (fun x => ({ x with is_tap := true } : Note))
        (fun fn hfn => tap_update_id (hB _ (pyLookup_mem hl) rfl fn hfn))]

lemma mem_bufFlatten {B : NoteBuf} {e : ℤ × List (ℤ × Note)}
    {fn : ℤ × Note} (he : e ∈ B) (hfn : fn ∈ e.2) : fn.2 ∈ bufFlatten B := by
  unfold bufFlatten
  rw [List.mem_flatMap]
  exact ⟨e, he, List.mem_map_of_mem _ hfn⟩

lemma bufAdd_flatten (B : NoteBuf) (n : Note) (hInv : BufInv B)
    (hlt : ∀ m ∈ bufFlatten B, lexLT m n) :
    bufFlatten (bufAdd B n.tick n.fret n) = bufFlatten B ++ [n] ∧
      BufInv (bufAdd B n.tick n.fret n) := by
  obtain ⟨hkeys, hent⟩ := hInv
  have hkey_le : ∀ k ∈ B.map Prod.fst, k ≤ n.tick := by
    intro k hk
    obtain ⟨e, heB, hek⟩ := List.mem_map.mp hk
    obtain ⟨hne, hfns⟩ := hent e heB
    obtain ⟨fn, hfn⟩ := List.exists_mem_of_ne_nil e.2 hne
    have hmem : fn.2 ∈ bufFlatten B := mem_bufFlatten heB hfn
    have hl2 := hlt fn.2 hmem
    have htk : fn.2.tick = e.1 := (hfns fn hfn).2
    unfold lexLT at hl2
    omega
  cases hl : pyLookup B n.tick with
  | none =>
    have hred : bufAdd B n.tick n.fret n = B ++ [(n.tick, [(n.fret, n)])] := by
      unfold bufAdd
      rw [hl]
    rw [hred]
    constructor
    · unfold bufFlatten
      rw [List.flatMap_append]
      simp
    · constructor
      · rw [List.map_append, List.pairwise_append]
        refine ⟨hkeys, by simp, ?_⟩
        intro a ha b hb
        simp at hb
        subst hb
        have hle := hkey_le a ha
        have hne : a ≠ n.tick := by
          intro he
          rw [pyLookup_none_iff] at hl
          exact hl (he ▸ ha)
        omega
      · intro e he
        rcases List.mem_append.mp he with h | h
        · exact hent e h
        · simp at h
          subst h
          exact ⟨by simp, by simp⟩
  | some inner =>
    obtain ⟨B1, B2, heq, hni⟩ := pyLookup_eq_some_split hl
    have hB2 : B2 = [] := by
      rcases B2 with _ | ⟨e2, B2p⟩
      · rfl
      · exfalso
        have h1 : e2.1 ∈ B.map Prod.fst := by
          rw [heq]
          simp
        have hle := hkey_le e2.1 h1
        have hkeys2 := hkeys
        rw [heq, List.map_append, List.pairwise_append] at hkeys2
        have hlt2 := (List.pairwise_cons.mp hkeys2.2.1).1 e2.1 (by simp)
        omega
    subst hB2
    have hinner_mem : (n.tick, inner) ∈ B := by
      rw [heq]
      simp
    have hfret : ∀ fn ∈ inner, fn.1 < n.fret := by
      intro fn hfn
      have hflat : fn.2 ∈ bufFlatten B :=
        mem_bufFlatten hinner_mem (e := (n.tick, inner)) hfn
      have hlt2 := hlt fn.2 hflat
      obtain ⟨ha1, ha2⟩ := (hent _ hinner_mem).2 fn hfn
      unfold lexLT at hlt2
      omega
    have hfresh : n.fret ∉ inner.map Prod.fst := by
      intro hm
      obtain ⟨fn, hfn, hfe⟩ := List.mem_map.mp hm
      have := hfret fn hfn
      omega
    have hred : bufAdd B n.tick n.fret n =
        dictSet B n.tick (dictSet inner n.fret n) := by
      unfold bufAdd
      rw [hl]
    rw [hred, heq, dictSet_append_mid B1 [] n.tick inner _ hni,
      dictSet_fresh inner n.fret n hfresh]
    constructor
    · unfold bufFlatten
      rw [List.flatMap_append, List.flatMap_append]
      simp
    · constructor
      · have hthis := hkeys
        rw [heq] at hthis
        simpa using hthis
      · intro e he
        rcases List.mem_append.mp he with h | h
        · exact hent e (by rw [heq]; exact List.mem_append.mpr (Or.inl h))
        · simp at h
          subst h
          refine ⟨by simp, ?_⟩
          intro fn hfn
          rcases List.mem_append.mp hfn with h2 | h2
          · exact (hent _ hinner_mem).2 fn h2
          · simp at h2
            subst h2
            exact ⟨rfl, rfl⟩

lemma bufRun_flatten : ∀ (ns : List Note) (B : NoteBuf),
    BufInv B → (bufFlatten B ++ ns).Pairwise lexLT →
    bufFlatten (ns.foldl (fun b n => bufAdd b n.tick n.fret n) B) =
      bufFlatten B ++ ns ∧
    BufInv (ns.foldl (fun b n => bufAdd b n.tick n.fret n) B) := by
  intro ns
  induction ns with
  | nil =>
    intro B h1 _
    exact ⟨by simp, h1⟩
  | cons n ns ih =>
    intro B hInv hpw
    have hlt : ∀ m ∈ bufFlatten B, lexLT m n := by
      rw [List.pairwise_append] at hpw
      intro m hm
      exact hpw.2.2 m hm n (by simp)
    obtain ⟨hfl, hInv2⟩ := bufAdd_flatten B n hInv hlt
    rw [List.foldl_cons]
    obtain ⟨h1, h2⟩ := ih (bufAdd B n.tick n.fret n) hInv2 (by
      rw [hfl, List.append_assoc, List.singleton_append]
      exact hpw)
    refine ⟨?_, h2⟩
    rw [h1, hfl, List.append_assoc, List.singleton_append]

lemma bufAdd_mem_cases {B : NoteBuf} {t f : ℤ} {note : Note}
    {e : ℤ × List (ℤ × Note)} (he : e ∈ bufAdd B t f note) :
    e ∈ B ∨ (e.1 = t ∧ ∀ fn ∈ e.2,
      (∃ e2 ∈ B, e2.1 = t ∧ fn ∈ e2.2) ∨ fn.2 = note) := by
  unfold bufAdd at he
  cases hl : pyLookup B t with
  | none =>
    rw [hl] at he
    rcases List.mem_append.mp he with h | h
    · left; exact h
    · simp at h
      subst h
      right
      refine ⟨rfl, ?_⟩
      intro fn hfn
      simp at hfn
      subst hfn
      right; rfl
  | some inner =>
    rw [hl] at he
    rcases mem_dictSet he with h | h
    · left; exact h
    · subst h
      right
      refine ⟨rfl, ?_⟩
      intro fn hfn
      rcases mem_dictSet hfn with h2 | h2
      · left
        exact ⟨(t, inner), pyLookup_mem hl, rfl, h2⟩
      · subst h2
        right; rfl

/-- The stripped content lines of one written note group. -/
def strippedGroup (n : Note) : List PyStr :=
  nLine n.tick n.fret n.sustain ::
    ((if n.is_forced then [nLine n.tick 5 0] else []) ++
      (if n.is_tap then [nLine n.tick 6 0] else []))

lemma parse_group_step (B : NoteBuf) (tr : Track) (n : Note)
    (rest : List PyStr) (h5 : n.fret ≠ 5) (h6 : n.fret ≠ 6)
    (hopen : n.is_open = decide (n.fret = 7)) (hvel : n.velocity = 100)
    (hB : ∀ e ∈ B, e.1 = n.tick → ∀ fn ∈ e.2,
      fn.2.is_forced = n.is_forced ∧ fn.2.is_tap = n.is_tap) :
    parse_track_lines (strippedGroup n ++ rest) (B, tr) =
      parse_track_lines rest (bufAdd B n.tick n.fret n, tr) := by
  obtain ⟨nt, nf, ns, nfo, nta, nop, nv⟩ := n
  simp only at h5 h6 hopen hvel hB
  subst hvel
  have hfirst : parse_track_line1 (B, tr) (nLine nt nf ns) =
      .ok (bufAdd B nt nf ⟨nt, nf, ns, false, false, nop, 100⟩, tr) := by
    rw [parse_track_line1_nLine]
    rw [if_neg h5, if_neg h6]
    by_cases h7 : nf = 7
    · rw [if_pos h7]
      have ho : nop = true := by
        rw [hopen]
        simp [h7]
      rw [ho]
    · rw [if_neg h7]
      have ho : nop = false := by
        rw [hopen]
        simp [h7]
      rw [ho]
  unfold strippedGroup
  simp only [List.cons_append, List.append_assoc]
  simp only [parse_track_lines, hfirst]
  by_cases hforced : nfo
  · subst hforced
    rw [if_pos rfl, List.singleton_append]
    have hflag : parse_track_line1
        (bufAdd B nt nf ⟨nt, nf, ns, false, false, nop, 100⟩, tr)
        (nLine nt 5 0) =
        .ok (bufAdd B nt nf ⟨nt, nf, ns, true, false, nop, 100⟩, tr) := by
      rw [parse_track_line1_nLine, if_pos rfl]
      rw [show bufSetForced
        (bufAdd B nt nf ⟨nt, nf, ns, false, false, nop, 100⟩) nt =
        bufAdd B nt nf
          { (⟨nt, nf, ns, false, false, nop, 100⟩ : Note) with
            is_forced := true } from
        bufSetForced_bufAdd B nt nf _
          (fun e he het fn hfn => (hB e he het fn hfn).1)]
    simp only [parse_track_lines, hflag]
    by_cases htap : nta
    · subst htap
      rw [if_pos rfl, List.singleton_append]
      have hflag2 : parse_track_line1
          (bufAdd B nt nf ⟨nt, nf, ns, true, false, nop, 100⟩, tr)
          (nLine nt 6 0) =
          .ok (bufAdd B nt nf ⟨nt, nf, ns, true, true, nop, 100⟩, tr) := by
        rw [parse_track_line1_nLine, if_neg (by decide), if_pos rfl]
        rw [show bufSetTap
          (bufAdd B nt nf ⟨nt, nf, ns, true, false, nop, 100⟩) nt =
          bufAdd B nt nf
            { (⟨nt, nf, ns, true, false, nop, 100⟩ : Note) with
              is_tap := true } from
          bufSetTap_bufAdd B nt nf _
            (fun e he het fn hfn => (hB e he het fn hfn).2)]
      simp only [parse_track_lines, hflag2]
    · simp only [htap, if_false, List.nil_append]
      rfl
  · simp only [hforced, if_false, List.nil_append]
    by_cases htap : nta
    · subst htap
      rw [if_pos rfl, List.singleton_append]
      have hflag2 : parse_track_line1
          (bufAdd B nt nf ⟨nt, nf, ns, false, false, nop, 100⟩, tr)
          (nLine nt 6 0) =
          .ok (bufAdd B nt nf ⟨nt, nf, ns, false, true, nop, 100⟩, tr) := by
        rw [parse_track_line1_nLine, if_neg (by decide), if_pos rfl]
        rw [show bufSetTap
          (bufAdd B nt nf ⟨nt, nf, ns, false, false, nop, 100⟩) nt =
          bufAdd B nt nf
            { (⟨nt, nf, ns, false, false, nop, 100⟩ : Note) with
              is_tap := true } from
          bufSetTap_bufAdd B nt nf _
            (fun e he het fn hfn => (hB e he het fn hfn).2)]
      simp only [parse_track_lines, hflag2]
    · simp only [htap, if_false, List.nil_append]
      rfl

lemma parse_notes_run : ∀ (ns : List Note) (B : NoteBuf) (tr : Track)
    (rest : List PyStr),
    (∀ n ∈ ns, n.fret ≠ 5 ∧ n.fret ≠ 6 ∧
      n.is_open = decide (n.fret = 7) ∧ n.velocity = 100) →
    (∀ n ∈ ns, ∀ e ∈ B, e.1 = n.tick → ∀ fn ∈ e.2,
      fn.2.is_forced = n.is_forced ∧ fn.2.is_tap = n.is_tap) →
    (∀ n ∈ ns, ∀ m ∈ ns, n.tick = m.tick →
      n.is_forced = m.is_forced ∧ n.is_tap = m.is_tap) →
    parse_track_lines (ns.flatMap strippedGroup ++ rest) (B, tr) =
      parse_track_lines rest
        (ns.foldl (fun b n => bufAdd b n.tick n.fret n) B, tr) := by
  intro ns
  induction ns with
  | nil =>
    intro B tr rest _ _ _
    simp
  | cons n ns ih =>
    intro B tr rest hwf hB huni
    obtain ⟨h5, h6, hopen, hvel⟩ := hwf n (by simp)
    rw [List.flatMap_cons, List.append_assoc]
    rw [parse_group_step B tr n _ h5 h6 hopen hvel
      (fun e he het fn hfn => hB n (by simp) e he het fn hfn)]
    rw [List.foldl_cons]
    apply ih _ tr rest (fun m hm => hwf m (by simp [hm]))
    · intro m hm e he het fn hfn
      rcases bufAdd_mem_cases he with hcase | ⟨hekey, hfns⟩
      · exact hB m (by simp [hm]) e hcase het fn hfn
      · rcases hfns fn hfn with ⟨e2, he2, he2t, hfn2⟩ | hfn2
        · exact hB m (by simp [hm]) e2 he2 (by omega) fn hfn2
        · rw [hfn2]
          exact huni n (by simp) m (by simp [hm]) (by omega)
    · intro a ha b hb
      exact huni a (by simp [ha]) b (by simp [hb])

lemma flushBuf_flatten : ∀ (B : NoteBuf) (tr : Track),
    flushBuf B tr = (bufFlatten B).foldl Track.add_note tr := by
  intro B
  induction B with
  | nil =>
    intro tr
    rfl
  | cons e rest ih =>
    intro tr
    unfold flushBuf bufFlatten at *
    rw [List.foldl_cons, List.flatMap_cons, List.foldl_append, List.foldl_map]
    exact ih _

lemma foldl_add_note_sorted : ∀ (ns : List Note) (tr : Track),
    (tr.notes ++ ns).Pairwise noteLEP →
    ns.foldl Track.add_note tr = { tr with notes := tr.notes ++ ns } := by
  intro ns
  induction ns with
  | nil =>
    intro tr _
    simp
  | cons n ns ih =>
    intro tr hpw
    rw [List.foldl_cons]
    have hsub : (tr.notes ++ [n]).Sublist (tr.notes ++ n :: ns) :=
      List.Sublist.append (List.Sublist.refl _)
        (List.cons_sublist_cons.mpr (List.nil_sublist ns))
    have hsort : (tr.notes ++ [n]).Pairwise noteLEP := hpw.sublist hsub
    have hadd : tr.add_note n = { tr with notes := tr.notes ++ [n] } := by
      unfold Track.add_note
      rw [List.Sorted.insertionSort_eq hsort]
    rw [hadd, ih { tr with notes := tr.notes ++ [n] } (by
      simp only [List.append_assoc, List.singleton_append]
      exact hpw)]
    simp

/-! ## No body line of the writer is a section header -/

lemma mem_opt {l x : PyStr} {P : Prop} [Decidable P]
    (h : l ∈ (if P then [x] else [])) : l = x := by
  split at h
  · simpa using h
  · simp at h

lemma isHeader_pstrip_trivial :
    isHeader (pstrip ['\x7b']) = false ∧ isHeader (pstrip ['\x7d']) = false ∧
      isHeader (pstrip []) = false := by decide

lemma head?_ne_nil {l : PyStr} (h : l ≠ []) : ∃ ch, l.head? = some ch := by
  cases l with
  | nil => exact absurd rfl h
  | cons a t => exact ⟨a, rfl⟩

lemma kvLine_head? (k v : PyStr) (hk : k ≠ []) :
    (kvLine k v).head? = k.head? := by
  unfold kvLine
  rw [List.head?_append_of_ne_nil _ (by simp [hk]),
    List.head?_append_of_ne_nil _ hk]

lemma isHeader_wline_kv_false (k v : PyStr)
    (hps : pstrip (kvLine k v) = kvLine k v) (hkne : k ≠ [])
    (hk : ∀ ch, k.head? = some ch → ch ≠ '[') :
    isHeader (pstrip (wline (kvLine k v))) = false := by
  rw [pstrip_wline, hps]
  obtain ⟨ch, hch⟩ := head?_ne_nil hkne
  exact isHeader_false_of_head _ ch (by rw [kvLine_head? k v hkne]; exact hch)
    (hk ch hch)

lemma intRepr_head_ne_lbracket (t : ℤ) :
    ∀ ch, (intRepr t).head? = some ch → ch ≠ '[' := by
  intro ch hc
  rcases intRepr_chars t ch (List.mem_of_mem_head? hc) with h | h
  · intro he
    subst he
    exact absurd h (by decide)
  · subst h
    decide

lemma isHeader_wline_tick_false (t : ℤ) (body : PyStr)
    (hps : pstrip (tickLine t body) = tickLine t body) :
    isHeader (pstrip (wline (tickLine t body))) = false := by
  have : pstrip (kvLine (intRepr t) body) = kvLine (intRepr t) body := hps
  exact isHeader_wline_kv_false (intRepr t) body this (intRepr_ne_nil t)
    (intRepr_head_ne_lbracket t)

lemma nonheader_append {a b : List PyStr}
    (ha : ∀ l ∈ a, isHeader (pstrip l) = false)
    (hb : ∀ l ∈ b, isHeader (pstrip l) = false) :
    ∀ l ∈ a ++ b, isHeader (pstrip l) = false := by
  intro l hl
  rcases List.mem_append.mp hl with h | h
  · exact ha l h
  · exact hb l h

lemma write_song_body_nonheader (c : Chart) :
    ∀ l ∈ write_song_body c, isHeader (pstrip l) = false := by
  unfold write_song_body
  refine nonheader_append (nonheader_append (nonheader_append
    (nonheader_append (nonheader_append (nonheader_append (nonheader_append
    (nonheader_append (nonheader_append (nonheader_append (nonheader_append
    (nonheader_append ?_ ?_) ?_) ?_) ?_) ?_) ?_) ?_) ?_) ?_) ?_) ?_) ?_
  · intro l hl
    rw [List.mem_singleton.mp hl]
    exact isHeader_pstrip_trivial.1
  · intro l hl
    rw [List.mem_singleton.mp hl]
    exact isHeader_wline_kv_false _ _
      (pstrip_kv_quoted _ _ (by decide) (by decide)) (by decide) (by decide)
  · intro l hl
    rw [List.mem_singleton.mp hl]
    exact isHeader_wline_kv_false _ _
      (pstrip_kv_quoted _ _ (by decide) (by decide)) (by decide) (by decide)
  · intro l hl
    rw [mem_opt hl]
    exact isHeader_wline_kv_false _ _
      (pstrip_kv_quoted _ _ (by decide) (by decide)) (by decide) (by decide)
  · intro l hl
    rw [mem_opt hl]
    exact isHeader_wline_kv_false _ _
      (pstrip_kv_quoted _ _ (by decide) (by decide)) (by decide) (by decide)
  · intro l hl
    rw [mem_opt hl]
    exact isHeader_wline_kv_false _ _
      (pstrip_kv_quoted _ _ (by decide) (by decide)) (by decide) (by decide)
  · intro l hl
    rw [mem_opt hl]
    exact isHeader_wline_kv_false _ _
      (pstrip_kv_quoted _ _ (by decide) (by decide)) (by decide) (by decide)
  · intro l hl
    rw [List.mem_singleton.mp hl]
    exact isHeader_wline_kv_false _ _
      (pstrip_kv_float _ _ (by decide) (by decide)) (by decide) (by decide)
  · intro l hl
    rw [List.mem_singleton.mp hl]
    exact isHeader_wline_kv_false _ _
      (pstrip_kv_int _ _ (by decide) (by decide)) (by decide) (by decide)
  · intro l hl
    rw [mem_opt hl]
    exact isHeader_wline_kv_false _ _
      (pstrip_kv_int _ _ (by decide) (by decide)) (by decide) (by decide)
  · intro l hl
    rw [mem_opt hl]
    exact isHeader_wline_kv_false _ _
      (pstrip_kv_float _ _ (by decide) (by decide)) (by decide) (by decide)
  · intro l hl
    rw [mem_opt hl]
    exact isHeader_wline_kv_false _ _
      (pstrip_kv_float _ _ (by decide) (by decide)) (by decide) (by decide)
  · intro l hl
    rcases List.mem_cons.mp hl with h | h
    · rw [h]
      exact isHeader_pstrip_trivial.2.1
    · rw [List.mem_singleton.mp h]
      exact isHeader_pstrip_trivial.2.2

lemma nonheader_wline_tick_map {α : Type} (f : α → ℤ) (g : α → PyStr)
    (xs : List α)
    (hps : ∀ x ∈ xs, pstrip (tickLine (f x) (g x)) = tickLine (f x) (g x)) :
    ∀ l ∈ xs.map (fun x => wline (tickLine (f x) (g x))),
      isHeader (pstrip l) = false := by
  intro l hl
  obtain ⟨x, hx, hfx⟩ := List.mem_map.mp hl
  rw [← hfx]
  exact isHeader_wline_tick_false _ _ (hps x hx)

lemma nonheader_flatMap {α : Type} (f : α → List PyStr) (xs : List α)
    (h : ∀ x ∈ xs, ∀ l ∈ f x, isHeader (pstrip l) = false) :
    ∀ l ∈ xs.flatMap f, isHeader (pstrip l) = false := by
  intro l hl
  obtain ⟨x, hx, hlx⟩ := List.mem_flatMap.mp hl
  exact h x hx l hlx

lemma write_sync_body_nonheader (c : Chart) :
    ∀ l ∈ write_sync_body c, isHeader (pstrip l) = false := by
  unfold write_sync_body
  refine nonheader_append (nonheader_append (nonheader_append ?_ ?_) ?_) ?_
  · intro l hl
    rw [List.mem_singleton.mp hl]
    exact isHeader_pstrip_trivial.1
  · exact nonheader_wline_tick_map _ _ _ (fun ts _ =>
      (tick_body_line_ok ts.tick (body2 (pys "TS") ts.numerator)
        (by unfold body2; simp [pys]) (body2_last _ _)).1)
  · exact nonheader_wline_tick_map _ _ _ (fun b _ =>
      (tick_body_line_ok b.tick (body2 (pys "B") b.milli_bpm)
        (by unfold body2; simp [pys]) (body2_last _ _)).1)
  · intro l hl
    rcases List.mem_cons.mp hl with h | h
    · rw [h]
      exact isHeader_pstrip_trivial.2.1
    · rw [List.mem_singleton.mp h]
      exact isHeader_pstrip_trivial.2.2

lemma write_events_body_nonheader (c : Chart) :
    ∀ l ∈ write_events_body c, isHeader (pstrip l) = false := by
  unfold write_events_body
  refine nonheader_append (nonheader_append (nonheader_append ?_ ?_) ?_) ?_
  · intro l hl
    rw [List.mem_singleton.mp hl]
    exact isHeader_pstrip_trivial.1
  · exact nonheader_wline_tick_map _ _ _ (fun s _ =>
      (tick_body_line_ok s.tick (pys "E \"section " ++ (s.name ++ ['"']))
        (by simp [pys])
        (by
          intro ch hc
          rw [quoteEnd_getLast] at hc
          rw [← Option.some.inj hc]
          decide)).1)
  · exact nonheader_wline_tick_map _ _ _ (fun e _ =>
      (tick_body_line_ok e.tick (pys "E \"" ++ (e.text ++ ['"']))
        (by simp [pys])
        (by
          intro ch hc
          rw [quoteEnd_getLast] at hc
          rw [← Option.some.inj hc]
          decide)).1)
  · intro l hl
    rcases List.mem_cons.mp hl with h | h
    · rw [h]
      exact isHeader_pstrip_trivial.2.1
    · rw [List.mem_singleton.mp h]
      exact isHeader_pstrip_trivial.2.2

lemma pstrip_nLine_self (t f s : ℤ) : pstrip (nLine t f s) = nLine t f s :=
  (tick_body_line_ok t (body3 (pys "N") f s)
    (by unfold body3; simp [pys]) (body3_last _ _ _)).1

lemma noteGroup_nonheader (n : Note) :
    ∀ l ∈ noteGroup n, isHeader (pstrip l) = false := by
  unfold noteGroup
  refine nonheader_append (nonheader_append ?_ ?_) ?_
  · intro l hl
    rw [List.mem_singleton.mp hl]
    exact isHeader_wline_tick_false _ _ (pstrip_nLine_self n.tick n.fret n.sustain)
  · intro l hl
    rw [mem_opt hl]
    exact isHeader_wline_tick_false _ _ (pstrip_nLine_self n.tick 5 0)
  · intro l hl
    rw [mem_opt hl]
    exact isHeader_wline_tick_false _ _ (pstrip_nLine_self n.tick 6 0)

lemma write_track_body_nonheader (t : Track) :
    ∀ l ∈ write_track_body t, isHeader (pstrip l) = false := by
  unfold write_track_body
  refine nonheader_append (nonheader_append (nonheader_append
    (nonheader_append ?_ ?_) ?_) ?_) ?_
  · intro l hl
    rw [List.mem_singleton.mp hl]
    exact isHeader_pstrip_trivial.1
  · exact nonheader_flatMap _ _ (fun n _ => noteGroup_nonheader n)
  · exact nonheader_wline_tick_map _ _ _ (fun sp _ =>
      (tick_body_line_ok sp.tick (body3 (pys "S") 2 sp.length)
        (by unfold body3; simp [pys]) (body3_last _ _ _)).1)
  · exact nonheader_wline_tick_map _ _ _ (fun e _ =>
      (tick_body_line_ok e.tick (pys "E \"" ++ (e.text ++ ['"']))
        (by simp [pys])
        (by
          intro ch hc
          rw [quoteEnd_getLast] at hc
          rw [← Option.some.inj hc]
          decide)).1)
  · intro l hl
    rcases List.mem_cons.mp hl with h | h
    · rw [h]
      exact isHeader_pstrip_trivial.2.1
    · rw [List.mem_singleton.mp h]
      exact isHeader_pstrip_trivial.2.2

lemma writeChunks_nonheader (c : Chart) :
    ∀ p ∈ writeChunks c, ∀ l ∈ p.2, isHeader (pstrip l) = false := by
  intro p hp
  unfold writeChunks at hp
  rcases List.mem_append.mp hp with h | h
  · rcases List.mem_cons.mp h with h | h
    · rw [h]
      exact write_song_body_nonheader c
    · rcases List.mem_cons.mp h with h | h
      · rw [h]
        exact write_sync_body_nonheader c
      · rw [List.mem_singleton.mp h]
        exact write_events_body_nonheader c
  · obtain ⟨q, _, hq⟩ := List.mem_flatMap.mp h
    obtain ⟨dp, _, hdp⟩ := List.mem_filterMap.mp hq
    cases hlook : pyLookup q.1 dp.1 with
    | none =>
      rw [hlook] at hdp
      simp at hdp
    | some tr =>
      rw [hlook] at hdp
      simp at hdp
      rw [← hdp]
      exact write_track_body_nonheader tr

/-! ## The written file splits back into its chunks -/

lemma filterMap_names_sublist (d : List (Difficulty × Track)) (iname : PyStr) :
    ∀ (dl : List (Difficulty × PyStr)),
    ((dl.filterMap (fun dp => (pyLookup d dp.1).map
      (fun tr => (dp.2 ++ iname, write_track_body tr)))).map Prod.fst).Sublist
      (dl.map (fun dp => dp.2 ++ iname)) := by
  intro dl
  induction dl with
  | nil => simp
  | cons dp rest ih =>
    rw [List.filterMap_cons, List.map_cons]
    cases pyLookup d dp.1 with
    | none => exact ih.cons _
    | some tr =>
      simp only [Option.map_some']
      rw [List.map_cons]
      exact ih.cons₂ _

lemma trackChunks_names_sublist :
    ∀ (ps : List (List (Difficulty × Track) × PyStr)),
    ((ps.flatMap (fun p => difficultiesOrder.filterMap (fun dp =>
      (pyLookup p.1 dp.1).map
        (fun tr => (dp.2 ++ p.2, write_track_body tr))))).map
        Prod.fst).Sublist
      (ps.flatMap (fun p => difficultiesOrder.map (fun dp => dp.2 ++ p.2))) := by
  intro ps
  induction ps with
  | nil => simp
  | cons p rest ih =>
    rw [List.flatMap_cons, List.flatMap_cons, List.map_append]
    exact List.Sublist.append (filterMap_names_sublist p.1 p.2 difficultiesOrder) ih

lemma writeChunks_names_nodup (c : Chart) :
    ((writeChunks c).map Prod.fst).Nodup := by
  unfold writeChunks
  rw [List.map_append]
  have hbig : ((([pys "Song", pys "SyncTrack", pys "Events"]) ++
      (instrumentDicts c).flatMap
        (fun p => difficultiesOrder.map (fun dp => dp.2 ++ p.2)))).Nodup := by
    rw [show (instrumentDicts c).flatMap
        (fun p => difficultiesOrder.map (fun dp => dp.2 ++ p.2)) =
      [pys "EasySingle", pys "MediumSingle", pys "HardSingle",
       pys "ExpertSingle", pys "EasyDoubleBass", pys "MediumDoubleBass",
       pys "HardDoubleBass", pys "ExpertDoubleBass", pys "EasyDoubleRhythm",
       pys "MediumDoubleRhythm", pys "HardDoubleRhythm",
       pys "ExpertDoubleRhythm", pys "EasyKeyboard", pys "MediumKeyboard",
       pys "HardKeyboard", pys "ExpertKeyboard", pys "EasyDrums",
       pys "MediumDrums", pys "HardDrums", pys "ExpertDrums",
       pys "EasyGHLGuitar", pys "MediumGHLGuitar", pys "HardGHLGuitar",
       pys "ExpertGHLGuitar", pys "EasyGHLBass", pys "MediumGHLBass",
       pys "HardGHLBass", pys "ExpertGHLBass"] from rfl]
    decide
  have hsub : ((([(pys "Song", write_song_body c),
      (pys "SyncTrack", write_sync_body c),
      (pys "Events", write_events_body c)] :
        List (PyStr × List PyStr)).map Prod.fst) ++
      ((instrumentDicts c).flatMap (fun p => difficultiesOrder.filterMap
        (fun dp => (pyLookup p.1 dp.1).map
          (fun tr => (dp.2 ++ p.2, write_track_body tr))))).map
        Prod.fst).Sublist
      (([pys "Song", pys "SyncTrack", pys "Events"]) ++
        (instrumentDicts c).flatMap
          (fun p => difficultiesOrder.map (fun dp => dp.2 ++ p.2))) :=
    List.Sublist.append (by simp) (trackChunks_names_sublist _)
  exact hbig.sublist hsub

lemma writeChunks_names_mem (c : Chart) :
    ∀ p ∈ writeChunks c, p.1 ∈
      ([pys "Song", pys "SyncTrack", pys "Events", pys "EasySingle",
        pys "MediumSingle", pys "HardSingle", pys "ExpertSingle",
        pys "EasyDoubleBass", pys "MediumDoubleBass", pys "HardDoubleBass",
        pys "ExpertDoubleBass", pys "EasyDoubleRhythm",
        pys "MediumDoubleRhythm", pys "HardDoubleRhythm",
        pys "ExpertDoubleRhythm", pys "EasyKeyboard", pys "MediumKeyboard",
        pys "HardKeyboard", pys "ExpertKeyboard", pys "EasyDrums",
        pys "MediumDrums", pys "HardDrums", pys "ExpertDrums",
        pys "EasyGHLGuitar", pys "MediumGHLGuitar", pys "HardGHLGuitar",
        pys "ExpertGHLGuitar", pys "EasyGHLBass", pys "MediumGHLBass",
        pys "HardGHLBass", pys "ExpertGHLBass"] : List PyStr) := by
  intro p hp
  have hsub : ((writeChunks c).map Prod.fst).Sublist
      (([pys "Song", pys "SyncTrack", pys "Events"]) ++
        (instrumentDicts c).flatMap
          (fun p => difficultiesOrder.map (fun dp => dp.2 ++ p.2))) := by
    unfold writeChunks
    rw [List.map_append]
    exact List.Sublist.append (by simp) (trackChunks_names_sublist _)
  have hmem := hsub.subset (List.mem_map.mpr ⟨p, hp, rfl⟩)
  rw [show (instrumentDicts c).flatMap
      (fun p => difficultiesOrder.map (fun dp => dp.2 ++ p.2)) =
    [pys "EasySingle", pys "MediumSingle", pys "HardSingle",
     pys "ExpertSingle", pys "EasyDoubleBass", pys "MediumDoubleBass",
     pys "HardDoubleBass", pys "ExpertDoubleBass", pys "EasyDoubleRhythm",
     pys "MediumDoubleRhythm", pys "HardDoubleRhythm",
     pys "ExpertDoubleRhythm", pys "EasyKeyboard", pys "MediumKeyboard",
     pys "HardKeyboard", pys "ExpertKeyboard", pys "EasyDrums",
     pys "MediumDrums", pys "HardDrums", pys "ExpertDrums",
     pys "EasyGHLGuitar", pys "MediumGHLGuitar", pys "HardGHLGuitar",
     pys "ExpertGHLGuitar", pys "EasyGHLBass", pys "MediumGHLBass",
     pys "HardGHLBass", pys "ExpertGHLBass"] from rfl] at hmem
  simpa using hmem

/-- Every section name the writer emits is nonempty (so the splitter's
`if current_section:` truthiness guard always stores it) and contains no
newline. -/
lemma writeChunks_names_ok (c : Chart) :
    ∀ p ∈ writeChunks c, p.1 ≠ [] ∧ '\n' ∉ p.1 := by
  intro p hp
  have hall : ∀ n ∈
      ([pys "Song", pys "SyncTrack", pys "Events", pys "EasySingle",
        pys "MediumSingle", pys "HardSingle", pys "ExpertSingle",
        pys "EasyDoubleBass", pys "MediumDoubleBass", pys "HardDoubleBass",
        pys "ExpertDoubleBass", pys "EasyDoubleRhythm",
        pys "MediumDoubleRhythm", pys "HardDoubleRhythm",
        pys "ExpertDoubleRhythm", pys "EasyKeyboard", pys "MediumKeyboard",
        pys "HardKeyboard", pys "ExpertKeyboard", pys "EasyDrums",
        pys "MediumDrums", pys "HardDrums", pys "ExpertDrums",
        pys "EasyGHLGuitar", pys "MediumGHLGuitar", pys "HardGHLGuitar",
        pys "ExpertGHLGuitar", pys "EasyGHLBass", pys "MediumGHLBass",
        pys "HardGHLBass", pys "ExpertGHLBass"] : List PyStr),
      n ≠ [] ∧ '\n' ∉ n := by decide
  exact hall p.1 (writeChunks_names_mem c p hp)

lemma split_write_file (c : Chart) :
    split_sections (write_file_lines c) =
      (writeChunks c).map (fun p => (p.1, contentFilter p.2)) := by
  unfold write_file_lines
  rw [split_sections_chunkLines _ (writeChunks_nonheader c)
    (fun p hp => (writeChunks_names_ok c p hp).1)]
  rw [foldl_dictSet_map _ [] (by
    rw [List.map_nil, List.nil_append]
    exact writeChunks_names_nodup c)]
  rw [List.nil_append]

/-! ## No line of the writer contains a newline -/

lemma noNL_cons {ch : Char} {l : PyStr} (hc : ch ≠ '\n') (hl : '\n' ∉ l) :
    '\n' ∉ ch :: l := by
  intro hm
  rcases List.mem_cons.mp hm with h | h
  · exact hc h.symm
  · exact hl h

lemma noNL_append {a b : PyStr} (ha : '\n' ∉ a) (hb : '\n' ∉ b) :
    '\n' ∉ a ++ b := by
  intro hm
  rcases List.mem_append.mp hm with h | h
  · exact ha h
  · exact hb h

lemma noNL_lines_append {a b : List PyStr}
    (ha : ∀ l ∈ a, '\n' ∉ l) (hb : ∀ l ∈ b, '\n' ∉ l) :
    ∀ l ∈ a ++ b, '\n' ∉ l := by
  intro l hl
  rcases List.mem_append.mp hl with h | h
  · exact ha l h
  · exact hb l h

lemma noNL_intRepr (i : ℤ) : '\n' ∉ intRepr i := by
  intro hm
  exact absurd (intRepr_no_ws i '\n' hm) (by decide)

lemma noNL_pyFloatRepr (q : ℚ) : '\n' ∉ pyFloatRepr q := by
  intro hm
  exact absurd (pyFloatRepr_no_ws q '\n' hm) (by decide)

lemma noNL_wline {l : PyStr} (h : '\n' ∉ l) : '\n' ∉ wline l :=
  noNL_cons (by decide) (noNL_cons (by decide) h)

lemma noNL_kvLine {k v : PyStr} (hk : '\n' ∉ k) (hv : '\n' ∉ v) :
    '\n' ∉ kvLine k v := by
  unfold kvLine
  exact noNL_append (noNL_append hk (by decide)) hv

lemma noNL_quoted {v : PyStr} (hv : '\n' ∉ v) : '\n' ∉ quoted v := by
  unfold quoted
  exact noNL_cons (by decide) (noNL_append hv (by decide))

lemma noNL_tickLine {body : PyStr} (t : ℤ) (hb : '\n' ∉ body) :
    '\n' ∉ tickLine t body := by
  unfold tickLine
  exact noNL_kvLine (noNL_intRepr t) hb

lemma noNL_body2 {w : PyStr} (a : ℤ) (hw : '\n' ∉ w) : '\n' ∉ body2 w a := by
  unfold body2
  exact noNL_append hw (noNL_cons (by decide) (noNL_intRepr a))

lemma noNL_body3 {w : PyStr} (a b : ℤ) (hw : '\n' ∉ w) :
    '\n' ∉ body3 w a b := by
  unfold body3
  exact noNL_append hw (noNL_cons (by decide)
    (noNL_append (noNL_intRepr a) (noNL_cons (by decide) (noNL_intRepr b))))

lemma noNL_nLine (t f s : ℤ) : '\n' ∉ nLine t f s := by
  unfold nLine
  exact noNL_tickLine t (noNL_body3 f s (by decide))

lemma noNL_hdrLine {n : PyStr} (hn : '\n' ∉ n) : '\n' ∉ hdrLine n := by
  unfold hdrLine
  exact noNL_cons (by decide) (noNL_append hn (by decide))

lemma mem_sortByTick {α : Type} (tickOf : α → ℤ) (l : List α) (x : α)
    (hx : x ∈ sortByTick tickOf l) : x ∈ l := by
  unfold sortByTick at hx
  exact (List.perm_insertionSort _ l).subset hx

lemma noNL_wline_tick_map {α : Type} (f : α → ℤ) (g : α → PyStr)
    (xs : List α) (hg : ∀ x ∈ xs, '\n' ∉ g x) :
    ∀ l ∈ xs.map (fun x => wline (tickLine (f x) (g x))), '\n' ∉ l := by
  intro l hl
  obtain ⟨x, hx, hfx⟩ := List.mem_map.mp hl
  rw [← hfx]
  exact noNL_wline (noNL_tickLine (f x) (hg x hx))

lemma noNL_lines_flatMap {α : Type} (f : α → List PyStr) (xs : List α)
    (h : ∀ x ∈ xs, ∀ l ∈ f x, '\n' ∉ l) :
    ∀ l ∈ xs.flatMap f, '\n' ∉ l := by
  intro l hl
  obtain ⟨x, hx, hlx⟩ := List.mem_flatMap.mp hl
  exact h x hx l hlx

lemma write_song_body_noNL (c : Chart)
    (hname : '\n' ∉ c.name) (hartist : '\n' ∉ c.artist)
    (halbum : '\n' ∉ c.album) (hgenre : '\n' ∉ c.genre)
    (hyear : '\n' ∉ c.year) (hcharter : '\n' ∉ c.charter) :
    ∀ l ∈ write_song_body c, '\n' ∉ l := by
  unfold write_song_body
  refine noNL_lines_append (noNL_lines_append (noNL_lines_append
    (noNL_lines_append (noNL_lines_append (noNL_lines_append
    (noNL_lines_append (noNL_lines_append (noNL_lines_append
    (noNL_lines_append (noNL_lines_append
    (noNL_lines_append ?_ ?_) ?_) ?_) ?_) ?_) ?_) ?_) ?_) ?_) ?_) ?_) ?_
  · intro l hl
    rw [List.mem_singleton.mp hl]
    decide
  · intro l hl
    rw [List.mem_singleton.mp hl]
    exact noNL_wline (noNL_kvLine (by decide) (noNL_quoted hname))
  · intro l hl
    rw [List.mem_singleton.mp hl]
    exact noNL_wline (noNL_kvLine (by decide) (noNL_quoted hartist))
  · intro l hl
    rw [mem_opt hl]
    exact noNL_wline (noNL_kvLine (by decide) (noNL_quoted halbum))
  · intro l hl
    rw [mem_opt hl]
    exact noNL_wline (noNL_kvLine (by decide) (noNL_quoted hgenre))
  · intro l hl
    rw [mem_opt hl]
    exact noNL_wline (noNL_kvLine (by decide) (noNL_quoted hyear))
  · intro l hl
    rw [mem_opt hl]
    exact noNL_wline (noNL_kvLine (by decide) (noNL_quoted hcharter))
  · intro l hl
    rw [List.mem_singleton.mp hl]
    exact noNL_wline (noNL_kvLine (by decide) (noNL_pyFloatRepr c.offset))
  · intro l hl
    rw [List.mem_singleton.mp hl]
    exact noNL_wline (noNL_kvLine (by decide) (noNL_intRepr c.resolution))
  · intro l hl
    rw [mem_opt hl]
    exact noNL_wline (noNL_kvLine (by decide) (noNL_intRepr c.difficulty))
  · intro l hl
    rw [mem_opt hl]
    exact noNL_wline (noNL_kvLine (by decide)
      (noNL_pyFloatRepr c.preview_start))
  · intro l hl
    rw [mem_opt hl]
    exact noNL_wline (noNL_kvLine (by decide)
      (noNL_pyFloatRepr c.preview_end))
  · intro l hl
    rcases List.mem_cons.mp hl with h | h
    · rw [h]
      decide
    · rw [List.mem_singleton.mp h]
      decide

lemma write_sync_body_noNL (c : Chart) :
    ∀ l ∈ write_sync_body c, '\n' ∉ l := by
  unfold write_sync_body
  refine noNL_lines_append (noNL_lines_append (noNL_lines_append ?_ ?_) ?_) ?_
  · intro l hl
    rw [List.mem_singleton.mp hl]
    decide
  · exact noNL_wline_tick_map _ _ _ (fun ts _ =>
      noNL_body2 ts.numerator (by decide))
  · exact noNL_wline_tick_map _ _ _ (fun b _ =>
      noNL_body2 b.milli_bpm (by decide))
  · intro l hl
    rcases List.mem_cons.mp hl with h | h
    · rw [h]
      decide
    · rw [List.mem_singleton.mp h]
      decide

lemma write_events_body_noNL (c : Chart)
    (hsec : ∀ s ∈ c.sections, '\n' ∉ s.name)
    (hev : ∀ e ∈ c.events, '\n' ∉ e.text) :
    ∀ l ∈ write_events_body c, '\n' ∉ l := by
  unfold write_events_body
  refine noNL_lines_append (noNL_lines_append (noNL_lines_append ?_ ?_) ?_) ?_
  · intro l hl
    rw [List.mem_singleton.mp hl]
    decide
  · exact noNL_wline_tick_map _ _ _ (fun s hs =>
      noNL_append (by decide)
        (noNL_append (hsec s (mem_sortByTick _ _ _ hs)) (by decide)))
  · exact noNL_wline_tick_map _ _ _ (fun e he =>
      noNL_append (by decide)
        (noNL_append (hev e (mem_sortByTick _ _ _ he)) (by decide)))
  · intro l hl
    rcases List.mem_cons.mp hl with h | h
    · rw [h]
      decide
    · rw [List.mem_singleton.mp h]
      decide

lemma noteGroup_noNL (n : Note) : ∀ l ∈ noteGroup n, '\n' ∉ l := by
  unfold noteGroup
  refine noNL_lines_append (noNL_lines_append ?_ ?_) ?_
  · intro l hl
    rw [List.mem_singleton.mp hl]
    exact noNL_wline (noNL_nLine n.tick n.fret n.sustain)
  · intro l hl
    rw [mem_opt hl]
    exact noNL_wline (noNL_nLine n.tick 5 0)
  · intro l hl
    rw [mem_opt hl]
    exact noNL_wline (noNL_nLine n.tick 6 0)

lemma write_track_body_noNL (t : Track)
    (hev : ∀ e ∈ t.events, '\n' ∉ e.text) :
    ∀ l ∈ write_track_body t, '\n' ∉ l := by
  unfold write_track_body
  refine noNL_lines_append (noNL_lines_append (noNL_lines_append
    (noNL_lines_append ?_ ?_) ?_) ?_) ?_
  · intro l hl
    rw [List.mem_singleton.mp hl]
    decide
  · exact noNL_lines_flatMap _ _ (fun n _ => noteGroup_noNL n)
  · exact noNL_wline_tick_map _ _ _ (fun sp _ =>
      noNL_body3 2 sp.length (by decide))
  · exact noNL_wline_tick_map _ _ _ (fun e he =>
      noNL_append (by decide)
        (noNL_append (hev e (mem_sortByTick _ _ _ he)) (by decide)))
  · intro l hl
    rcases List.mem_cons.mp hl with h | h
    · rw [h]
      decide
    · rw [List.mem_singleton.mp h]
      decide

lemma writeChunks_body_noNL (c : Chart)
    (hname : '\n' ∉ c.name) (hartist : '\n' ∉ c.artist)
    (halbum : '\n' ∉ c.album) (hgenre : '\n' ∉ c.genre)
    (hyear : '\n' ∉ c.year) (hcharter : '\n' ∉ c.charter)
    (hsec : ∀ s ∈ c.sections, '\n' ∉ s.name)
    (hev : ∀ e ∈ c.events, '\n' ∉ e.text)
    (htr : ∀ p ∈ instrumentDicts c, ∀ e ∈ p.1,
      ∀ ev ∈ e.2.events, '\n' ∉ ev.text) :
    ∀ p ∈ writeChunks c, ∀ l ∈ p.2, '\n' ∉ l := by
  intro p hp
  unfold writeChunks at hp
  rcases List.mem_append.mp hp with h | h
  · rcases List.mem_cons.mp h with h | h
    · rw [h]
      exact write_song_body_noNL c hname hartist halbum hgenre hyear hcharter
    · rcases List.mem_cons.mp h with h | h
      · rw [h]
        exact write_sync_body_noNL c
      · rw [List.mem_singleton.mp h]
        exact write_events_body_noNL c hsec hev
  · obtain ⟨q, hq, hq2⟩ := List.mem_flatMap.mp h
    obtain ⟨dp, hdp0, hdp⟩ := List.mem_filterMap.mp hq2
    cases hlook : pyLookup q.1 dp.1 with
    | none =>
      rw [hlook] at hdp
      simp at hdp
    | some tr =>
      rw [hlook] at hdp
      simp at hdp
      rw [← hdp]
      exact write_track_body_noNL tr
        (fun ev hevm => htr q hq (dp.1, tr) (pyLookup_mem hlook) ev hevm)

lemma chunkLines_cons (n : PyStr) (body : List PyStr)
    (rest : List (PyStr × List PyStr)) :
    chunkLines ((n, body) :: rest) = hdrLine n :: (body ++ chunkLines rest) :=
  rfl

lemma chunkLines_noNL :
    ∀ (cs : List (PyStr × List PyStr)),
      (∀ p ∈ cs, '\n' ∉ p.1 ∧ ∀ l ∈ p.2, '\n' ∉ l) →
      ∀ l ∈ chunkLines cs, '\n' ∉ l := by
  intro cs
  induction cs with
  | nil =>
    intro _ l hl
    simp [chunkLines] at hl
  | cons p rest ih =>
    intro h l hl
    obtain ⟨n, body⟩ := p
    rw [chunkLines_cons] at hl
    rcases List.mem_cons.mp hl with h1 | h1
    · rw [h1]
      exact noNL_hdrLine (h (n, body) (by simp)).1
    · rcases List.mem_append.mp h1 with h2 | h2
      · exact (h (n, body) (by simp)).2 l h2
      · exact ih (fun q hq => h q (by simp [hq])) l h2

/-- Under the well-formedness conditions, no output line of the writer
contains a newline, so the `'\n'` join/split of `write_file`/`parse_file`
recovers exactly the writer's lines. -/
lemma write_file_lines_noNL (c : Chart) (h : WFChart c) :
    ∀ l ∈ write_file_lines c, '\n' ∉ l := by
  obtain ⟨-, -, -, -, -, -, -, -, -, -, -, -, -, -, -, -, htracks,
    hnm, har, hal, hge, hyr, hch, hsec, hev⟩ := h
  unfold write_file_lines
  exact chunkLines_noNL (writeChunks c) (fun p hp =>
    ⟨(writeChunks_names_ok c p hp).2,
     writeChunks_body_noNL c hnm.1 har.1 hal.1 hge.1 hyr.1 hch.1
       (fun s hs => (hsec s hs).1) (fun e he => (hev e he).1)
       (fun q hq e he ev hevm => ((htracks q hq e he).2.2.2 ev hevm).1)
       p hp⟩)

lemma write_file_lines_ne_nil (c : Chart) : write_file_lines c ≠ [] := by
  unfold write_file_lines writeChunks
  rw [List.cons_append, chunkLines_cons]
  simp

/-! ## The track-section round trip -/

lemma contentFilter_wline_tick (t : ℤ) (body : PyStr)
    (hok : pstrip (tickLine t body) = tickLine t body ∧ tickLine t body ≠ [] ∧
      tickLine t body ≠ ['\x7b'] ∧ tickLine t body ≠ ['\x7d']) :
    contentFilter [wline (tickLine t body)] = [tickLine t body] := by
  unfold contentFilter
  rw [List.map_cons, List.map_nil, pstrip_wline, hok.1]
  simp [hok.2.1, hok.2.2.1, hok.2.2.2]

lemma contentFilter_wline_nLine (t f s : ℤ) :
    contentFilter [wline (nLine t f s)] = [nLine t f s] :=
  contentFilter_wline_tick t (body3 (pys "N") f s)
    (tick_body_line_ok _ _ (by unfold body3; simp [pys]) (body3_last _ _ _))

lemma contentFilter_noteGroup (n : Note) :
    contentFilter (noteGroup n) = strippedGroup n := by
  unfold noteGroup strippedGroup
  rw [contentFilter_append, contentFilter_append]
  rw [contentFilter_wline_nLine]
  rw [apply_ite contentFilter, apply_ite contentFilter]
  rw [contentFilter_wline_nLine, contentFilter_wline_nLine, contentFilter_nil]
  simp

lemma contentFilter_noteGroups (ns : List Note) :
    contentFilter (ns.flatMap noteGroup) = ns.flatMap strippedGroup := by
  induction ns with
  | nil => rfl
  | cons n ns ih =>
    rw [List.flatMap_cons, List.flatMap_cons, contentFilter_append,
      contentFilter_noteGroup, ih]

lemma contentFilter_write_track_body (t : Track)
    (hsorted : t.notes.Pairwise noteLEP) :
    contentFilter (write_track_body t) =
      t.notes.flatMap strippedGroup ++
      ((sortByTick StarPowerPhrase.tick t.star_power).map
        (fun sp => tickLine sp.tick (body3 (pys "S") 2 sp.length)) ++
      (sortByTick Event.tick t.events).map
        (fun e => tickLine e.tick (pys "E \"" ++ (e.text ++ ['"'])))) := by
  unfold write_track_body
  rw [show List.insertionSort noteLEP t.notes = t.notes from
    List.Sorted.insertionSort_eq hsorted]
  simp only [contentFilter_append, contentFilter_braces.1, contentFilter_close]
  rw [contentFilter_noteGroups]
  rw [contentFilter_wline_map _ _ (fun sp _ =>
    tick_body_line_ok sp.tick (body3 (pys "S") 2 sp.length)
      (by unfold body3; simp [pys]) (body3_last _ _ _))]
  rw [contentFilter_wline_map _ _ (fun e _ =>
    tick_body_line_ok e.tick (pys "E \"" ++ (e.text ++ ['"']))
      (by simp [pys])
      (by
        intro ch hc
        rw [quoteEnd_getLast] at hc
        rw [← Option.some.inj hc]
        decide))]
  simp

lemma noteLEP_of_lex {a b : Note}
    (h : a.tick < b.tick ∨ (a.tick = b.tick ∧ a.fret < b.fret)) : noteLEP a b := by
  unfold noteLEP
  omega

lemma track_lines_roundtrip (t : Track) (hWF : WFTrack t) :
    ∃ buf sp ev, parse_track_lines (contentFilter (write_track_body t))
        ([], ⟨[], [], []⟩) = .ok (buf, ⟨[], sp, ev⟩) ∧
      flushBuf buf ⟨[], sp, ev⟩ = ⟨t.notes, sp, ev⟩ := by
  obtain ⟨hsorted, hfields, huni, _⟩ := hWF
  have hsorted2 : t.notes.Pairwise noteLEP :=
    hsorted.imp noteLEP_of_lex
  rw [contentFilter_write_track_body t hsorted2]
  rw [parse_notes_run t.notes [] ⟨[], [], []⟩ _
    (fun n hn => hfields n hn)
    (by intro n _ e he; simp at he)
    (fun n hn m hm ht => huni n hn m hm ht)]
  obtain ⟨sp, ev, haux⟩ := parse_track_aux_run
    ((sortByTick StarPowerPhrase.tick t.star_power).map
        (fun sp => tickLine sp.tick (body3 (pys "S") 2 sp.length)) ++
      (sortByTick Event.tick t.events).map
        (fun e => tickLine e.tick (pys "E \"" ++ (e.text ++ ['"']))))
    (t.notes.foldl (fun b n => bufAdd b n.tick n.fret n) [], ⟨[], [], []⟩)
    (by
      intro l hl
      rcases List.mem_append.mp hl with h | h
      · obtain ⟨sp0, _, hsp⟩ := List.mem_map.mp h
        exact Or.inl ⟨sp0.tick, sp0.length, hsp.symm⟩
      · obtain ⟨e0, _, he0⟩ := List.mem_map.mp h
        exact Or.inr ⟨e0.tick, e0.text, he0.symm⟩)
  refine ⟨t.notes.foldl (fun b n => bufAdd b n.tick n.fret n) [], sp, ev, ?_, ?_⟩
  · rw [haux]
    simp
  · rw [flushBuf_flatten]
    have hinv0 : BufInv [] := by
      constructor
      · simp
      · intro e he
        simp at he
    obtain ⟨hflat, _⟩ := bufRun_flatten t.notes [] hinv0 (by
      show (bufFlatten [] ++ t.notes).Pairwise lexLT
      simpa [bufFlatten] using hsorted)
    rw [hflat]
    rw [show bufFlatten ([] : NoteBuf) ++ t.notes = t.notes by simp [bufFlatten]]
    rw [foldl_add_note_sorted t.notes ⟨[], sp, ev⟩ (by simpa using hsorted2)]
    rfl

/-- The track that `_parse_track_section` reconstructs from a written track's
section body. -/
def parsedTrack (t : Track) : Track :=
  match parse_track_lines (contentFilter (write_track_body t))
      ([], ⟨[], [], []⟩) with
  | .ok (buf, tr0) => flushBuf buf tr0
  | .error _ => ⟨[], [], []⟩

lemma parsedTrack_spec (t : Track) (hWF : WFTrack t) :
    (parsedTrack t).notes = t.notes ∧
    ∀ c0 name instname diff inst,
      matchDiffGo difficultyTable name = some (diff, instname) →
      pyLookup instrumentTable instname = some inst →
      parse_track_section c0 name (contentFilter (write_track_body t)) =
        .ok (c0.set_track inst diff (parsedTrack t)) := by
  obtain ⟨buf, sp, ev, hparse, hflush⟩ := track_lines_roundtrip t hWF
  have hpt : parsedTrack t = ⟨t.notes, sp, ev⟩ := by
    unfold parsedTrack
    rw [hparse]
    exact hflush
  constructor
  · rw [hpt]
  · intro c0 name instname diff inst hmd hil
    simp only [parse_track_section, hmd, hil, hparse]
    rw [hpt, hflush]

lemma parsedTrack_notes (t : Track) (hWF : WFTrack t) :
    (parsedTrack t).notes = t.notes := (parsedTrack_spec t hWF).1

lemma parse_track_section_ok (c0 : Chart) (name instname : PyStr)
    (diff : Difficulty) (inst : Instrument) (t : Track) (hWF : WFTrack t)
    (hmd : matchDiffGo difficultyTable name = some (diff, instname))
    (hil : pyLookup instrumentTable instname = some inst) :
    parse_track_section c0 name (contentFilter (write_track_body t)) =
      .ok (c0.set_track inst diff (parsedTrack t)) :=
  (parsedTrack_spec t hWF).2 c0 name instname diff inst hmd hil

/-- The instrument-name pairs actually emitted by `_write_tracks`, with
their parsed instruments. -/
def writtenInstruments : List (PyStr × Instrument) :=
  [(pys "Single", .GUITAR), (pys "DoubleBass", .BASS),
   (pys "DoubleRhythm", .RHYTHM), (pys "Keyboard", .KEYS),
   (pys "Drums", .DRUMS), (pys "GHLGuitar", .GHL_GUITAR),
   (pys "GHLBass", .GHL_BASS)]

lemma track_name_resolution :
    ∀ ip ∈ writtenInstruments,
      pyLookup instrumentTable ip.1 = some ip.2 ∧
      ∀ dp ∈ difficultiesOrder,
        matchDiffGo difficultyTable (dp.2 ++ ip.1) = some (dp.1, ip.1) ∧
        dp.2 ++ ip.1 ≠ pys "Song" ∧ dp.2 ++ ip.1 ≠ pys "SyncTrack" ∧
        dp.2 ++ ip.1 ≠ pys "Events" := by decide

/-- The parsed (name, filtered body) chunks of one instrument dict. -/
def trackChunksCF (d : List (Difficulty × Track)) (iname : PyStr) :
    List (PyStr × List PyStr) :=
  difficultiesOrder.filterMap (fun dp => (pyLookup d dp.1).map
    (fun tr => (dp.2 ++ iname, contentFilter (write_track_body tr))))

/-- The chart update performed by parsing one instrument dict's sections. -/
def foldTracks (inst : Instrument) (d : List (Difficulty × Track))
    (dl : List (Difficulty × PyStr)) (c0 : Chart) : Chart :=
  dl.foldl (fun cc dp =>
    match pyLookup d dp.1 with
    | some tr => cc.set_track inst dp.1 (parsedTrack tr)
    | none => cc) c0

lemma parse_trackChunks_run (d : List (Difficulty × Track)) (iname : PyStr)
    (inst : Instrument) (hil : pyLookup instrumentTable iname = some inst)
    (hWFd : ∀ e ∈ d, WFTrack e.2) :
    ∀ (dl : List (Difficulty × PyStr)) (c0 : Chart),
    (∀ dp ∈ dl,
      matchDiffGo difficultyTable (dp.2 ++ iname) = some (dp.1, iname) ∧
      dp.2 ++ iname ≠ pys "Song" ∧ dp.2 ++ iname ≠ pys "SyncTrack" ∧
      dp.2 ++ iname ≠ pys "Events") →
    parse_sections (dl.filterMap (fun dp => (pyLookup d dp.1).map
      (fun tr => (dp.2 ++ iname, contentFilter (write_track_body tr))))) c0 =
      .ok (foldTracks inst d dl c0) := by
  intro dl
  induction dl with
  | nil =>
    intro c0 _
    rfl
  | cons dp rest ih =>
    intro c0 h
    obtain ⟨hmd, hs1, hs2, hs3⟩ := h dp (by simp)
    unfold foldTracks
    rw [List.filterMap_cons, List.foldl_cons]
    cases hlook : pyLookup d dp.1 with
    | none => exact ih c0 (fun x hx => h x (by simp [hx]))
    | some tr =>
      simp only [Option.map_some']
      simp only [parse_sections]
      rw [if_neg hs1, if_neg hs2, if_neg hs3]
      rw [parse_track_section_ok c0 _ iname dp.1 inst tr
        (hWFd _ (pyLookup_mem hlook)) hmd hil]
      exact ih _ (fun x hx => h x (by simp [hx]))

lemma foldTracks_proj {α : Type} (f : Chart → α) (inst : Instrument)
    (d : List (Difficulty × Track))
    (hf : ∀ cc diff tr, f (cc.set_track inst diff tr) = f cc) :
    ∀ (dl : List (Difficulty × PyStr)) (cc : Chart),
      f (foldTracks inst d dl cc) = f cc := by
  intro dl
  induction dl with
  | nil =>
    intro cc
    rfl
  | cons dp rest ih =>
    intro cc
    unfold foldTracks at *
    rw [List.foldl_cons]
    cases pyLookup d dp.1 with
    | none => exact ih cc
    | some tr => rw [ih (cc.set_track inst dp.1 (parsedTrack tr)), hf]

lemma foldTracks_dict (inst : Instrument) (d : List (Difficulty × Track))
    (get : Chart → List (Difficulty × Track))
    (hget : ∀ cc diff tr,
      get (cc.set_track inst diff tr) = dictSet (get cc) diff tr) :
    ∀ (dl : List (Difficulty × PyStr)) (cc : Chart),
      get (foldTracks inst d dl cc) =
        dl.foldl (fun fld dp =>
          match pyLookup d dp.1 with
          | some tr => dictSet fld dp.1 (parsedTrack tr)
          | none => fld) (get cc) := by
  intro dl
  induction dl with
  | nil =>
    intro cc
    rfl
  | cons dp rest ih =>
    intro cc
    unfold foldTracks at *
    rw [List.foldl_cons, List.foldl_cons]
    cases pyLookup d dp.1 with
    | none => exact ih cc
    | some tr => rw [ih (cc.set_track inst dp.1 (parsedTrack tr)), hget]

lemma pyLookup_diff_fold (d : List (Difficulty × Track)) (diff : Difficulty) :
    pyLookup (difficultiesOrder.foldl (fun fld dp =>
      match pyLookup d dp.1 with
      | some tr => dictSet fld dp.1 (parsedTrack tr)
      | none => fld) []) diff = (pyLookup d diff).map parsedTrack := by
  cases diff <;>
    (rcases hE : pyLookup d .EASY with _ | tE <;>
     rcases hM : pyLookup d .MEDIUM with _ | tM <;>
     rcases hH : pyLookup d .HARD with _ | tH <;>
     rcases hX : pyLookup d .EXPERT with _ | tX <;>
     simp [difficultiesOrder, hE, hM, hH, hX, dictSet, pyLookup])

lemma mapped_writeChunks (c : Chart) :
    (writeChunks c).map (fun p => (p.1, contentFilter p.2)) =
      [(pys "Song", contentFilter (write_song_body c)),
       (pys "SyncTrack", contentFilter (write_sync_body c)),
       (pys "Events", contentFilter (write_events_body c))] ++
      (instrumentDicts c).flatMap (fun p => trackChunksCF p.1 p.2) := by
  unfold writeChunks trackChunksCF
  rw [List.map_append]
  congr 1
  induction instrumentDicts c with
  | nil => rfl
  | cons p ps ih =>
    rw [List.flatMap_cons, List.flatMap_cons, List.map_append, ih]
    congr 1
    induction difficultiesOrder with
    | nil => rfl
    | cons dp dl ih2 =>
      rw [List.filterMap_cons, List.filterMap_cons]
      cases pyLookup p.1 dp.1 with
      | none => exact ih2
      | some tr =>
        simp only [Option.map_some', List.map_cons]
        rw [ih2]

lemma parse_sections_cons_ok (s : PyStr × List PyStr)
    (rest : List (PyStr × List PyStr)) (c0 c1 : Chart)
    (hs : parse_sections [s] c0 = .ok c1) :
    parse_sections (s :: rest) c0 = parse_sections rest c1 := by
  obtain ⟨name, body⟩ := s
  simp only [parse_sections] at hs ⊢
  cases hcase : (if name = pys "Song" then parse_song_lines c0 body
      else if name = pys "SyncTrack" then parse_sync_lines c0 body
      else if name = pys "Events" then parse_events_lines c0 body
      else parse_track_section c0 name body) with
  | ok c2 =>
    rw [hcase] at hs
    simp at hs ⊢
    rw [hs]
  | error e =>
    rw [hcase] at hs
    simp at hs

lemma parse_sections_append_ok (l1 l2 : List (PyStr × List PyStr))
    (c0 c1 : Chart) (h1 : parse_sections l1 c0 = .ok c1) :
    parse_sections (l1 ++ l2) c0 = parse_sections l2 c1 := by
  rw [parse_sections_append, h1]

lemma parse_sections_one_song (c0 c1 : Chart) (body : List PyStr)
    (hb : parse_song_lines c0 body = .ok c1) :
    parse_sections [(pys "Song", body)] c0 = .ok c1 := by
  simp only [parse_sections, if_true]
  rw [hb]

lemma parse_sections_one_sync (c0 c1 : Chart) (body : List PyStr)
    (hb : parse_sync_lines c0 body = .ok c1) :
    parse_sections [(pys "SyncTrack", body)] c0 = .ok c1 := by
  simp only [parse_sections, if_true]
  rw [if_neg (by decide), hb]

lemma parse_sections_one_events (c0 c1 : Chart) (body : List PyStr)
    (hb : parse_events_lines c0 body = .ok c1) :
    parse_sections [(pys "Events", body)] c0 = .ok c1 := by
  simp only [parse_sections, if_true]
  rw [if_neg (by decide), if_neg (by decide), hb]

lemma parse_trackChunksCF_run (d : List (Difficulty × Track)) (iname : PyStr)
    (inst : Instrument) (hil : pyLookup instrumentTable iname = some inst)
    (hWFd : ∀ e ∈ d, WFTrack e.2)
    (hres : ∀ dp ∈ difficultiesOrder,
      matchDiffGo difficultyTable (dp.2 ++ iname) = some (dp.1, iname) ∧
      dp.2 ++ iname ≠ pys "Song" ∧ dp.2 ++ iname ≠ pys "SyncTrack" ∧
      dp.2 ++ iname ≠ pys "Events") (c0 : Chart) :
    parse_sections (trackChunksCF d iname) c0 =
      .ok (foldTracks inst d difficultiesOrder c0) :=
  parse_trackChunks_run d iname inst hil hWFd difficultiesOrder c0 hres

/-! ## Assembling the whole-file round trip -/

/-- The chart state after parsing the written `[Song]` section. -/
def songResult (c : Chart) : Chart :=
  { name := c.name, artist := c.artist, album := c.album, genre := c.genre,
    year := c.year, charter := c.charter, offset := c.offset,
    resolution := c.resolution, difficulty := c.difficulty,
    preview_start := c.preview_start, preview_end := c.preview_end }

/-- …after also parsing the written `[SyncTrack]` section (every
time-signature denominator parses back as the default 2). -/
def syncResult (c : Chart) : Chart :=
  { songResult c with
    bpm_changes := c.bpm_changes,
    time_signatures :=
      c.time_signatures.map (fun ts => ⟨ts.tick, ts.numerator, 2⟩) }

/-- …after also parsing the written `[Events]` section. -/
def eventsResult (c : Chart) (σ : List SectionMarker) (ε : List Event) :
    Chart :=
  { syncResult c with sections := σ, events := ε }

/-- …after also parsing all written instrument-track sections. -/
def tracksResult (c : Chart) (c3 : Chart) : Chart :=
  foldTracks .GHL_BASS c.ghl_bass difficultiesOrder
    (foldTracks .GHL_GUITAR c.ghl_guitar difficultiesOrder
      (foldTracks .DRUMS c.drums difficultiesOrder
        (foldTracks .KEYS c.keys difficultiesOrder
          (foldTracks .RHYTHM c.rhythm difficultiesOrder
            (foldTracks .BASS c.bass difficultiesOrder
              (foldTracks .GUITAR c.guitar difficultiesOrder c3))))))

lemma tracksResult_proj {α : Type} (f : Chart → α) (c c3 : Chart)
    (hf : ∀ inst cc diff tr, f (Chart.set_track cc inst diff tr) = f cc) :
    f (tracksResult c c3) = f c3 := by
  unfold tracksResult
  rw [foldTracks_proj f .GHL_BASS _ (fun cc diff tr => hf .GHL_BASS cc diff tr),
    foldTracks_proj f .GHL_GUITAR _ (fun cc diff tr => hf .GHL_GUITAR cc diff tr),
    foldTracks_proj f .DRUMS _ (fun cc diff tr => hf .DRUMS cc diff tr),
    foldTracks_proj f .KEYS _ (fun cc diff tr => hf .KEYS cc diff tr),
    foldTracks_proj f .RHYTHM _ (fun cc diff tr => hf .RHYTHM cc diff tr),
    foldTracks_proj f .BASS _ (fun cc diff tr => hf .BASS cc diff tr),
    foldTracks_proj f .GUITAR _ (fun cc diff tr => hf .GUITAR cc diff tr)]

lemma tracksResult_guitar (c c3 : Chart) :
    (tracksResult c c3).guitar =
      difficultiesOrder.foldl (fun fld dp =>
        match pyLookup c.guitar dp.1 with
        | some tr => dictSet fld dp.1 (parsedTrack tr)
        | none => fld) c3.guitar := by
  unfold tracksResult
  rw [foldTracks_proj Chart.guitar .GHL_BASS _ (fun _ _ _ => rfl),
    foldTracks_proj Chart.guitar .GHL_GUITAR _ (fun _ _ _ => rfl),
    foldTracks_proj Chart.guitar .DRUMS _ (fun _ _ _ => rfl),
    foldTracks_proj Chart.guitar .KEYS _ (fun _ _ _ => rfl),
    foldTracks_proj Chart.guitar .RHYTHM _ (fun _ _ _ => rfl),
    foldTracks_proj Chart.guitar .BASS _ (fun _ _ _ => rfl),
    foldTracks_dict .GUITAR _ Chart.guitar (fun _ _ _ => rfl)]

lemma tracksResult_bass (c c3 : Chart) :
    (tracksResult c c3).bass =
      difficultiesOrder.foldl (fun fld dp =>
        match pyLookup c.bass dp.1 with
        | some tr => dictSet fld dp.1 (parsedTrack tr)
        | none => fld) c3.bass := by
  unfold tracksResult
  rw [foldTracks_proj Chart.bass .GHL_BASS _ (fun _ _ _ => rfl),
    foldTracks_proj Chart.bass .GHL_GUITAR _ (fun _ _ _ => rfl),
    foldTracks_proj Chart.bass .DRUMS _ (fun _ _ _ => rfl),
    foldTracks_proj Chart.bass .KEYS _ (fun _ _ _ => rfl),
    foldTracks_proj Chart.bass .RHYTHM _ (fun _ _ _ => rfl),
    foldTracks_dict .BASS _ Chart.bass (fun _ _ _ => rfl),
    foldTracks_proj Chart.bass .GUITAR _ (fun _ _ _ => rfl)]

lemma tracksResult_rhythm (c c3 : Chart) :
    (tracksResult c c3).rhythm =
      difficultiesOrder.foldl (fun fld dp =>
        match pyLookup c.rhythm dp.1 with
        | some tr => dictSet fld dp.1 (parsedTrack tr)
        | none => fld) c3.rhythm := by
  unfold tracksResult
  rw [foldTracks_proj Chart.rhythm .GHL_BASS _ (fun _ _ _ => rfl),
    foldTracks_proj Chart.rhythm .GHL_GUITAR _ (fun _ _ _ => rfl),
    foldTracks_proj Chart.rhythm .DRUMS _ (fun _ _ _ => rfl),
    foldTracks_proj Chart.rhythm .KEYS _ (fun _ _ _ => rfl),
    foldTracks_dict .RHYTHM _ Chart.rhythm (fun _ _ _ => rfl),
    foldTracks_proj Chart.rhythm .BASS _ (fun _ _ _ => rfl),
    foldTracks_proj Chart.rhythm .GUITAR _ (fun _ _ _ => rfl)]

lemma tracksResult_keys (c c3 : Chart) :
    (tracksResult c c3).keys =
      difficultiesOrder.foldl (fun fld dp =>
        match pyLookup c.keys dp.1 with
        | some tr => dictSet fld dp.1 (parsedTrack tr)
        | none => fld) c3.keys := by
  unfold tracksResult
  rw [foldTracks_proj Chart.keys .GHL_BASS _ (fun _ _ _ => rfl),
    foldTracks_proj Chart.keys .GHL_GUITAR _ (fun _ _ _ => rfl),
    foldTracks_proj Chart.keys .DRUMS _ (fun _ _ _ => rfl),
    foldTracks_dict .KEYS _ Chart.keys (fun _ _ _ => rfl),
    foldTracks_proj Chart.keys .RHYTHM _ (fun _ _ _ => rfl),
    foldTracks_proj Chart.keys .BASS _ (fun _ _ _ => rfl),
    foldTracks_proj Chart.keys .GUITAR _ (fun _ _ _ => rfl)]

lemma tracksResult_drums (c c3 : Chart) :
    (tracksResult c c3).drums =
      difficultiesOrder.foldl (fun fld dp =>
        match pyLookup c.drums dp.1 with
        | some tr => dictSet fld dp.1 (parsedTrack tr)
        | none => fld) c3.drums := by
  unfold tracksResult
  rw [foldTracks_proj Chart.drums .GHL_BASS _ (fun _ _ _ => rfl),
    foldTracks_proj Chart.drums .GHL_GUITAR _ (fun _ _ _ => rfl),
    foldTracks_dict .DRUMS _ Chart.drums (fun _ _ _ => rfl),
    foldTracks_proj Chart.drums .KEYS _ (fun _ _ _ => rfl),
    foldTracks_proj Chart.drums .RHYTHM _ (fun _ _ _ => rfl),
    foldTracks_proj Chart.drums .BASS _ (fun _ _ _ => rfl),
    foldTracks_proj Chart.drums .GUITAR _ (fun _ _ _ => rfl)]

lemma tracksResult_ghl_guitar (c c3 : Chart) :
    (tracksResult c c3).ghl_guitar =
      difficultiesOrder.foldl (fun fld dp =>
        match pyLookup c.ghl_guitar dp.1 with
        | some tr => dictSet fld dp.1 (parsedTrack tr)
        | none => fld) c3.ghl_guitar := by
  unfold tracksResult
  rw [foldTracks_proj Chart.ghl_guitar .GHL_BASS _ (fun _ _ _ => rfl),
    foldTracks_dict .GHL_GUITAR _ Chart.ghl_guitar (fun _ _ _ => rfl),
    foldTracks_proj Chart.ghl_guitar .DRUMS _ (fun _ _ _ => rfl),
    foldTracks_proj Chart.ghl_guitar .KEYS _ (fun _ _ _ => rfl),
    foldTracks_proj Chart.ghl_guitar .RHYTHM _ (fun _ _ _ => rfl),
    foldTracks_proj Chart.ghl_guitar .BASS _ (fun _ _ _ => rfl),
    foldTracks_proj Chart.ghl_guitar .GUITAR _ (fun _ _ _ => rfl)]

lemma tracksResult_ghl_bass (c c3 : Chart) :
    (tracksResult c c3).ghl_bass =
      difficultiesOrder.foldl (fun fld dp =>
        match pyLookup c.ghl_bass dp.1 with
        | some tr => dictSet fld dp.1 (parsedTrack tr)
        | none => fld) c3.ghl_bass := by
  unfold tracksResult
  rw [foldTracks_dict .GHL_BASS _ Chart.ghl_bass (fun _ _ _ => rfl),
    foldTracks_proj Chart.ghl_bass .GHL_GUITAR _ (fun _ _ _ => rfl),
    foldTracks_proj Chart.ghl_bass .DRUMS _ (fun _ _ _ => rfl),
    foldTracks_proj Chart.ghl_bass .KEYS _ (fun _ _ _ => rfl),
    foldTracks_proj Chart.ghl_bass .RHYTHM _ (fun _ _ _ => rfl),
    foldTracks_proj Chart.ghl_bass .BASS _ (fun _ _ _ => rfl),
    foldTracks_proj Chart.ghl_bass .GUITAR _ (fun _ _ _ => rfl)]

lemma chart_roundtrip_main (c : Chart) (h : WFChart c) :
    ∃ c2 : Chart,
      parse_file_lines (write_file_lines c) = .ok c2 ∧
      c2.name = c.name ∧ c2.artist = c.artist ∧ c2.album = c.album ∧
      c2.genre = c.genre ∧ c2.year = c.year ∧ c2.charter = c.charter ∧
      c2.offset = c.offset ∧ c2.resolution = c.resolution ∧
      c2.bpm_changes = c.bpm_changes ∧
      c2.time_signatures =
        c.time_signatures.map (fun ts => ⟨ts.tick, ts.numerator, 2⟩) ∧
      ∀ inst diff, (c2.get_track inst diff).map Track.notes =
        (c.get_track inst diff).map Track.notes := by
  obtain ⟨hname, hartist, halbum, hgenre, hyear, hcharter, hgne, hoff, hpsf,
    hpef, hdiff, hps0, hpe0, hts, hbpm, hden, htracks, _, _, _, _, _, _, _,
    _⟩ := h
  obtain ⟨σ, ε, hev⟩ := parse_events_body_roundtrip c (syncResult c)
  have hG := track_name_resolution (pys "Single", .GUITAR) (by decide)
  have hB := track_name_resolution (pys "DoubleBass", .BASS) (by decide)
  have hR := track_name_resolution (pys "DoubleRhythm", .RHYTHM) (by decide)
  have hK := track_name_resolution (pys "Keyboard", .KEYS) (by decide)
  have hD := track_name_resolution (pys "Drums", .DRUMS) (by decide)
  have hGG := track_name_resolution (pys "GHLGuitar", .GHL_GUITAR) (by decide)
  have hGB := track_name_resolution (pys "GHLBass", .GHL_BASS) (by decide)
  have hWFguitar : ∀ e ∈ c.guitar, WFTrack e.2 :=
    htracks (c.guitar, pys "Single") (by simp [instrumentDicts])
  have hWFbass : ∀ e ∈ c.bass, WFTrack e.2 :=
    htracks (c.bass, pys "DoubleBass") (by simp [instrumentDicts])
  have hWFrhythm : ∀ e ∈ c.rhythm, WFTrack e.2 :=
    htracks (c.rhythm, pys "DoubleRhythm") (by simp [instrumentDicts])
  have hWFkeys : ∀ e ∈ c.keys, WFTrack e.2 :=
    htracks (c.keys, pys "Keyboard") (by simp [instrumentDicts])
  have hWFdrums : ∀ e ∈ c.drums, WFTrack e.2 :=
    htracks (c.drums, pys "Drums") (by simp [instrumentDicts])
  have hWFghlg : ∀ e ∈ c.ghl_guitar, WFTrack e.2 :=
    htracks (c.ghl_guitar, pys "GHLGuitar") (by simp [instrumentDicts])
  have hWFghlb : ∀ e ∈ c.ghl_bass, WFTrack e.2 :=
    htracks (c.ghl_bass, pys "GHLBass") (by simp [instrumentDicts])
  have hparse : parse_file_lines (write_file_lines c) =
      .ok (tracksResult c (eventsResult c σ ε)) := by
    unfold parse_file_lines
    rw [split_write_file, mapped_writeChunks]
    simp only [List.cons_append, List.nil_append]
    rw [parse_sections_cons_ok _ _ _ (songResult c)
      (parse_sections_one_song _ _ _
        (parse_song_body_roundtrip c hname hartist halbum hgenre hyear
          hcharter hgne hoff hpsf hpef hdiff hps0 hpe0))]
    rw [parse_sections_cons_ok _ _ _ (syncResult c)
      (parse_sections_one_sync _ _ _
        (parse_sync_body_roundtrip c (songResult c) hts hbpm hden))]
    rw [parse_sections_cons_ok _ _ _ (eventsResult c σ ε)
      (parse_sections_one_events _ _ _ hev)]
    rw [show (instrumentDicts c).flatMap (fun p => trackChunksCF p.1 p.2) =
      trackChunksCF c.guitar (pys "Single") ++
        (trackChunksCF c.bass (pys "DoubleBass") ++
          (trackChunksCF c.rhythm (pys "DoubleRhythm") ++
            (trackChunksCF c.keys (pys "Keyboard") ++
              (trackChunksCF c.drums (pys "Drums") ++
                (trackChunksCF c.ghl_guitar (pys "GHLGuitar") ++
                  (trackChunksCF c.ghl_bass (pys "GHLBass") ++ []))))))
      from by simp [instrumentDicts]]
    rw [parse_sections_append_ok _ _ _ _
      (parse_trackChunksCF_run c.guitar (pys "Single") .GUITAR hG.1
        hWFguitar hG.2 _)]
    rw [parse_sections_append_ok _ _ _ _
      (parse_trackChunksCF_run c.bass (pys "DoubleBass") .BASS hB.1
        hWFbass hB.2 _)]
    rw [parse_sections_append_ok _ _ _ _
      (parse_trackChunksCF_run c.rhythm (pys "DoubleRhythm") .RHYTHM hR.1
        hWFrhythm hR.2 _)]
    rw [parse_sections_append_ok _ _ _ _
      (parse_trackChunksCF_run c.keys (pys "Keyboard") .KEYS hK.1
        hWFkeys hK.2 _)]
    rw [parse_sections_append_ok _ _ _ _
      (parse_trackChunksCF_run c.drums (pys "Drums") .DRUMS hD.1
        hWFdrums hD.2 _)]
    rw [parse_sections_append_ok _ _ _ _
      (parse_trackChunksCF_run c.ghl_guitar (pys "GHLGuitar") .GHL_GUITAR
        hGG.1 hWFghlg hGG.2 _)]
    rw [parse_sections_append_ok _ _ _ _
      (parse_trackChunksCF_run c.ghl_bass (pys "GHLBass") .GHL_BASS
        hGB.1 hWFghlb hGB.2 _)]
    rfl
  have hmeta : ∀ (inst : Instrument) (cc : Chart) (diff : Difficulty)
      (tr : Track), True := fun _ _ _ _ => trivial
  refine ⟨tracksResult c (eventsResult c σ ε), hparse, ?_, ?_, ?_, ?_, ?_, ?_,
    ?_, ?_, ?_, ?_, ?_⟩
  · rw [tracksResult_proj Chart.name _ _
      (fun inst cc diff tr => by cases inst <;> rfl)]
    rfl
  · rw [tracksResult_proj Chart.artist _ _
      (fun inst cc diff tr => by cases inst <;> rfl)]
    rfl
  · rw [tracksResult_proj Chart.album _ _
      (fun inst cc diff tr => by cases inst <;> rfl)]
    rfl
  · rw [tracksResult_proj Chart.genre _ _
      (fun inst cc diff tr => by cases inst <;> rfl)]
    rfl
  · rw [tracksResult_proj Chart.year _ _
      (fun inst cc diff tr => by cases inst <;> rfl)]
    rfl
  · rw [tracksResult_proj Chart.charter _ _
      (fun inst cc diff tr => by cases inst <;> rfl)]
    rfl
  · rw [tracksResult_proj Chart.offset _ _
      (fun inst cc diff tr => by cases inst <;> rfl)]
    rfl
  · rw [tracksResult_proj Chart.resolution _ _
      (fun inst cc diff tr => by cases inst <;> rfl)]
    rfl
  · rw [tracksResult_proj Chart.bpm_changes _ _
      (fun inst cc diff tr => by cases inst <;> rfl)]
    rfl
  · rw [tracksResult_proj Chart.time_signatures _ _
      (fun inst cc diff tr => by cases inst <;> rfl)]
    rfl
  · intro inst diff
    cases inst with
    | GUITAR =>
      show (pyLookup (tracksResult c (eventsResult c σ ε)).guitar diff).map
          Track.notes = (pyLookup c.guitar diff).map Track.notes
      rw [tracksResult_guitar,
        show (eventsResult c σ ε).guitar = [] from rfl, pyLookup_diff_fold]
      cases hlk : pyLookup c.guitar diff with
      | none => rfl
      | some tr =>
        simp only [Option.map_some']
        rw [parsedTrack_notes tr (hWFguitar (diff, tr) (pyLookup_mem hlk))]
    | BASS =>
      show (pyLookup (tracksResult c (eventsResult c σ ε)).bass diff).map
          Track.notes = (pyLookup c.bass diff).map Track.notes
      rw [tracksResult_bass,
        show (eventsResult c σ ε).bass = [] from rfl, pyLookup_diff_fold]
      cases hlk : pyLookup c.bass diff with
      | none => rfl
      | some tr =>
        simp only [Option.map_some']
        rw [parsedTrack_notes tr (hWFbass (diff, tr) (pyLookup_mem hlk))]
    | RHYTHM =>
      show (pyLookup (tracksResult c (eventsResult c σ ε)).rhythm diff).map
          Track.notes = (pyLookup c.rhythm diff).map Track.notes
      rw [tracksResult_rhythm,
        show (eventsResult c σ ε).rhythm = [] from rfl, pyLookup_diff_fold]
      cases hlk : pyLookup c.rhythm diff with
      | none => rfl
      | some tr =>
        simp only [Option.map_some']
        rw [parsedTrack_notes tr (hWFrhythm (diff, tr) (pyLookup_mem hlk))]
    | COOP => rfl
    | KEYS =>
      show (pyLookup (tracksResult c (eventsResult c σ ε)).keys diff).map
          Track.notes = (pyLookup c.keys diff).map Track.notes
      rw [tracksResult_keys,
        show (eventsResult c σ ε).keys = [] from rfl, pyLookup_diff_fold]
      cases hlk : pyLookup c.keys diff with
      | none => rfl
      | some tr =>
        simp only [Option.map_some']
        rw [parsedTrack_notes tr (hWFkeys (diff, tr) (pyLookup_mem hlk))]
    | DRUMS =>
      show (pyLookup (tracksResult c (eventsResult c σ ε)).drums diff).map
          Track.notes = (pyLookup c.drums diff).map Track.notes
      rw [tracksResult_drums,
        show (eventsResult c σ ε).drums = [] from rfl, pyLookup_diff_fold]
      cases hlk : pyLookup c.drums diff with
      | none => rfl
      | some tr =>
        simp only [Option.map_some']
        rw [parsedTrack_notes tr (hWFdrums (diff, tr) (pyLookup_mem hlk))]
    | GHL_GUITAR =>
      show (pyLookup (tracksResult c (eventsResult c σ ε)).ghl_guitar
          diff).map Track.notes = (pyLookup c.ghl_guitar diff).map Track.notes
      rw [tracksResult_ghl_guitar,
        show (eventsResult c σ ε).ghl_guitar = [] from rfl, pyLookup_diff_fold]
      cases hlk : pyLookup c.ghl_guitar diff with
      | none => rfl
      | some tr =>
        simp only [Option.map_some']
        rw [parsedTrack_notes tr (hWFghlg (diff, tr) (pyLookup_mem hlk))]
    | GHL_BASS =>
      show (pyLookup (tracksResult c (eventsResult c σ ε)).ghl_bass diff).map
          Track.notes = (pyLookup c.ghl_bass diff).map Track.notes
      rw [tracksResult_ghl_bass,
        show (eventsResult c σ ε).ghl_bass = [] from rfl, pyLookup_diff_fold]
      cases hlk : pyLookup c.ghl_bass diff with
      | none => rfl
      | some tr =>
        simp only [Option.map_some']
        rw [parsedTrack_notes tr (hWFghlb (diff, tr) (pyLookup_mem hlk))]

lemma WFfloat_zero : WFfloat 0 := by
  unfold WFfloat
  have h1 : (0 : ℚ).den = 1 := rfl
  rw [h1]
  have h2 : decExp 1 = 0 := by decide
  rw [h2]
  norm_num

lemma WFChart_no_tracks (ts0 : List TimeSignature)
    (hts : ts0.Pairwise (fun a b => a.tick ≤ b.tick)) :
    WFChart { time_signatures := ts0 } := by
  refine ⟨show cleanStr (pys "Untitled") from ⟨by decide, by decide⟩,
    show cleanStr (pys "Unknown Artist") from ⟨by decide, by decide⟩,
    show cleanStr [] from ⟨by decide, by decide⟩,
    show cleanStr (pys "rock") from ⟨by decide, by decide⟩,
    show cleanStr [] from ⟨by decide, by decide⟩,
    show cleanStr [] from ⟨by decide, by decide⟩,
    show pys "rock" ≠ [] by decide, WFfloat_zero, WFfloat_zero, WFfloat_zero,
    show (-1 : ℤ) ≤ -1 by decide, le_refl (0 : ℚ), le_refl (0 : ℚ),
    hts, List.Pairwise.nil, by simp, ?_,
    show noNewline (pys "Untitled") from ⟨by decide, by decide⟩,
    show noNewline (pys "Unknown Artist") from ⟨by decide, by decide⟩,
    show noNewline [] from ⟨by decide, by decide⟩,
    show noNewline (pys "rock") from ⟨by decide, by decide⟩,
    show noNewline [] from ⟨by decide, by decide⟩,
    show noNewline [] from ⟨by decide, by decide⟩,
    by intro s hs; exact absurd hs (by simp),
    by intro e he; exact absurd he (by simp)⟩
  intro p hp
  simp only [instrumentDicts, List.mem_cons, List.not_mem_nil, or_false] at hp
  rcases hp with hp | hp | hp | hp | hp | hp | hp <;>
    (subst hp; intro e he; exact absurd he (by simp))

lemma WFChart_default : WFChart {} :=
  WFChart_no_tracks [] List.Pairwise.nil

/-- On the well-formed domain no writer line contains a newline, so parsing
the written text is parsing the writer's lines: the `'\n'.join` of
`write_file` and the `.split('\n')` of `parse_file` cancel. -/
lemma chart_roundtrip_content (c : Chart) (h : WFChart c) :
    parse_file (write_file c) = parse_file_lines (write_file_lines c) := by
  unfold parse_file write_file
  rw [pySplitNL_pyJoinNL _ (write_file_lines_ne_nil c)
    (write_file_lines_noNL c h)]

/-- Counterexample to the unrestricted C1 round trip at a concrete chart:
writing a chart whose single time signature has denominator (exponent) 3 and
re-parsing the written text yields denominator 2 — `write_file` emits
`tick = TS numerator` without the denominator, and the parser defaults the
missing field to 2. The tempo timeline is therefore not preserved
exactly. -/
theorem chart_roundtrip_denominator_counterexample :
    ∃ c2 : Chart,
      parse_file (write_file
        { time_signatures := [⟨0, 6, 3⟩] }) = .ok c2 ∧
      c2.time_signatures = [⟨0, 6, 2⟩] ∧
      ({ time_signatures := [⟨0, 6, 3⟩] } : Chart).time_signatures =
        [⟨0, 6, 3⟩] := by
  have hWF : WFChart { time_signatures := [⟨0, 6, 3⟩] } :=
    WFChart_no_tracks [⟨0, 6, 3⟩] (by simp)
  obtain ⟨c2, hp, _, _, _, _, _, _, _, _, _, hts, _⟩ :=
    chart_roundtrip_main { time_signatures := [⟨0, 6, 3⟩] } hWF
  refine ⟨c2, ?_, ?_, rfl⟩
  · rw [chart_roundtrip_content _ hWF]
    exact hp
  · rw [hts]
    rfl

/-- C1 (amended): for every well-formed chart — metadata strings free of
leading/trailing quotes, every string the writer embeds (metadata, section
names, event texts) free of CR/LF, nonempty genre, nonnegative
difficulty/preview values, finite-decimal floats, tick-sorted tempo lists
with integral milli-BPM, and tracks whose notes are strictly
(tick, fret)-sorted with default velocity, no notes on the flag frets 5/6,
the open flag tied to fret 7, and uniform forced/tap flags per tick —
writing the text with `ChartParser.write_file` and re-parsing it with
`ChartParser.parse_file` succeeds and yields a chart with identical
metadata (name, artist, album, genre, year, charter, offset, resolution),
identical BPM changes, time signatures preserved in tick and numerator but
with every denominator exponent parsed back as the default 2 (the writer
drops the denominator), and identical note content (tick, fret, sustain,
forced/tap/open flags) in every track of every instrument. -/
theorem chart_write_parse_roundtrip (c : Chart) (h : WFChart c) :
    ∃ c2 : Chart,
      parse_file (write_file c) = .ok c2 ∧
      c2.name = c.name ∧ c2.artist = c.artist ∧ c2.album = c.album ∧
      c2.genre = c.genre ∧ c2.year = c.year ∧ c2.charter = c.charter ∧
      c2.offset = c.offset ∧ c2.resolution = c.resolution ∧
      c2.bpm_changes = c.bpm_changes ∧
      c2.time_signatures =
        c.time_signatures.map (fun ts => ⟨ts.tick, ts.numerator, 2⟩) ∧
      ∀ inst diff, (c2.get_track inst diff).map Track.notes =
        (c.get_track inst diff).map Track.notes := by
  rw [chart_roundtrip_content c h]
  exact chart_roundtrip_main c h

/-- Witness for the amended C1 at the default chart. -/
theorem chart_write_parse_roundtrip_witness :
    WFChart {} ∧
    ∃ c2 : Chart,
      parse_file (write_file {}) = .ok c2 ∧
      c2.name = ({} : Chart).name ∧ c2.artist = ({} : Chart).artist ∧
      c2.album = ({} : Chart).album ∧ c2.genre = ({} : Chart).genre ∧
      c2.year = ({} : Chart).year ∧ c2.charter = ({} : Chart).charter ∧
      c2.offset = ({} : Chart).offset ∧
      c2.resolution = ({} : Chart).resolution ∧
      c2.bpm_changes = ({} : Chart).bpm_changes ∧
      c2.time_signatures =
        ({} : Chart).time_signatures.map
          (fun ts => ⟨ts.tick, ts.numerator, 2⟩) ∧
      ∀ inst diff, (c2.get_track inst diff).map Track.notes =
        (({} : Chart).get_track inst diff).map Track.notes :=
  ⟨WFChart_default, chart_write_parse_roundtrip {} WFChart_default⟩
